import Mathlib

/-!
Verification of the LHEQ hockey statistics compiler (`lheq_stats.py`).

This file gives a shallow embedding of the statistics pipeline:
the name normalizer, the goalie-start resolver, the powerplay-interval
calculator, the league ledger (`HockeyStatsCompiler.process_games`),
the division matcher (`DivisionAssigner`) and the formation inference
engine (`FormationDetector`), together with theorems about them.

Modelling conventions:
* Python `str` values are modelled as Lean `String` / `List Char`.
* `unicodedata.normalize('NFD', ·)` followed by removal of combining
  marks (category `Mn`) is modelled by a finite decomposition table
  covering the Latin-1 accented letters the data uses, identity on
  every other character; `str.upper` / `str.lower` are modelled by
  finite case tables (ASCII plus the same accented letters), identity
  elsewhere; `str.strip()` is modelled by trimming the ASCII whitespace
  characters recognised by Python at both ends.
* Python dicts keyed by ids are modelled as functions `Nat → Option α`
  when only lookups matter, and as insertion-ordered association
  lists when the code iterates over `.items()` (Python dicts preserve
  insertion order).
* Python truthiness on optional ids/names (`if not player_id`) is
  modelled explicitly: `none`, `some 0` and `some ""` are falsy.
* Accessing a missing key of a plain dict (a `KeyError` in Python) is
  modelled as a no-op update; every theorem below only exercises
  inputs on which the Python code performs no such access.
-/

set_option maxHeartbeats 1000000

namespace Lheq

/-! ### Character-level model for `normalize_name`

`HockeyStatsCompiler.normalize_name` does
`unicodedata.normalize('NFD', name)`, drops category-`Mn` characters,
then `.upper().strip()`. -/

/-- Association-list lookup (model of a Python dict lookup). -/
def alookup {α : Type} (tbl : List (Char × α)) (c : Char) : Option α :=
  match tbl with
  | [] => none
  | (k, v) :: rest => if c = k then some v else alookup rest c

/-- Combining diacritical marks (Unicode category `Mn` characters that
appear in NFD decompositions of Latin letters): U+0300–U+036F. -/
def isMn (c : Char) : Bool :=
  decide (0x300 ≤ c.toNat ∧ c.toNat ≤ 0x36F)

/-- NFD decomposition table for the precomposed accented Latin letters
occurring in the data (French team/player names); every other
character decomposes to itself. -/
def nfdTable : List (Char × List Char) :=
  [ ('à', ['a', '̀']), ('â', ['a', '̂']), ('ä', ['a', '̈']),
    ('ç', ['c', '̧']), ('è', ['e', '̀']), ('é', ['e', '́']),
    ('ê', ['e', '̂']), ('ë', ['e', '̈']), ('î', ['i', '̂']),
    ('ï', ['i', '̈']), ('ô', ['o', '̂']), ('ö', ['o', '̈']),
    ('ù', ['u', '̀']), ('û', ['u', '̂']), ('ü', ['u', '̈']),
    ('ÿ', ['y', '̈']),
    ('À', ['A', '̀']), ('Â', ['A', '̂']), ('Ä', ['A', '̈']),
    ('Ç', ['C', '̧']), ('È', ['E', '̀']), ('É', ['E', '́']),
    ('Ê', ['E', '̂']), ('Ë', ['E', '̈']), ('Î', ['I', '̂']),
    ('Ï', ['I', '̈']), ('Ô', ['O', '̂']), ('Ö', ['O', '̈']),
    ('Ù', ['U', '̀']), ('Û', ['U', '̂']), ('Ü', ['U', '̈']) ]

/-- One character's NFD decomposition. -/
def nfdDecompose (c : Char) : List Char :=
  (alookup nfdTable c).getD [c]

/-- Case table for `str.upper`: ASCII letters plus the accented
lowercase letters of `nfdTable` (which map to their accented uppercase
forms, as Python's `str.upper` does); identity elsewhere. -/
def upperTable : List (Char × Char) :=
  [ ('a', 'A'), ('b', 'B'), ('c', 'C'), ('d', 'D'), ('e', 'E'), ('f', 'F'),
    ('g', 'G'), ('h', 'H'), ('i', 'I'), ('j', 'J'), ('k', 'K'), ('l', 'L'),
    ('m', 'M'), ('n', 'N'), ('o', 'O'), ('p', 'P'), ('q', 'Q'), ('r', 'R'),
    ('s', 'S'), ('t', 'T'), ('u', 'U'), ('v', 'V'), ('w', 'W'), ('x', 'X'),
    ('y', 'Y'), ('z', 'Z'),
    ('à', 'À'), ('â', 'Â'), ('ä', 'Ä'), ('ç', 'Ç'), ('è', 'È'), ('é', 'É'),
    ('ê', 'Ê'), ('ë', 'Ë'), ('î', 'Î'), ('ï', 'Ï'), ('ô', 'Ô'), ('ö', 'Ö'),
    ('ù', 'Ù'), ('û', 'Û'), ('ü', 'Ü'), ('ÿ', 'Ÿ') ]

/-- Model of Python `str.upper` on one character. -/
def pyUpper (c : Char) : Char :=
  (alookup upperTable c).getD c

/-- Case table for `str.lower` (used by the division matcher). -/
def lowerTable : List (Char × Char) :=
  [ ('A', 'a'), ('B', 'b'), ('C', 'c'), ('D', 'd'), ('E', 'e'), ('F', 'f'),
    ('G', 'g'), ('H', 'h'), ('I', 'i'), ('J', 'j'), ('K', 'k'), ('L', 'l'),
    ('M', 'm'), ('N', 'n'), ('O', 'o'), ('P', 'p'), ('Q', 'q'), ('R', 'r'),
    ('S', 's'), ('T', 't'), ('U', 'u'), ('V', 'v'), ('W', 'w'), ('X', 'x'),
    ('Y', 'y'), ('Z', 'z'),
    ('À', 'à'), ('Â', 'â'), ('Ä', 'ä'), ('Ç', 'ç'), ('È', 'è'), ('É', 'é'),
    ('Ê', 'ê'), ('Ë', 'ë'), ('Î', 'î'), ('Ï', 'ï'), ('Ô', 'ô'), ('Ö', 'ö'),
    ('Ù', 'ù'), ('Û', 'û'), ('Ü', 'ü'), ('Ÿ', 'ÿ') ]

/-- Model of Python `str.lower` on one character. -/
def pyLower (c : Char) : Char :=
  (alookup lowerTable c).getD c

/-- Whitespace characters removed by Python's `str.strip()`
(the ASCII ones; the data contains no exotic Unicode spaces). -/
def isPySpace (c : Char) : Bool :=
  c = ' ' || c = '\t' || c = '\n' || c = '\x0b' || c = '\x0c' || c = '\r'

/-- NFD-decompose a character string and drop the combining marks:
model of `''.join(c for c in normalized if unicodedata.category(c) != 'Mn')`. -/
def stripAccents : List Char → List Char
  | [] => []
  | c :: l => ((nfdDecompose c).filter (fun x => !isMn x)) ++ stripAccents l

/-- Model of Python `str.strip()`: drop leading and trailing whitespace. -/
def pyStrip (l : List Char) : List Char :=
  ((l.dropWhile isPySpace).reverse.dropWhile isPySpace).reverse

/-- `HockeyStatsCompiler.normalize_name`: NFD-decompose, drop combining
marks, uppercase, strip. -/
def normalize_name (s : String) : String :=
  String.mk (pyStrip ((stripAccents s.data).map pyUpper))

/-! #### Idempotence of the normalizer (claim C8) -/

/-- A character that the normalization pipeline leaves unchanged. -/
def normalChar (c : Char) : Prop :=
  nfdDecompose c = [c] ∧ isMn c = false ∧ pyUpper c = c

instance (c : Char) : Decidable (normalChar c) := by
  unfold normalChar; infer_instance

theorem alookup_eq_none {α : Type} (tbl : List (Char × α)) (c : Char)
    (h : ∀ p ∈ tbl, p.1 ≠ c) : alookup tbl c = none := by
  induction tbl with
  | nil => rfl
  | cons p rest ih =>
    obtain ⟨k, v⟩ := p
    simp only [alookup]
    rw [if_neg, ih]
    · intro q hq; exact h q (List.mem_cons_of_mem _ hq)
    · intro hc; exact h (k, v) (List.mem_cons_self _ _) hc.symm

theorem alookup_mem {α : Type} {tbl : List (Char × α)} {c : Char} {v : α}
    (h : alookup tbl c = some v) : (c, v) ∈ tbl := by
  induction tbl with
  | nil => simp [alookup] at h
  | cons p rest ih =>
    obtain ⟨k, w⟩ := p
    simp only [alookup] at h
    by_cases hc : c = k
    · rw [if_pos hc] at h
      cases h; subst hc; exact List.mem_cons_self _ _
    · rw [if_neg hc] at h
      exact List.mem_cons_of_mem _ (ih h)

/-- Every right-hand side of `upperTable` whose key is not itself an
NFD key is a fixpoint of the whole pipeline. -/
theorem upperTable_sound :
    ∀ p ∈ upperTable, alookup nfdTable p.1 ≠ none ∨ normalChar p.2 := by
  decide

/-- Decomposition outputs are combining marks or pipeline-stable bases. -/
theorem nfdTable_sound :
    ∀ p ∈ nfdTable, ∀ d ∈ p.2, isMn d = true ∨
      (alookup nfdTable d = none ∧ isMn d = false) := by
  decide

theorem pyUpper_normal_of_plain {c : Char}
    (hn : alookup nfdTable c = none) (hm : isMn c = false) :
    normalChar (pyUpper c) := by
  unfold pyUpper
  cases h : alookup upperTable c with
  | none =>
    simp only [Option.getD]
    exact ⟨by simp [nfdDecompose, hn], hm, by simp [pyUpper, h]⟩
  | some v =>
    simp only [Option.getD]
    have hv := upperTable_sound (c, v) (alookup_mem h)
    rcases hv with hv | hv
    · exact absurd hn hv
    · exact hv

theorem charPipeline_normal {c d : Char}
    (h : d ∈ ((nfdDecompose c).filter (fun x => !isMn x)).map pyUpper) :
    normalChar d := by
  rcases List.mem_map.mp h with ⟨x, hx, rfl⟩
  rcases List.mem_filter.mp hx with ⟨hxd, hxm⟩
  have hxm' : isMn x = false := by
    cases hmn : isMn x
    · rfl
    · rw [hmn] at hxm; simp at hxm
  cases hl : alookup nfdTable c with
  | none =>
    have : nfdDecompose c = [c] := by simp [nfdDecompose, hl]
    rw [this] at hxd
    rcases List.mem_singleton.mp hxd with rfl
    exact pyUpper_normal_of_plain hl hxm'
  | some ds =>
    have hds : nfdDecompose c = ds := by simp [nfdDecompose, hl]
    rw [hds] at hxd
    have := nfdTable_sound (c, ds) (alookup_mem hl) x hxd
    rcases this with hmn | ⟨hnone, _⟩
    · rw [hmn] at hxm'; cases hxm'
    · exact pyUpper_normal_of_plain hnone hxm'

theorem mem_stripAccents {l : List Char} {d : Char} (h : d ∈ stripAccents l) :
    ∃ c ∈ l, d ∈ (nfdDecompose c).filter (fun x => !isMn x) := by
  induction l with
  | nil => simp [stripAccents] at h
  | cons a l ih =>
    simp only [stripAccents, List.mem_append] at h
    rcases h with h | h
    · exact ⟨a, List.mem_cons_self _ _, h⟩
    · rcases ih h with ⟨c, hc, hd⟩
      exact ⟨c, List.mem_cons_of_mem _ hc, hd⟩

theorem strip_map_normal {l : List Char} {d : Char}
    (h : d ∈ (stripAccents l).map pyUpper) : normalChar d := by
  rcases List.mem_map.mp h with ⟨x, hx, rfl⟩
  rcases mem_stripAccents hx with ⟨c, _, hxc⟩
  exact charPipeline_normal (List.mem_map_of_mem pyUpper hxc)

theorem mem_dropWhile {p : Char → Bool} {l : List Char} {a : Char}
    (h : a ∈ l.dropWhile p) : a ∈ l := by
  induction l with
  | nil => simp [List.dropWhile] at h
  | cons b l ih =>
    by_cases hb : p b
    · rw [List.dropWhile_cons_of_pos hb] at h
      exact List.mem_cons_of_mem _ (ih h)
    · rw [List.dropWhile_cons_of_neg hb] at h
      exact h

theorem mem_pyStrip {l : List Char} {a : Char} (h : a ∈ pyStrip l) : a ∈ l := by
  unfold pyStrip at h
  rw [List.mem_reverse] at h
  have h1 := mem_dropWhile h
  rw [List.mem_reverse] at h1
  exact mem_dropWhile h1

theorem dropWhile_dropWhile (p : Char → Bool) (l : List Char) :
    (l.dropWhile p).dropWhile p = l.dropWhile p := by
  induction l with
  | nil => rfl
  | cons a l ih =>
    by_cases ha : p a
    · rw [List.dropWhile_cons_of_pos ha, ih]
    · rw [List.dropWhile_cons_of_neg ha, List.dropWhile_cons_of_neg ha]

theorem head_dropWhile_false {p : Char → Bool} {l : List Char} {a : Char}
    (h : (l.dropWhile p).head? = some a) : p a = false := by
  induction l with
  | nil => simp [List.dropWhile] at h
  | cons b l ih =>
    by_cases hb : p b
    · rw [List.dropWhile_cons_of_pos hb] at h; exact ih h
    · rw [List.dropWhile_cons_of_neg hb] at h
      simp only [List.head?, Option.some.injEq] at h
      subst h
      cases hpb : p b
      · rfl
      · exact absurd hpb hb

theorem dropWhile_eq_self_of_head {p : Char → Bool} {l : List Char}
    (h : ∀ a, l.head? = some a → p a = false) : l.dropWhile p = l := by
  cases l with
  | nil => rfl
  | cons a l =>
    have := h a rfl
    rw [List.dropWhile_cons_of_neg (by simp [this])]

theorem getLast?_dropWhile {p : Char → Bool} {l : List Char}
    (h : l.dropWhile p ≠ []) : (l.dropWhile p).getLast? = l.getLast? := by
  induction l with
  | nil => simp [List.dropWhile] at h
  | cons a l ih =>
    by_cases ha : p a
    · rw [List.dropWhile_cons_of_pos ha] at h ⊢
      have hl : l ≠ [] := by
        intro hnil; rw [hnil] at h; exact h rfl
      rw [ih h]
      cases l with
      | nil => exact absurd rfl hl
      | cons b l' => rw [List.getLast?_cons_cons]
    · rw [List.dropWhile_cons_of_neg ha]

theorem pyStrip_idem (l : List Char) : pyStrip (pyStrip l) = pyStrip l := by
  unfold pyStrip
  set w := l.dropWhile isPySpace with hw
  -- the inner strip, written as a trailing trim of `w`
  set t := (w.reverse.dropWhile isPySpace).reverse with ht
  -- leading trim of `t` is trivial: the head of `t` is the head of `w`
  have hlead : t.dropWhile isPySpace = t := by
    apply dropWhile_eq_self_of_head
    intro a hha
    by_cases hte : w.reverse.dropWhile isPySpace = []
    · rw [ht, hte] at hha; simp at hha
    · have : t.head? = w.head? := by
        rw [ht, List.head?_reverse, getLast?_dropWhile hte,
          List.getLast?_reverse]
      rw [this, hw] at hha
      exact head_dropWhile_false hha
  rw [hlead]
  -- trailing trim of `t` is trivial by `dropWhile` idempotence
  rw [ht, List.reverse_reverse, dropWhile_dropWhile]

theorem stripAccents_of_normal {l : List Char}
    (h : ∀ c ∈ l, normalChar c) : stripAccents l = l := by
  induction l with
  | nil => rfl
  | cons a l ih =>
    have ha := h a (List.mem_cons_self _ _)
    simp only [stripAccents]
    rw [ha.1, ih (fun c hc => h c (List.mem_cons_of_mem _ hc))]
    simp [ha.2.1]

theorem map_pyUpper_of_normal {l : List Char}
    (h : ∀ c ∈ l, normalChar c) : l.map pyUpper = l := by
  induction l with
  | nil => rfl
  | cons a l ih =>
    simp only [List.map]
    rw [(h a (List.mem_cons_self _ _)).2.2,
      ih (fun c hc => h c (List.mem_cons_of_mem _ hc))]

/-- Claim C8: the name normalizer is idempotent —
`normalize_name (normalize_name s) = normalize_name s` for every string. -/
theorem C8_normalize_name_idempotent (s : String) :
    normalize_name (normalize_name s) = normalize_name s := by
  unfold normalize_name
  have hdata : (String.mk (pyStrip ((stripAccents s.data).map pyUpper))).data
      = pyStrip ((stripAccents s.data).map pyUpper) := rfl
  rw [hdata]
  set u := (stripAccents s.data).map pyUpper with hu
  have hnorm : ∀ c ∈ pyStrip u, normalChar c := by
    intro c hc
    exact strip_map_normal (l := s.data) (by rw [← hu]; exact mem_pyStrip hc)
  rw [stripAccents_of_normal hnorm, map_pyUpper_of_normal hnorm,
    pyStrip_idem]

/-! ### Data model

Mirrors the JSON game records consumed by `HockeyStatsCompiler`.
Optional ids and names model Python `None` / missing keys; Python
truthiness (`if not player_id`) treats `None`, `0` and `""` as falsy. -/

/-- Python truthiness of an optional integer. -/
def truthyN : Option Nat → Bool
  | none => false
  | some n => n != 0

/-- Python truthiness of an optional string. -/
def truthyS : Option String → Bool
  | none => false
  | some s => s != ""

structure Participant where
  participantId : Option Nat
  fullName : Option String
deriving DecidableEq

structure Assist where
  participantId : Option Nat
  fullName : Option String
deriving DecidableEq

structure Goal where
  participant : Participant
  teamId : Option Nat
  assists : List Assist
  isPowerplay : Bool
  isShorthanded : Bool
deriving DecidableEq

/-- A penalty record; `period`/`minutes`/`seconds` carry the values of
`int(game_time.get(..., default))` (defaults `1`/`0`/`0` already
applied), `durationName` is `penalty['duration']['name']` when present. -/
structure Penalty where
  participant : Participant
  teamId : Option Nat
  durationName : Option String
  period : Int
  minutes : Int
  seconds : Int
deriving DecidableEq

/-- A roster entry. A missing `positions` key and an empty list both
make every use of the field fall back to its default, so both are
modelled as `[]`. -/
structure RosterEntry where
  participantId : Option Nat
  participant : Participant
  positions : List String
  number : Option Nat
deriving DecidableEq

structure TeamInfo where
  id : Nat
  name : String
deriving DecidableEq

structure Boxscore where
  teams : List TeamInfo
  goals : List Goal
  penalties : List Penalty
  roster : List RosterEntry
deriving DecidableEq

/-- The two accepted forms of the `starting_goalies` hint object. -/
inductive StartingGoalies where
  | newFormat (home_goalie away_goalie : Option String)
  | oldFormat (goalies : List (Option String))
deriving DecidableEq

structure Game where
  id : Nat
  home_score : Nat
  away_score : Nat
  boxscore : Option Boxscore
  home_team_roster : List RosterEntry
  away_team_roster : List RosterEntry
  starting_goalies : Option StartingGoalies
deriving DecidableEq

/-! ### Goalie-start resolver -/

/-- The per-game starting-goalie name pool collected by
`load_starting_goalies`: both formats are flattened into one list,
home hint first, skipping falsy names. -/
def goalieNamesOf (g : Game) : List String :=
  match g.starting_goalies with
  | none => []
  | some (.newFormat h a) =>
      (if truthyS h then [h.getD ""] else []) ++
      (if truthyS a then [a.getD ""] else [])
  | some (.oldFormat gs) =>
      gs.filterMap (fun n => if truthyS n then some (n.getD "") else none)

/-- `self.starting_goalies`: game id → pooled starter names. -/
abbrev SGMap := Nat → Option (List String)

def sgStep (m : SGMap) (g : Game) : SGMap :=
  let ns := goalieNamesOf g
  if ns = [] then m else fun gid => if gid = g.id then some ns else m gid

/-- `HockeyStatsCompiler.load_starting_goalies`. -/
def load_starting_goalies (games : List Game) : SGMap :=
  games.foldl sgStep (fun _ => none)

/-- The goalie record collected by the roster heuristic. -/
structure GoalieRec where
  name : String
  pid : Nat
  number : Nat
deriving DecidableEq

/-- Strict comparison of the Python sort keys
`(0, number)` for valid numbers / `(1, name)` for invalid ones. -/
def goalieSortLt (g1 g2 : GoalieRec) : Bool :=
  if g1.number = 999 then
    if g2.number = 999 then decide (g1.name < g2.name) else false
  else
    if g2.number = 999 then true else decide (g1.number < g2.number)

def insertSorted {α : Type} (lt : α → α → Bool) (x : α) : List α → List α
  | [] => [x]
  | y :: l => if lt x y then x :: y :: l else y :: insertSorted lt x l

/-- Stable sort (model of Python `list.sort(key=...)`): elements are
inserted left to right, each placed after the existing elements whose
key is not strictly greater. -/
def stableSort {α : Type} (lt : α → α → Bool) (l : List α) : List α :=
  l.foldl (fun acc x => insertSorted lt x acc) []

/-- `HockeyStatsCompiler._is_likely_starting_goalie`.

The Python source rebinds its `player_name` parameter inside the
roster loop (`player_name = participant.get('fullName')` for every
roster entry with a `'G'` position), so all comparisons after the loop
use the last such entry's name, not the candidate's.  The second
component of the fold state models that shadowed variable. -/
def likely_starting_goalie (player_name : Option String) (team_id : Nat)
    (game_data : Game) : Bool :=
  let teams := (game_data.boxscore.map Boxscore.teams).getD []
  match teams with
  | home_team :: _ :: _ =>
    let roster := if team_id = home_team.id then game_data.home_team_roster
      else game_data.away_team_roster
    let step := fun (acc : List GoalieRec × Option String) (p : RosterEntry) =>
      if "G" ∈ p.positions then
        let nm := p.participant.fullName
        if truthyN p.participantId && truthyS nm then
          let number := match p.number with
            | none => 999
            | some 0 => 999
            | some n => n
          (acc.1 ++ [⟨nm.getD "", p.participantId.getD 0, number⟩], nm)
        else (acc.1, nm)
      else acc
    let res := roster.foldl step ([], player_name)
    let goalies := res.1
    let pname := res.2
    match goalies with
    | [] => true
    | [g0] => decide (some g0.name = pname)
    | _ =>
      let sorted := stableSort goalieSortLt goalies
      let valid := sorted.filter (fun g => g.number ≠ 999)
      match valid with
      | v0 :: _ => decide (some v0.name = pname)
      | [] =>
        if sorted.any (fun g => some g.name = pname) then
          decide ((sorted.findIdx (fun g => some g.name = pname)) < 2)
        else false
  | _ => true

/-- `HockeyStatsCompiler.is_starting_goalie`.

When the game has hint data the candidate's normalized name is
compared against every pooled hint name; otherwise the roster
heuristic runs when both `team_id` and `game_data` are truthy, and
every goalie is credited when they are not.  (With hints present and
`player_name = None` the Python code would raise; that unreachable
path is modelled as `false`.) -/
def is_starting_goalie (sg : SGMap) (game_id : Nat)
    (player_name : Option String) (team_id : Option Nat)
    (game_data : Option Game) : Bool :=
  match sg game_id with
  | some starting_names =>
    match player_name with
    | some nm =>
        starting_names.any (fun s => normalize_name s = normalize_name nm)
    | none => false
  | none =>
    match team_id, game_data with
    | some t, some g => if t ≠ 0 then likely_starting_goalie player_name t g else true
    | _, _ => true

/-! #### Resolver lemmas and claims C2, C7, C10 -/

theorem foldl_sgStep_preserve (games : List Game) (m : SGMap) (gid : Nat)
    (h : ∀ g ∈ games, g.id ≠ gid) : (games.foldl sgStep m) gid = m gid := by
  induction games generalizing m with
  | nil => rfl
  | cons x rest ih =>
    rw [List.foldl_cons, ih _ (fun g hg => h g (List.mem_cons_of_mem _ hg))]
    unfold sgStep
    by_cases hns : goalieNamesOf x = []
    · rw [if_pos hns]
    · rw [if_neg hns]
      simp [Ne.symm (h x (List.mem_cons_self _ _))]

theorem foldl_sgStep_char (games : List Game) :
    ∀ (m : SGMap) (g : Game), g ∈ games → (games.map Game.id).Nodup →
      goalieNamesOf g ≠ [] →
      (games.foldl sgStep m) g.id = some (goalieNamesOf g) := by
  induction games with
  | nil => intro m g hg _ _; cases hg
  | cons x rest ih =>
    intro m g hg hnd hne
    rw [List.map_cons, List.nodup_cons] at hnd
    rcases List.mem_cons.mp hg with rfl | hg'
    · rw [List.foldl_cons,
        foldl_sgStep_preserve rest (sgStep m g) g.id
          (fun g' hgm hid => hnd.1 (hid ▸ List.mem_map_of_mem Game.id hgm))]
      unfold sgStep
      rw [if_neg hne]
      simp
    · rw [List.foldl_cons]
      exact ih (sgStep m x) g hg' hnd.2 hne

theorem load_sg_char (games : List Game) (g : Game) (hg : g ∈ games)
    (hnd : (games.map Game.id).Nodup) (hne : goalieNamesOf g ≠ []) :
    load_starting_goalies games g.id = some (goalieNamesOf g) :=
  foldl_sgStep_char games (fun _ => none) g hg hnd hne

/-- Claim C10: with hints present, `is_starting_goalie` returns `true`
exactly when the candidate's normalized name equals a normalized name
of the pooled per-game hint list; the team id and game data arguments
are ignored; and `load_starting_goalies` pools the home and away hint
names of a game into that one list (home first), so the pool carries
both teams' hinted starters. -/
theorem C10_hints_pooled_and_team_ignored :
    (∀ (sg : SGMap) (gid : Nat) (nm : String) (tid tid' : Option Nat)
        (gd gd' : Option Game) (ns : List String), sg gid = some ns →
      (is_starting_goalie sg gid (some nm) tid gd = true ↔
        ∃ s ∈ ns, normalize_name s = normalize_name nm) ∧
      is_starting_goalie sg gid (some nm) tid gd =
        is_starting_goalie sg gid (some nm) tid' gd') ∧
    (∀ (games : List Game) (g : Game) (h a : String), g ∈ games →
      (games.map Game.id).Nodup →
      g.starting_goalies = some (.newFormat (some h) (some a)) →
      h ≠ "" → a ≠ "" →
      load_starting_goalies games g.id = some [h, a]) := by
  constructor
  · intro sg gid nm tid tid' gd gd' ns hns
    unfold is_starting_goalie
    rw [hns]
    refine ⟨?_, rfl⟩
    rw [List.any_eq_true]
    simp only [decide_eq_true_eq]
  · intro games g h a hg hnd hsg hh ha
    have hnames : goalieNamesOf g = [h, a] := by
      unfold goalieNamesOf
      rw [hsg]
      simp [truthyS, hh, ha]
    rw [← hnames]
    exact load_sg_char games g hg hnd (by rw [hnames]; simp)

/-- Concrete instantiation of `C10_hints_pooled_and_team_ignored`. -/
theorem C10_witness :
    ((fun gid => if gid = 3 then some ["A B", "C D"] else none) 3
        = some ["A B", "C D"]) ∧
    (is_starting_goalie
        (fun gid => if gid = 3 then some ["A B", "C D"] else none)
        3 (some "c d") (some 7) none = true ↔
      ∃ s ∈ ["A B", "C D"], normalize_name s = normalize_name "c d") := by
  refine ⟨rfl, ?_⟩
  exact ((C10_hints_pooled_and_team_ignored.1
    (fun gid => if gid = 3 then some ["A B", "C D"] else none)
    3 "c d" (some 7) none none none ["A B", "C D"] rfl).1)

/-- The game used for claim C7: an explicit home-starter hint
`"J. SMITH"` and two roster goalies `"j.  smith"` (note the doubled
internal space) and `"T. JONES"`. -/
def gameC7 : Game :=
  { id := 1, home_score := 0, away_score := 0,
    boxscore := some { teams := [⟨10, "HOME"⟩, ⟨20, "AWAY"⟩], goals := [], penalties := [], roster := [] },
    home_team_roster :=
      [ { participantId := some 1, participant := ⟨some 1, some "j.  smith"⟩,
          positions := ["G"], number := some 1 },
        { participantId := some 2, participant := ⟨some 2, some "T. JONES"⟩,
          positions := ["G"], number := some 35 } ],
    away_team_roster := [],
    starting_goalies := some (.newFormat (some "J. SMITH") none) }

/-- The hint map loaded from the claim C7 batch. -/
def sgC7 : SGMap := load_starting_goalies [gameC7]

/-- Claim C7 is false as stated: `normalize_name` uppercases and strips
leading/trailing whitespace but does not collapse internal whitespace,
so with the hint `"J. SMITH"` the roster goalie `"j.  smith"` (internal
double space) is NOT resolved as starter. -/
theorem C7_counterexample :
    is_starting_goalie sgC7 1 (some "j.  smith") (some 10) (some gameC7)
      = false := by decide

/-- Claim C7 (amended): with the hint `"J. SMITH"`, a goalie name
differing only in case and in leading/trailing whitespace is resolved
as starter, `"T. JONES"` is not, and with a hint present the result
ignores the team id and game data (no roster heuristic is applied). -/
theorem C7_hint_matching_amended :
    ∀ (t : Option Nat) (gd : Option Game),
      is_starting_goalie sgC7 1 (some " j. smith ") t gd = true ∧
      is_starting_goalie sgC7 1 (some "T. JONES") t gd = false := by
  intro t gd
  exact ⟨rfl, rfl⟩

/-- The game used for claim C2: two home-roster goalies with valid
jersey numbers, `"ALICE"` (#1, lowest) and `"BOB"` (#30), no hints. -/
def gameC2 : Game :=
  { id := 5, home_score := 0, away_score := 0,
    boxscore := some { teams := [⟨10, "HOME"⟩, ⟨20, "AWAY"⟩], goals := [], penalties := [], roster := [] },
    home_team_roster :=
      [ { participantId := some 1, participant := ⟨some 1, some "ALICE"⟩,
          positions := ["G"], number := some 1 },
        { participantId := some 2, participant := ⟨some 2, some "BOB"⟩,
          positions := ["G"], number := some 30 } ],
    away_team_roster := [], starting_goalies := none }

/-- `gameC2` with the two roster entries swapped, so the lowest-number
goalie is the last `'G'` entry. -/
def gameC2rev : Game :=
  { gameC2 with home_team_roster := gameC2.home_team_roster.reverse }

/-- Claim C2 exhibits a code bug: because the Python source rebinds
`player_name` inside the roster loop, the no-hint fallback compares the
lowest-numbered goalie's name against the LAST `'G'` roster entry's
name instead of the candidate's.  On `gameC2` (roster order ALICE #1,
BOB #30) no candidate at all is credited — in particular ALICE (#1),
whom the source's own comments say is the starter, gets `false`; with
the roster order reversed, every candidate is credited. -/
theorem C2_shadowed_candidate :
    is_starting_goalie (fun _ => none) 5 (some "ALICE") (some 10)
        (some gameC2) = false ∧
    is_starting_goalie (fun _ => none) 5 (some "BOB") (some 10)
        (some gameC2) = false ∧
    is_starting_goalie (fun _ => none) 5 (some "ALICE") (some 10)
        (some gameC2rev) = true ∧
    is_starting_goalie (fun _ => none) 5 (some "BOB") (some 10)
        (some gameC2rev) = true := by
  refine ⟨by decide, by decide, by decide, by decide⟩

/-! ### Powerplay-interval calculator -/

/-- Is `sub` a contiguous substring of `l`?  Model of Python `in` on
strings. -/
def isInfixList (sub : List Char) : List Char → Bool
  | [] => sub = ([] : List Char)
  | c :: t => sub.isPrefixOf (c :: t) || isInfixList sub t

/-- Python `sub in s` for strings. -/
def strIn (sub s : String) : Bool := isInfixList sub.data s.data

/-- A penalty converted to a half-open interval `[start, stop)` in
seconds from game start. -/
structure PenaltyEvent where
  team_id : Nat
  start : Int
  stop : Int
deriving DecidableEq

/-- Penalty duration in seconds from the duration-name substrings
(`calculate_powerplay_opportunities` uses default name `'Minor'`). -/
def penaltyDurationSecs (p : Penalty) : Int :=
  let duration_name := p.durationName.getD "Minor"
  if strIn "Minor" duration_name || strIn "Mineure" duration_name then 120
  else if strIn "Major" duration_name || strIn "Majeure" duration_name then 300
  else if strIn "Misconduct" duration_name then 600
  else 120

/-- `(period - 1) * 1200 + minutes * 60 + seconds`. -/
def penaltyStartSecs (p : Penalty) : Int :=
  (p.period - 1) * 1200 + p.minutes * 60 + p.seconds

/-- Convert the penalty list to events, skipping falsy team ids. -/
def penaltyEventsOf (penalties : List Penalty) : List PenaltyEvent :=
  penalties.filterMap (fun p =>
    match p.teamId with
    | some tid =>
        if tid ≠ 0 then
          some ⟨tid, penaltyStartSecs p, penaltyStartSecs p + penaltyDurationSecs p⟩
        else none
    | none => none)

/-- Number of penalties of team `tid` active at instant `t`
(`sum(1 for p in penalty_events if ...)`). -/
def activePenalties (events : List PenaltyEvent) (tid : Nat) (t : Int) : Nat :=
  events.countP (fun p => p.team_id = tid && p.start ≤ t && t < p.stop)

def insertAsc (x : Int) : List Int → List Int
  | [] => [x]
  | y :: l => if x ≤ y then x :: y :: l else y :: insertAsc x l

/-- Model of Python `sorted` on a duplicate-free list of ints. -/
def sortAsc (l : List Int) : List Int := l.foldr insertAsc []

/-- The sorted set of interval boundary timestamps. -/
def timePoints (events : List PenaltyEvent) : List Int :=
  sortAsc ((events.foldl (fun acc e => acc ++ [e.start, e.stop]) []).dedup)

/-- One iteration of the sweep: state is
(opportunity counts, previous home-PP flag, previous away-PP flag). -/
def ppStep (events : List PenaltyEvent) (home_team_id away_team_id : Nat)
    (st : (Nat → Nat) × Bool × Bool) (current_time : Int) :
    (Nat → Nat) × Bool × Bool :=
  let home_penalties := activePenalties events home_team_id current_time
  let away_penalties := activePenalties events away_team_id current_time
  let home_has_pp : Bool := away_penalties > home_penalties
  let away_has_pp : Bool := home_penalties > away_penalties
  let pp1 := if home_has_pp && !st.2.1 then
      (fun t => if t = home_team_id then st.1 t + 1 else st.1 t) else st.1
  let pp2 := if away_has_pp && !st.2.2 then
      (fun t => if t = away_team_id then pp1 t + 1 else pp1 t) else pp1
  (pp2, home_has_pp, away_has_pp)

/-- `HockeyStatsCompiler.calculate_powerplay_opportunities`: returns the
opportunity-count dict (`.get(team, 0)` semantics, so a total map). The
loop runs over `time_points[0 .. len-2]`, counting a rising edge of
each team's powerplay condition. -/
def calculate_powerplay_opportunities (game : Game)
    (home_team_id away_team_id : Nat) : Nat → Nat :=
  match game.boxscore with
  | none => fun _ => 0
  | some b =>
    if b.penalties = [] then fun _ => 0
    else
      let events := penaltyEventsOf b.penalties
      let tps := timePoints events
      (tps.dropLast.foldl (ppStep events home_team_id away_team_id)
        (fun _ => 0, false, false)).1

theorem insertAsc_cons (x y : Int) (l : List Int) :
    insertAsc x (y :: l) = if x ≤ y then x :: y :: l else y :: insertAsc x l := rfl

theorem activePenalties_nil (tid : Nat) (t : Int) : activePenalties [] tid t = 0 := rfl

theorem activePenalties_cons (e : PenaltyEvent) (es : List PenaltyEvent) (tid : Nat) (t : Int) :
    activePenalties (e :: es) tid t =
      activePenalties es tid t +
        (if e.team_id = tid ∧ e.start ≤ t ∧ t < e.stop then 1 else 0) := by
  unfold activePenalties
  rw [List.countP_cons]
  congr 1
  by_cases hc : e.team_id = tid ∧ e.start ≤ t ∧ t < e.stop
  · rw [if_pos, if_pos hc]
    simp [hc.1, hc.2.1, hc.2.2]
  · rw [if_neg, if_neg hc]
    simp only [Bool.and_eq_true, decide_eq_true_eq, not_and]
    intro h1
    rw [not_and] at hc
    intro hlt
    exact hc h1.1 ⟨h1.2, hlt⟩

theorem activePenalties_mk (tid2 : Nat) (st sp : Int) (es : List PenaltyEvent)
    (tid : Nat) (t : Int) :
    activePenalties (⟨tid2, st, sp⟩ :: es) tid t =
      activePenalties es tid t + (if tid2 = tid ∧ st ≤ t ∧ t < sp then 1 else 0) :=
  activePenalties_cons ⟨tid2, st, sp⟩ es tid t

-- scenario: two non-overlapping home-team minors
theorem pp_nonoverlap_home (p1 p2 : Penalty) (h a : Nat) (s1 s2 : Int) (g : Game) (b : Boxscore)
    (hb : g.boxscore = some b) (hps : b.penalties = [p1, p2])
    (ht1 : p1.teamId = some h) (ht2 : p2.teamId = some h)
    (hd1 : p1.durationName = some "Minor") (hd2 : p2.durationName = some "Minor")
    (hs1 : penaltyStartSecs p1 = s1) (hs2 : penaltyStartSecs p2 = s2)
    (hh0 : h ≠ 0) (hha : h ≠ a) (hgap : s1 + 120 < s2) :
    calculate_powerplay_opportunities g h a a = 2 ∧
    calculate_powerplay_opportunities g h a h = 0 := by
  have hdur1 : penaltyDurationSecs p1 = 120 := by
    unfold penaltyDurationSecs; rw [hd1]; rfl
  have hdur2 : penaltyDurationSecs p2 = 120 := by
    unfold penaltyDurationSecs; rw [hd2]; rfl
  have hev : penaltyEventsOf [p1, p2] =
      [⟨h, s1, s1 + 120⟩, ⟨h, s2, s2 + 120⟩] := by
    unfold penaltyEventsOf
    simp [ht1, ht2, hh0, hdur1, hdur2, hs1, hs2]
  have htp : timePoints [⟨h, s1, s1 + 120⟩, ⟨h, s2, s2 + 120⟩] =
      [s1, s1 + 120, s2, s2 + 120] := by
    unfold timePoints
    have hlist : ([] : List Int) ++ [s1, s1 + 120] ++ [s2, s2 + 120] =
        [s1, s1 + 120, s2, s2 + 120] := by simp
    simp only [List.foldl, hlist]
    rw [List.dedup_eq_self.mpr (by simp; omega)]
    unfold sortAsc
    simp only [List.foldr]
    rw [show insertAsc (s2 + 120) ([] : List Int) = [s2 + 120] from rfl]
    rw [insertAsc_cons, if_pos (show s2 ≤ s2 + 120 by omega)]
    rw [insertAsc_cons, if_pos (show s1 + 120 ≤ s2 by omega)]
    rw [insertAsc_cons, if_pos (show s1 ≤ s1 + 120 by omega)]
  set E : List PenaltyEvent := [⟨h, s1, s1 + 120⟩, ⟨h, s2, s2 + 120⟩] with hE
  have hA1h : activePenalties E h s1 = 1 := by
    rw [hE, activePenalties_mk, activePenalties_mk, activePenalties_nil]
    rw [if_neg (by rintro ⟨-, hc, -⟩; omega), if_pos ⟨rfl, by omega, by omega⟩]
  have hA1a : activePenalties E a s1 = 0 := by
    rw [hE, activePenalties_mk, activePenalties_mk, activePenalties_nil]
    rw [if_neg (by rintro ⟨hc, -, -⟩; exact hha hc), if_neg (by rintro ⟨hc, -, -⟩; exact hha hc)]
  have hA2h : activePenalties E h (s1 + 120) = 0 := by
    rw [hE, activePenalties_mk, activePenalties_mk, activePenalties_nil]
    rw [if_neg (by rintro ⟨-, hc, -⟩; omega), if_neg (by rintro ⟨-, -, hc⟩; omega)]
  have hA2a : activePenalties E a (s1 + 120) = 0 := by
    rw [hE, activePenalties_mk, activePenalties_mk, activePenalties_nil]
    rw [if_neg (by rintro ⟨hc, -, -⟩; exact hha hc), if_neg (by rintro ⟨hc, -, -⟩; exact hha hc)]
  have hA3h : activePenalties E h s2 = 1 := by
    rw [hE, activePenalties_mk, activePenalties_mk, activePenalties_nil]
    rw [if_pos ⟨rfl, by omega, by omega⟩, if_neg (by rintro ⟨-, -, hc⟩; omega)]

  have hA3a : activePenalties E a s2 = 0 := by
    rw [hE, activePenalties_mk, activePenalties_mk, activePenalties_nil]
    rw [if_neg (by rintro ⟨hc, -, -⟩; exact hha hc), if_neg (by rintro ⟨hc, -, -⟩; exact hha hc)]
  have hcalc : calculate_powerplay_opportunities g h a =
      (([s1, s1 + 120, s2] : List Int).foldl (ppStep E h a)
        (fun _ => 0, false, false)).1 := by
    unfold calculate_powerplay_opportunities
    rw [hb]
    simp only [hps]
    rw [if_neg (by simp)]
    simp only [hev, ← hE, htp]
    rfl
  rw [hcalc]
  simp only [List.foldl_cons, List.foldl_nil]
  rw [show ppStep E h a (fun _ => 0, false, false) s1 =
      ((fun t => if t = a then 1 else 0), false, true) from by
    unfold ppStep
    simp only [hA1h, hA1a]
    norm_num]
  rw [show ppStep E h a ((fun t => if t = a then 1 else 0), false, true) (s1 + 120) =
      ((fun t => if t = a then 1 else 0), false, false) from by
    unfold ppStep
    simp only [hA2h, hA2a]
    norm_num]
  rw [show ppStep E h a ((fun t => if t = a then 1 else 0), false, false) s2 =
      ((fun t => if t = a then (if t = a then 1 else 0) + 1 else if t = a then 1 else 0),
        false, true) from by
    unfold ppStep
    simp only [hA3h, hA3a]
    norm_num]
  constructor
  · simp
  · simp [hha, Ne.symm hha]

-- scenario: two non-overlapping away-team minors
theorem pp_nonoverlap_away (p1 p2 : Penalty) (h a : Nat) (s1 s2 : Int)
    (g : Game) (b : Boxscore)
    (hb : g.boxscore = some b) (hps : b.penalties = [p1, p2])
    (ht1 : p1.teamId = some a) (ht2 : p2.teamId = some a)
    (hd1 : p1.durationName = some "Minor") (hd2 : p2.durationName = some "Minor")
    (hs1 : penaltyStartSecs p1 = s1) (hs2 : penaltyStartSecs p2 = s2)
    (ha0 : a ≠ 0) (hha : h ≠ a) (hgap : s1 + 120 < s2) :
    calculate_powerplay_opportunities g h a h = 2 ∧
    calculate_powerplay_opportunities g h a a = 0 := by
  have hdur1 : penaltyDurationSecs p1 = 120 := by
    unfold penaltyDurationSecs; rw [hd1]; rfl
  have hdur2 : penaltyDurationSecs p2 = 120 := by
    unfold penaltyDurationSecs; rw [hd2]; rfl
  have hev : penaltyEventsOf [p1, p2] =
      [⟨a, s1, s1 + 120⟩, ⟨a, s2, s2 + 120⟩] := by
    unfold penaltyEventsOf
    simp [ht1, ht2, ha0, hdur1, hdur2, hs1, hs2]
  have htp : timePoints [⟨a, s1, s1 + 120⟩, ⟨a, s2, s2 + 120⟩] =
      [s1, s1 + 120, s2, s2 + 120] := by
    unfold timePoints
    have hlist : ([] : List Int) ++ [s1, s1 + 120] ++ [s2, s2 + 120] =
        [s1, s1 + 120, s2, s2 + 120] := by simp
    simp only [List.foldl, hlist]
    rw [List.dedup_eq_self.mpr (by simp; omega)]
    unfold sortAsc
    simp only [List.foldr]
    rw [show insertAsc (s2 + 120) ([] : List Int) = [s2 + 120] from rfl]
    rw [insertAsc_cons, if_pos (show s2 ≤ s2 + 120 by omega)]
    rw [insertAsc_cons, if_pos (show s1 + 120 ≤ s2 by omega)]
    rw [insertAsc_cons, if_pos (show s1 ≤ s1 + 120 by omega)]
  set E : List PenaltyEvent := [⟨a, s1, s1 + 120⟩, ⟨a, s2, s2 + 120⟩] with hE
  have hA1a : activePenalties E a s1 = 1 := by
    rw [hE, activePenalties_mk, activePenalties_mk, activePenalties_nil]
    rw [if_neg (by rintro ⟨-, hc, -⟩; omega), if_pos ⟨rfl, by omega, by omega⟩]
  have hA1h : activePenalties E h s1 = 0 := by
    rw [hE, activePenalties_mk, activePenalties_mk, activePenalties_nil]
    rw [if_neg (by rintro ⟨hc, -, -⟩; exact hha hc.symm),
      if_neg (by rintro ⟨hc, -, -⟩; exact hha hc.symm)]
  have hA2a : activePenalties E a (s1 + 120) = 0 := by
    rw [hE, activePenalties_mk, activePenalties_mk, activePenalties_nil]
    rw [if_neg (by rintro ⟨-, hc, -⟩; omega), if_neg (by rintro ⟨-, -, hc⟩; omega)]
  have hA2h : activePenalties E h (s1 + 120) = 0 := by
    rw [hE, activePenalties_mk, activePenalties_mk, activePenalties_nil]
    rw [if_neg (by rintro ⟨hc, -, -⟩; exact hha hc.symm),
      if_neg (by rintro ⟨hc, -, -⟩; exact hha hc.symm)]
  have hA3a : activePenalties E a s2 = 1 := by
    rw [hE, activePenalties_mk, activePenalties_mk, activePenalties_nil]
    rw [if_pos ⟨rfl, by omega, by omega⟩, if_neg (by rintro ⟨-, -, hc⟩; omega)]
  have hA3h : activePenalties E h s2 = 0 := by
    rw [hE, activePenalties_mk, activePenalties_mk, activePenalties_nil]
    rw [if_neg (by rintro ⟨hc, -, -⟩; exact hha hc.symm),
      if_neg (by rintro ⟨hc, -, -⟩; exact hha hc.symm)]
  have hcalc : calculate_powerplay_opportunities g h a =
      (([s1, s1 + 120, s2] : List Int).foldl (ppStep E h a)
        (fun _ => 0, false, false)).1 := by
    unfold calculate_powerplay_opportunities
    rw [hb]
    simp only [hps]
    rw [if_neg (by simp)]
    simp only [hev, ← hE, htp]
    rfl
  rw [hcalc]
  simp only [List.foldl_cons, List.foldl_nil]
  rw [show ppStep E h a (fun _ => 0, false, false) s1 =
      ((fun t => if t = h then 1 else 0), true, false) from by
    unfold ppStep
    simp only [hA1h, hA1a]
    norm_num]
  rw [show ppStep E h a ((fun t => if t = h then 1 else 0), true, false) (s1 + 120) =
      ((fun t => if t = h then 1 else 0), false, false) from by
    unfold ppStep
    simp only [hA2h, hA2a]
    norm_num]
  rw [show ppStep E h a ((fun t => if t = h then 1 else 0), false, false) s2 =
      ((fun t => if t = h then (if t = h then 1 else 0) + 1 else if t = h then 1 else 0),
        true, false) from by
    unfold ppStep
    simp only [hA3h, hA3a]
    norm_num]
  constructor
  · simp
  · simp [hha, Ne.symm hha]

-- scenario: two simultaneous (identical-interval) same-team minors
theorem pp_simultaneous_home (p1 p2 : Penalty) (h a : Nat) (s1 : Int)
    (g : Game) (b : Boxscore)
    (hb : g.boxscore = some b) (hps : b.penalties = [p1, p2])
    (ht1 : p1.teamId = some h) (ht2 : p2.teamId = some h)
    (hd1 : p1.durationName = some "Minor") (hd2 : p2.durationName = some "Minor")
    (hs1 : penaltyStartSecs p1 = s1) (hs2 : penaltyStartSecs p2 = s1)
    (hh0 : h ≠ 0) (hha : h ≠ a) :
    calculate_powerplay_opportunities g h a a = 1 ∧
    calculate_powerplay_opportunities g h a h = 0 := by
  have hdur1 : penaltyDurationSecs p1 = 120 := by
    unfold penaltyDurationSecs; rw [hd1]; rfl
  have hdur2 : penaltyDurationSecs p2 = 120 := by
    unfold penaltyDurationSecs; rw [hd2]; rfl
  have hev : penaltyEventsOf [p1, p2] =
      [⟨h, s1, s1 + 120⟩, ⟨h, s1, s1 + 120⟩] := by
    unfold penaltyEventsOf
    simp [ht1, ht2, hh0, hdur1, hdur2, hs1, hs2]
  have htp : timePoints [⟨h, s1, s1 + 120⟩, ⟨h, s1, s1 + 120⟩] =
      [s1, s1 + 120] := by
    unfold timePoints
    have hlist : ([] : List Int) ++ [s1, s1 + 120] ++ [s1, s1 + 120] =
        [s1, s1 + 120, s1, s1 + 120] := by simp
    simp only [List.foldl, hlist]
    rw [List.dedup_cons_of_mem (by simp), List.dedup_cons_of_mem (by simp),
      List.dedup_cons_of_not_mem (by simp),
      List.dedup_cons_of_not_mem (by simp)]
    rw [List.dedup_nil]
    unfold sortAsc
    simp only [List.foldr]
    rw [show insertAsc (s1 + 120) ([] : List Int) = [s1 + 120] from rfl]
    rw [insertAsc_cons, if_pos (show s1 ≤ s1 + 120 by omega)]
  set E : List PenaltyEvent := [⟨h, s1, s1 + 120⟩, ⟨h, s1, s1 + 120⟩] with hE
  have hA1h : activePenalties E h s1 = 2 := by
    rw [hE, activePenalties_mk, activePenalties_mk, activePenalties_nil]
    rw [if_pos ⟨rfl, by omega, by omega⟩]
  have hA1a : activePenalties E a s1 = 0 := by
    rw [hE, activePenalties_mk, activePenalties_mk, activePenalties_nil]
    rw [if_neg (by rintro ⟨hc, -, -⟩; exact hha hc)]
  have hcalc : calculate_powerplay_opportunities g h a =
      (([s1] : List Int).foldl (ppStep E h a) (fun _ => 0, false, false)).1 := by
    unfold calculate_powerplay_opportunities
    rw [hb]
    simp only [hps]
    rw [if_neg (by simp)]
    simp only [hev, ← hE, htp]
    rfl
  rw [hcalc]
  simp only [List.foldl_cons, List.foldl_nil]
  rw [show ppStep E h a (fun _ => 0, false, false) s1 =
      ((fun t => if t = a then 1 else 0), false, true) from by
    unfold ppStep
    simp only [hA1h, hA1a]
    norm_num]
  constructor
  · simp
  · simp [hha, Ne.symm hha]

theorem pp_simultaneous_away (p1 p2 : Penalty) (h a : Nat) (s1 : Int)
    (g : Game) (b : Boxscore)
    (hb : g.boxscore = some b) (hps : b.penalties = [p1, p2])
    (ht1 : p1.teamId = some a) (ht2 : p2.teamId = some a)
    (hd1 : p1.durationName = some "Minor") (hd2 : p2.durationName = some "Minor")
    (hs1 : penaltyStartSecs p1 = s1) (hs2 : penaltyStartSecs p2 = s1)
    (ha0 : a ≠ 0) (hha : h ≠ a) :
    calculate_powerplay_opportunities g h a h = 1 ∧
    calculate_powerplay_opportunities g h a a = 0 := by
  have hdur1 : penaltyDurationSecs p1 = 120 := by
    unfold penaltyDurationSecs; rw [hd1]; rfl
  have hdur2 : penaltyDurationSecs p2 = 120 := by
    unfold penaltyDurationSecs; rw [hd2]; rfl
  have hev : penaltyEventsOf [p1, p2] =
      [⟨a, s1, s1 + 120⟩, ⟨a, s1, s1 + 120⟩] := by
    unfold penaltyEventsOf
    simp [ht1, ht2, ha0, hdur1, hdur2, hs1, hs2]
  have htp : timePoints [⟨a, s1, s1 + 120⟩, ⟨a, s1, s1 + 120⟩] =
      [s1, s1 + 120] := by
    unfold timePoints
    have hlist : ([] : List Int) ++ [s1, s1 + 120] ++ [s1, s1 + 120] =
        [s1, s1 + 120, s1, s1 + 120] := by simp
    simp only [List.foldl, hlist]
    rw [List.dedup_cons_of_mem (by simp), List.dedup_cons_of_mem (by simp),
      List.dedup_cons_of_not_mem (by simp),
      List.dedup_cons_of_not_mem (by simp)]
    rw [List.dedup_nil]
    unfold sortAsc
    simp only [List.foldr]
    rw [show insertAsc (s1 + 120) ([] : List Int) = [s1 + 120] from rfl]
    rw [insertAsc_cons, if_pos (show s1 ≤ s1 + 120 by omega)]
  set E : List PenaltyEvent := [⟨a, s1, s1 + 120⟩, ⟨a, s1, s1 + 120⟩] with hE
  have hA1a : activePenalties E a s1 = 2 := by
    rw [hE, activePenalties_mk, activePenalties_mk, activePenalties_nil]
    rw [if_pos ⟨rfl, by omega, by omega⟩]
  have hA1h : activePenalties E h s1 = 0 := by
    rw [hE, activePenalties_mk, activePenalties_mk, activePenalties_nil]
    rw [if_neg (by rintro ⟨hc, -, -⟩; exact hha hc.symm)]
  have hcalc : calculate_powerplay_opportunities g h a =
      (([s1] : List Int).foldl (ppStep E h a) (fun _ => 0, false, false)).1 := by
    unfold calculate_powerplay_opportunities
    rw [hb]
    simp only [hps]
    rw [if_neg (by simp)]
    simp only [hev, ← hE, htp]
    rfl
  rw [hcalc]
  simp only [List.foldl_cons, List.foldl_nil]
  rw [show ppStep E h a (fun _ => 0, false, false) s1 =
      ((fun t => if t = h then 1 else 0), true, false) from by
    unfold ppStep
    simp only [hA1h, hA1a]
    norm_num]
  constructor
  · simp
  · simp [hha, Ne.symm hha]

theorem pp_no_penalties (g : Game) (b : Boxscore) (h a : Nat)
    (hb : g.boxscore = some b) (hps : b.penalties = []) :
    ∀ t, calculate_powerplay_opportunities g h a t = 0 := by
  intro t
  unfold calculate_powerplay_opportunities
  rw [hb]
  simp [hps]

/-- Claim C3: with zero penalties the calculator yields zero
opportunities for both teams; two non-overlapping (strictly gapped)
minors by the same team yield 2 opportunities for the opponent and 0
for the penalized team; two simultaneous (identical-interval) minors by
the same team yield 1 opportunity for the opponent, not 2 — an
opportunity is counted only at a rising edge of the powerplay
condition. -/
theorem C3_powerplay_opportunity_counting :
    (∀ (g : Game) (b : Boxscore) (h a : Nat), g.boxscore = some b →
      b.penalties = [] →
      ∀ t, calculate_powerplay_opportunities g h a t = 0) ∧
    (∀ (p1 p2 : Penalty) (h a tp : Nat) (s1 s2 : Int) (g : Game) (b : Boxscore),
      g.boxscore = some b → b.penalties = [p1, p2] →
      p1.teamId = some tp → p2.teamId = some tp →
      p1.durationName = some "Minor" → p2.durationName = some "Minor" →
      penaltyStartSecs p1 = s1 → penaltyStartSecs p2 = s2 →
      tp ≠ 0 → h ≠ a → (tp = h ∨ tp = a) → s1 + 120 < s2 →
      calculate_powerplay_opportunities g h a (if tp = h then a else h) = 2 ∧
      calculate_powerplay_opportunities g h a tp = 0) ∧
    (∀ (p1 p2 : Penalty) (h a tp : Nat) (s1 : Int) (g : Game) (b : Boxscore),
      g.boxscore = some b → b.penalties = [p1, p2] →
      p1.teamId = some tp → p2.teamId = some tp →
      p1.durationName = some "Minor" → p2.durationName = some "Minor" →
      penaltyStartSecs p1 = s1 → penaltyStartSecs p2 = s1 →
      tp ≠ 0 → h ≠ a → (tp = h ∨ tp = a) →
      calculate_powerplay_opportunities g h a (if tp = h then a else h) = 1 ∧
      calculate_powerplay_opportunities g h a tp = 0) := by
  refine ⟨fun g b h a hb hps => pp_no_penalties g b h a hb hps, ?_, ?_⟩
  · intro p1 p2 h a tp s1 s2 g b hb hps ht1 ht2 hd1 hd2 hs1 hs2 htp0 hha htpcase hgap
    rcases htpcase with h1 | h1
    · subst h1
      rw [if_pos rfl]
      exact pp_nonoverlap_home p1 p2 tp a s1 s2 g b hb hps ht1 ht2 hd1 hd2
        hs1 hs2 htp0 hha hgap
    · subst h1
      rw [if_neg (fun hc => hha hc.symm)]
      exact pp_nonoverlap_away p1 p2 h tp s1 s2 g b hb hps ht1 ht2 hd1 hd2
        hs1 hs2 htp0 hha hgap
  · intro p1 p2 h a tp s1 g b hb hps ht1 ht2 hd1 hd2 hs1 hs2 htp0 hha htpcase
    rcases htpcase with h1 | h1
    · subst h1
      rw [if_pos rfl]
      exact pp_simultaneous_home p1 p2 tp a s1 g b hb hps ht1 ht2 hd1 hd2
        hs1 hs2 htp0 hha
    · subst h1
      rw [if_neg (fun hc => hha hc.symm)]
      exact pp_simultaneous_away p1 p2 h tp s1 g b hb hps ht1 ht2 hd1 hd2
        hs1 hs2 htp0 hha

/-- A minor penalty by team `tid` at minute `m` of period 1. -/
def penaltyC3 (tid : Nat) (m : Int) : Penalty :=
  { participant := ⟨some 9, some "X"⟩, teamId := some tid,
    durationName := some "Minor", period := 1, minutes := m, seconds := 0 }

/-- A FINAL game between teams 10 and 20 with the given penalty list. -/
def gameC3 (ps : List Penalty) : Game :=
  { id := 1, home_score := 0, away_score := 0,
    boxscore := some { teams := [⟨10, "H"⟩, ⟨20, "A"⟩], goals := [], penalties := ps, roster := [] },
    home_team_roster := [], away_team_roster := [], starting_goalies := none }

/-- Concrete instantiation of `C3_powerplay_opportunity_counting`:
no penalties; two gapped home minors (minute 0 and minute 5); two
simultaneous home minors. -/
theorem C3_witness :
    (calculate_powerplay_opportunities (gameC3 []) 10 20 10 = 0) ∧
    (calculate_powerplay_opportunities
        (gameC3 [penaltyC3 10 0, penaltyC3 10 5]) 10 20 20 = 2 ∧
      calculate_powerplay_opportunities
        (gameC3 [penaltyC3 10 0, penaltyC3 10 5]) 10 20 10 = 0) ∧
    (calculate_powerplay_opportunities
        (gameC3 [penaltyC3 10 0, penaltyC3 10 0]) 10 20 20 = 1 ∧
      calculate_powerplay_opportunities
        (gameC3 [penaltyC3 10 0, penaltyC3 10 0]) 10 20 10 = 0) := by
  refine ⟨?_, ?_, ?_⟩
  · exact C3_powerplay_opportunity_counting.1 (gameC3 []) _ 10 20 rfl rfl 10
  · exact C3_powerplay_opportunity_counting.2.1 (penaltyC3 10 0) (penaltyC3 10 5)
      10 20 10 0 300 (gameC3 [penaltyC3 10 0, penaltyC3 10 5]) _
      rfl rfl rfl rfl rfl rfl (by decide) (by decide)
      (by decide) (by decide) (Or.inl rfl) (by decide)
  · exact C3_powerplay_opportunity_counting.2.2 (penaltyC3 10 0) (penaltyC3 10 0)
      10 20 10 0 (gameC3 [penaltyC3 10 0, penaltyC3 10 0]) _
      rfl rfl rfl rfl rfl rfl (by decide) (by decide)
      (by decide) (by decide) (Or.inl rfl)

/-! ### Formation inference engine (`FormationDetector`) -/

/-- Per-unit accumulated statistics. -/
structure UnitStats where
  goals : Nat
  assists : Nat
  points : Nat
deriving DecidableEq

def zeroUnitStats : UnitStats := ⟨0, 0, 0⟩

/-- A unit key: the sorted tuple of participant ids. -/
abbrev UnitKey := List Nat

/-- Insertion-ordered association list: the model of a Python dict that
is iterated with `.items()`. -/
abbrev ODict (κ β : Type) := List (κ × β)

def dlookup {κ β : Type} [DecidableEq κ] (d : ODict κ β) (k : κ) : Option β :=
  match d with
  | [] => none
  | (k', v) :: rest => if k' = k then some v else dlookup rest k

/-- `d[k] = v`: overwrite in place or append (Python dict assignment). -/
def dset {κ β : Type} [DecidableEq κ] (d : ODict κ β) (k : κ) (v : β) : ODict κ β :=
  match d with
  | [] => [(k, v)]
  | (k', w) :: rest => if k' = k then (k', v) :: rest else (k', w) :: dset rest k v

/-- `defaultdict` access-and-mutate: `d[k] = f(d[k])` with `d[k]`
created as `default` when absent. -/
def dbump {κ β : Type} [DecidableEq κ] (default : β) (f : β → β)
    (d : ODict κ β) (k : κ) : ODict κ β :=
  match d with
  | [] => [(k, f default)]
  | (k', v) :: rest => if k' = k then (k', f v) :: rest else (k', v) :: dbump default f rest k

/-- Roster-derived player info recorded by `_build_position_map`. -/
structure PlayerPos where
  name : String
  position : String
  number : Option Nat
deriving DecidableEq

/-- One team's formation state. -/
structure TeamData where
  even_strength_f_trios : ODict UnitKey UnitStats
  even_strength_f_pairs : ODict UnitKey UnitStats
  even_strength_d_duos : ODict UnitKey UnitStats
  powerplay_units : ODict UnitKey UnitStats
  penalty_kill_units : ODict UnitKey UnitStats
  goal_scoring_pairs : ODict UnitKey Nat
  player_positions : ODict Nat PlayerPos
deriving DecidableEq

def emptyTeamData : TeamData := ⟨[], [], [], [], [], [], []⟩

/-- `self.team_formations`: a `defaultdict` over team ids. -/
abbrev Formations := Nat → TeamData

def emptyFormations : Formations := fun _ => emptyTeamData

def updTeam (F : Formations) (tid : Nat) (f : TeamData → TeamData) : Formations :=
  fun t => if t = tid then f (F t) else F t

def insertAscN (x : Nat) : List Nat → List Nat
  | [] => [x]
  | y :: l => if x ≤ y then x :: y :: l else y :: insertAscN x l

/-- `tuple(sorted(ids))`. -/
def sortNat (l : List Nat) : List Nat := l.foldr insertAscN []

/-- `itertools.combinations(l, n)` in its iteration order. -/
def combos {α : Type} : Nat → List α → List (List α)
  | 0, _ => [[]]
  | _ + 1, [] => []
  | n + 1, x :: xs => (combos n xs).map (x :: ·) ++ combos (n + 1) xs

/-- One roster entry of `_build_position_map`'s loop. -/
def posStep (tid : Nat) (F : Formations) (p : RosterEntry) : Formations :=
  match p.participantId with
  | none => F
  | some pid =>
    if pid = 0 then F
    else
      let position := p.positions.headD "F"
      if position ∈ (["F", "D", "G", "C"] : List String) then
        let position := if position = "C" then "F" else position
        let player_name := p.participant.fullName.getD "Unknown"
        updTeam F tid (fun td =>
          { td with
            player_positions :=
              dset td.player_positions pid ⟨player_name, position, p.number⟩ })
      else F

/-- `FormationDetector._build_position_map`. -/
def buildPositionMap (F : Formations) (g : Game) : Formations :=
  match (g.boxscore.map Boxscore.teams).getD [] with
  | home :: away :: _ =>
    (g.away_team_roster.foldl (posStep away.id)
      (g.home_team_roster.foldl (posStep home.id) F))
  | _ => F

/-- The positioned subset of the involved players
(those found in the team's `player_positions`). -/
def positionedPlayers (td : TeamData) (players_involved : List Nat) :
    List (Nat × PlayerPos) :=
  players_involved.filterMap (fun pid =>
    match dlookup td.player_positions pid with
    | some info => some (pid, info)
    | none => none)

/-- Count one even-strength goal into the counters of every candidate
unit: bump `goals` when the scorer is a member, `assists` once per
member assist, and refresh `points = goals + assists` when anyone in
the unit was involved. -/
def unitLoop (sid : Nat) (assists : List Assist)
    (units : List (List (Nat × PlayerPos))) (d : ODict UnitKey UnitStats) :
    ODict UnitKey UnitStats :=
  units.foldl (fun d unit =>
    let ids := unit.map Prod.fst
    let key := sortNat ids
    let d1 := if sid ∈ ids then
        dbump zeroUnitStats (fun s => { s with goals := s.goals + 1 }) d key
      else d
    let st := assists.foldl (fun (acc : ODict UnitKey UnitStats × Bool) a =>
      match a.participantId with
      | some aid =>
          if aid ≠ 0 ∧ aid ∈ ids then
            (dbump zeroUnitStats (fun s => { s with assists := s.assists + 1 }) acc.1 key,
              true)
          else acc
      | none => acc) (d1, decide (sid ∈ ids))
    if st.2 then
      dbump zeroUnitStats (fun s => { s with points := s.goals + s.assists }) st.1 key
    else st.1) d

/-- `FormationDetector._detect_even_strength_formations`. -/
def detectEvenStrength (F : Formations) (tid : Nat)
    (forwards defensemen : List (Nat × PlayerPos)) (goal : Goal) : Formations :=
  match goal.participant.participantId with
  | none => F
  | some sid =>
    if sid = 0 then F
    else
      updTeam F tid (fun td =>
        { td with
          even_strength_f_trios :=
            if 3 ≤ forwards.length then
              unitLoop sid goal.assists (combos 3 forwards) td.even_strength_f_trios
            else td.even_strength_f_trios,
          even_strength_f_pairs :=
            if 2 ≤ forwards.length then
              unitLoop sid goal.assists (combos 2 forwards) td.even_strength_f_pairs
            else td.even_strength_f_pairs,
          even_strength_d_duos :=
            if 2 ≤ defensemen.length then
              unitLoop sid goal.assists (combos 2 defensemen) td.even_strength_d_duos
            else td.even_strength_d_duos })

/-- The whole involved set is one unit; goals/assists as above but the
`points` line runs unconditionally (creating the key if needed). -/
def unitAccumulate (sid : Nat) (assists : List Assist) (ids : List Nat)
    (key : UnitKey) (d : ODict UnitKey UnitStats) : ODict UnitKey UnitStats :=
  let d1 := if sid ∈ ids then
      dbump zeroUnitStats (fun s => { s with goals := s.goals + 1 }) d key
    else d
  let d2 := assists.foldl (fun d a =>
    match a.participantId with
    | some aid =>
        if aid ≠ 0 ∧ aid ∈ ids then
          dbump zeroUnitStats (fun s => { s with assists := s.assists + 1 }) d key
        else d
    | none => d) d1
  dbump zeroUnitStats (fun s => { s with points := s.goals + s.assists }) d2 key

/-- `FormationDetector._detect_powerplay_units`. -/
def detectPowerplayUnits (F : Formations) (tid : Nat)
    (players : List (Nat × PlayerPos)) (goal : Goal) : Formations :=
  match goal.participant.participantId with
  | none => F
  | some sid =>
    if sid = 0 then F
    else
      let ids := players.map Prod.fst
      let key := sortNat ids
      updTeam F tid (fun td =>
        { td with powerplay_units :=
            unitAccumulate sid goal.assists ids key td.powerplay_units })

/-- `FormationDetector._detect_penalty_kill_units`. -/
def detectPenaltyKillUnits (F : Formations) (tid : Nat)
    (players : List (Nat × PlayerPos)) (goal : Goal) : Formations :=
  match goal.participant.participantId with
  | none => F
  | some sid =>
    if sid = 0 then F
    else
      let ids := players.map Prod.fst
      let key := sortNat ids
      updTeam F tid (fun td =>
        { td with penalty_kill_units :=
            unitAccumulate sid goal.assists ids key td.penalty_kill_units })

/-- `FormationDetector._detect_formations_in_goal`: classify by the
`isPowerplay` / `isShorthanded` flags (`isPowerplay` checked first). -/
def detectFormationsInGoal (F : Formations) (tid : Nat)
    (players_involved : List Nat) (goal : Goal) : Formations :=
  if players_involved.length < 2 then F
  else
    let td := F tid
    let positioned := positionedPlayers td players_involved
    if positioned.length < 2 then F
    else
      let forwards := positioned.filter (fun p => p.2.position = "F")
      let defensemen := positioned.filter (fun p => p.2.position = "D")
      if goal.isPowerplay then detectPowerplayUnits F tid positioned goal
      else if goal.isShorthanded then detectPenaltyKillUnits F tid positioned goal
      else detectEvenStrength F tid forwards defensemen goal

/-- The truthy assist participant ids, in order. -/
def assistIds (goal : Goal) : List Nat :=
  goal.assists.filterMap (fun a =>
    match a.participantId with
    | some aid => if aid ≠ 0 then some aid else none
    | none => none)

/-- One goal of `FormationDetector._analyze_goals`. -/
def analyzeGoal (F : Formations) (goal : Goal) : Formations :=
  match goal.teamId with
  | none => F
  | some tid =>
    if tid = 0 then F
    else
      match goal.participant.participantId with
      | none => F
      | some sid =>
        if sid = 0 then F
        else
          let F1 := match goal.assists with
            | [] => F
            | a0 :: _ =>
              match a0.participantId with
              | some aid =>
                  if aid ≠ 0 then
                    updTeam F tid (fun td =>
                      { td with
                        goal_scoring_pairs :=
                          dbump 0 (· + 1) td.goal_scoring_pairs (sortNat [aid, sid]) })
                  else F
              | none => F
          detectFormationsInGoal F1 tid (sid :: assistIds goal) goal

/-- `FormationDetector.analyze_formations`: position map then goals,
per game. -/
def analyze_formations (games : List Game) : Formations :=
  games.foldl (fun F g =>
    match g.boxscore with
    | none => F
    | some b => b.goals.foldl analyzeGoal (buildPositionMap F g)) emptyFormations

/-! #### Claim C5: flag classification of goals -/

/-- The game used for claim C5: a goal carrying BOTH the `isPowerplay`
and `isShorthanded` flags, scored by forward 1, assisted by forward 2. -/
def gameC5 : Game :=
  { id := 2, home_score := 1, away_score := 0,
    boxscore := some
      { teams := [⟨10, "H"⟩, ⟨20, "A"⟩],
        goals := [{ participant := ⟨some 1, some "A F"⟩, teamId := some 10,
                    assists := [⟨some 2, some "B F"⟩],
                    isPowerplay := true, isShorthanded := true }],
        penalties := [], roster := [] },
    home_team_roster :=
      [ { participantId := some 1, participant := ⟨some 1, some "A F"⟩,
          positions := ["F"], number := some 11 },
        { participantId := some 2, participant := ⟨some 2, some "B F"⟩,
          positions := ["F"], number := some 12 } ],
    away_team_roster := [], starting_goalies := none }

/-- Claim C5 is false as stated for the both-present case: a goal with
both flags set is counted as a POWERPLAY unit (`isPowerplay` is checked
first), feeding no forward-pair/trio/defense-duo counter. -/
theorem C5_counterexample :
    ((analyze_formations [gameC5]) 10).even_strength_f_pairs = [] ∧
    ((analyze_formations [gameC5]) 10).even_strength_f_trios = [] ∧
    ((analyze_formations [gameC5]) 10).even_strength_d_duos = [] ∧
    ((analyze_formations [gameC5]) 10).powerplay_units = [([1, 2], ⟨1, 1, 2⟩)] := by
  refine ⟨by decide, by decide, by decide, by decide⟩

/-- Claim C5 (amended): a goal with both flags absent is classified and
counted as even-strength — the powerplay and penalty-kill unit maps are
untouched and, when the guards pass, the state change is exactly the
even-strength counting; a goal with `isPowerplay` set (in particular
one carrying both flags) is classified as a powerplay unit and feeds no
even-strength or penalty-kill counter. -/
theorem C5_flag_classification :
    (∀ (F : Formations) (tid : Nat) (players : List Nat) (goal : Goal),
      goal.isPowerplay = false → goal.isShorthanded = false → ∀ t,
      ((detectFormationsInGoal F tid players goal) t).powerplay_units
          = (F t).powerplay_units ∧
      ((detectFormationsInGoal F tid players goal) t).penalty_kill_units
          = (F t).penalty_kill_units) ∧
    (∀ (F : Formations) (tid : Nat) (players : List Nat) (goal : Goal),
      goal.isPowerplay = true → ∀ t,
      ((detectFormationsInGoal F tid players goal) t).even_strength_f_trios
          = (F t).even_strength_f_trios ∧
      ((detectFormationsInGoal F tid players goal) t).even_strength_f_pairs
          = (F t).even_strength_f_pairs ∧
      ((detectFormationsInGoal F tid players goal) t).even_strength_d_duos
          = (F t).even_strength_d_duos ∧
      ((detectFormationsInGoal F tid players goal) t).penalty_kill_units
          = (F t).penalty_kill_units) ∧
    (∀ (F : Formations) (tid : Nat) (players : List Nat) (goal : Goal),
      goal.isPowerplay = false → goal.isShorthanded = false →
      ¬ players.length < 2 →
      ¬ (positionedPlayers (F tid) players).length < 2 →
      detectFormationsInGoal F tid players goal =
        detectEvenStrength F tid
          ((positionedPlayers (F tid) players).filter (fun p => p.2.position = "F"))
          ((positionedPlayers (F tid) players).filter (fun p => p.2.position = "D"))
          goal) := by
  refine ⟨?_, ?_, ?_⟩
  · intro F tid players goal hpp hsh t
    unfold detectFormationsInGoal
    rw [hpp, hsh]
    simp only [Bool.false_eq_true, if_false]
    split
    · exact ⟨rfl, rfl⟩
    split
    · exact ⟨rfl, rfl⟩
    unfold detectEvenStrength
    cases goal.participant.participantId with
    | none => exact ⟨rfl, rfl⟩
    | some sid =>
      by_cases hsid : sid = 0
      · simp [hsid]
      · simp only [if_neg hsid]
        unfold updTeam
        by_cases ht : t = tid <;> simp [ht]
  · intro F tid players goal hpp t
    unfold detectFormationsInGoal
    rw [hpp]
    simp only [if_true]
    split
    · exact ⟨rfl, rfl, rfl, rfl⟩
    split
    · exact ⟨rfl, rfl, rfl, rfl⟩
    unfold detectPowerplayUnits
    cases goal.participant.participantId with
    | none => exact ⟨rfl, rfl, rfl, rfl⟩
    | some sid =>
      by_cases hsid : sid = 0
      · simp [hsid]
      · simp only [if_neg hsid]
        unfold updTeam
        by_cases ht : t = tid <;> simp [ht]
  · intro F tid players goal hpp hsh hlen hplen
    unfold detectFormationsInGoal
    rw [hpp, hsh]
    simp only [Bool.false_eq_true, if_false]
    rw [if_neg hlen, if_neg hplen]

/-- An even-strength goal (both flags absent) by forward 1. -/
def goalC5es : Goal :=
  { participant := ⟨some 1, some "A F"⟩, teamId := some 10,
    assists := [⟨some 2, some "B F"⟩], isPowerplay := false,
    isShorthanded := false }

/-- Concrete instantiation of `C5_flag_classification`. -/
theorem C5_witness :
    goalC5es.isPowerplay = false ∧
    ((detectFormationsInGoal emptyFormations 10 [1, 2] goalC5es) 10).powerplay_units
      = (emptyFormations 10).powerplay_units := by
  exact ⟨rfl, (C5_flag_classification.1 emptyFormations 10 [1, 2] goalC5es
    rfl rfl 10).1⟩

/-! #### Forward-line ranking and deduced trios (claim C6) -/

/-- Python banker's rounding of the non-negative fraction `num/den`
(`den > 0`) to the nearest integer, halves to even. -/
def roundHalfEvenDiv (num den : Nat) : Nat :=
  let f := num / den
  let r := num % den
  if 2 * r < den then f
  else if den < 2 * r then f + 1
  else if f % 2 = 0 then f else f + 1

/-- `round((raw_score / total_score) * 100, 1)` represented exactly in
tenths of a percent: the score `x.y` is stored as the integer `10x+y`
(ordering and equality of scores are unchanged by the scaling). -/
def dominanceTenths (points total : Nat) : Nat :=
  roundHalfEvenDiv (1000 * points) total

/-- A candidate forward line before ranking (`'type'` is stored in
`ltype`; the internal `'key'` field is kept until ranking drops it). -/
structure LineEntry where
  players : List PlayerPos
  goals : Nat
  assists : Nat
  points : Nat
  ltype : String
  key : UnitKey
deriving DecidableEq

/-- A ranked output line (the `'key'` field deleted, rank added). -/
structure RankedLine where
  players : List PlayerPos
  goals : Nat
  assists : Nat
  points : Nat
  ltype : String
  dominance10 : Nat
  rank : String
deriving DecidableEq

/-- `[team_data['player_positions'][pid] for pid in key if present]`. -/
def lookupPlayers (td : TeamData) (key : UnitKey) : List PlayerPos :=
  key.filterMap (fun pid => dlookup td.player_positions pid)

/-- The direct-trio candidates (goals > 0, all three players known). -/
def directTrioLines (td : TeamData) : List LineEntry :=
  td.even_strength_f_trios.foldl (fun acc kv =>
    acc ++
      (if kv.2.goals > 0 then
        (if (lookupPlayers td kv.1).length = 3 then
          [⟨lookupPlayers td kv.1, kv.2.goals, kv.2.assists, kv.2.points, "trio", kv.1⟩]
        else [])
      else [])) []

/-- The keys of the direct-trio candidates (`existing_trio_keys`). -/
def existingTrioKeys (td : TeamData) : List UnitKey :=
  td.even_strength_f_trios.foldl (fun acc kv =>
    acc ++
      (if kv.2.goals > 0 then
        (if (lookupPlayers td kv.1).length = 3 then [kv.1] else [])
      else [])) []

/-- The connection graph of `_detect_deduced_trios`: insertion-ordered
player keys, plus a symmetric edge map carrying each scoring pair's
stats and pair key. -/
def buildConnections (pairs : ODict UnitKey UnitStats) :
    List Nat × ODict (Nat × Nat) (UnitStats × UnitKey) :=
  pairs.foldl (fun acc kv =>
    if kv.2.goals > 0 then
      match kv.1 with
      | [p1, p2] =>
        let keys1 := if p1 ∈ acc.1 then acc.1 else acc.1 ++ [p1]
        let keys2 := if p2 ∈ keys1 then keys1 else keys1 ++ [p2]
        (keys2, dset (dset acc.2 (p1, p2) (kv.2, kv.1)) (p2, p1) (kv.2, kv.1))
      | _ => acc
    else acc) ([], [])

/-- Python `max(stats_list, key=lambda s: s['points'])`: the first
maximal element. -/
def maxByPoints (l : List UnitStats) : UnitStats :=
  match l with
  | [] => zeroUnitStats
  | x :: xs => xs.foldl (fun b s => if s.points > b.points then s else b) x

/-- One found triangle `p1-p2-p3`: skip if any constituent pair was
already used, take the best pair's stats as representative, and mark
the three pairs used. -/
def tryTriangle (conn : ODict (Nat × Nat) (UnitStats × UnitKey)) (td : TeamData)
    (p1 p2 p3 : Nat) (st : List LineEntry × List UnitKey) :
    List LineEntry × List UnitKey :=
  match dlookup conn (p1, p2), dlookup conn (p1, p3), dlookup conn (p2, p3) with
  | some e12, some e13, some e23 =>
    let pair_keys := [e12.2, e13.2, e23.2]
    if pair_keys.any (fun pk => pk ∈ st.2) then st
    else
      let best := maxByPoints [e12.1, e13.1, e23.1]
      let players_info := lookupPlayers td (sortNat [p1, p2, p3])
      if players_info.length = 3 then
        (st.1 ++ [⟨players_info, best.goals, best.assists, best.points,
            "deduced_trio", sortNat [p1, p2, p3]⟩],
          st.2 ++ pair_keys)
      else st
  | _, _, _ => st

def dtLoop3 (conn : ODict (Nat × Nat) (UnitStats × UnitKey)) (td : TeamData)
    (p1 p2 : Nat) : List Nat → List LineEntry × List UnitKey →
      List LineEntry × List UnitKey
  | [], st => st
  | p3 :: rest, st =>
    dtLoop3 conn td p1 p2 rest
      (if (dlookup conn (p1, p3)).isSome ∧ (dlookup conn (p2, p3)).isSome then
        tryTriangle conn td p1 p2 p3 st
      else st)

def dtLoop2 (conn : ODict (Nat × Nat) (UnitStats × UnitKey)) (td : TeamData)
    (p1 : Nat) : List Nat → List LineEntry × List UnitKey →
      List LineEntry × List UnitKey
  | [], st => st
  | p2 :: rest, st =>
    dtLoop2 conn td p1 rest
      (if (dlookup conn (p1, p2)).isSome then dtLoop3 conn td p1 p2 rest st
      else st)

def dtLoop1 (conn : ODict (Nat × Nat) (UnitStats × UnitKey)) (td : TeamData) :
    List Nat → List LineEntry × List UnitKey → List LineEntry × List UnitKey
  | [], st => st
  | p1 :: rest, st => dtLoop1 conn td rest (dtLoop2 conn td p1 rest st)

/-- `FormationDetector._detect_deduced_trios`. -/
def detect_deduced_trios (pairs : ODict UnitKey UnitStats) (td : TeamData) :
    List LineEntry × List UnitKey :=
  let kc := buildConnections pairs
  dtLoop1 kc.2 td kc.1 ([], [])

/-- Merge one deduced trio into the candidate list: append when new,
replace the direct trio with the same members when the deduced points
are strictly greater. -/
def mergeDeduced (existing : List UnitKey) (lines : List LineEntry)
    (dt : LineEntry) : List LineEntry :=
  if dt.key ∉ existing then lines ++ [dt]
  else
    match lines.findIdx? (fun l => l.key = dt.key) with
    | some i =>
      match lines.get? i with
      | some e => if dt.points > e.points then lines.set i dt else lines
      | none => lines
    | none => lines

/-- The standalone-duo candidates: scoring pairs not used by any
deduced trio. -/
def pairLines (td : TeamData) (used : List UnitKey)
    (lines : List LineEntry) : List LineEntry :=
  td.even_strength_f_pairs.foldl (fun acc kv =>
    acc ++
      (if kv.2.goals > 0 ∧ kv.1 ∉ used then
        (if (lookupPlayers td kv.1).length = 2 then
          [⟨lookupPlayers td kv.1, kv.2.goals, kv.2.assists, kv.2.points, "pair", kv.1⟩]
        else [])
      else [])) lines

/-- `_calculate_dominance_scores`: each candidate's share of the total
points, as a percentage rounded to one decimal (0 when the total is 0),
held in tenths. -/
def withDominance (lines : List LineEntry) : List (LineEntry × Nat) :=
  let total := (lines.map (fun l => l.points)).sum
  lines.map (fun l =>
    (l, if total > 0 then dominanceTenths l.points total else 0))

/-- Strict descending comparison on `(points, dominance_score)` —
the sort key of the forward-line ranking (stable, `reverse=True`). -/
def lineGt (x y : LineEntry × Nat) : Bool :=
  decide (y.1.points < x.1.points ∨ (x.1.points = y.1.points ∧ y.2 < x.2))

/-- Attach rank labels `Line 1..` and drop the internal key. -/
def labelLines : Nat → List (LineEntry × Nat) → List RankedLine
  | _, [] => []
  | i, le :: rest =>
    ⟨le.1.players, le.1.goals, le.1.assists, le.1.points, le.1.ltype,
      le.2, "Line " ++ toString (i + 1)⟩ :: labelLines (i + 1) rest

/-- `FormationDetector._get_ranked_forward_lines`. -/
def rankedForwardLines (td : TeamData) : List RankedLine :=
  let lines0 := directTrioLines td
  let dtu := detect_deduced_trios td.even_strength_f_pairs td
  let lines1 := dtu.1.foldl (mergeDeduced (existingTrioKeys td)) lines0
  let lines2 := pairLines td dtu.2 lines1
  let sorted := stableSort lineGt (withDominance lines2)
  labelLines 0 (sorted.take 3)

/-! #### Membership lemmas for the ranking pipeline -/

theorem foldl_append_mem {α β : Type} (f : α → List β) (l : List α)
    (init : List β) (e : β) :
    e ∈ l.foldl (fun acc x => acc ++ f x) init ↔ e ∈ init ∨ ∃ x ∈ l, e ∈ f x := by
  induction l generalizing init with
  | nil => simp
  | cons a l ih =>
    rw [List.foldl_cons, ih]
    simp only [List.mem_append, List.mem_cons]
    constructor
    · rintro (⟨h | h⟩ | ⟨x, hx, he⟩)
      · exact Or.inl h
      · exact Or.inr ⟨a, Or.inl rfl, h⟩
      · exact Or.inr ⟨x, Or.inr hx, he⟩
    · rintro (h | ⟨x, rfl | hx, he⟩)
      · exact Or.inl (Or.inl h)
      · exact Or.inl (Or.inr he)
      · exact Or.inr ⟨x, hx, he⟩

theorem mem_insertSorted {α : Type} (lt : α → α → Bool) (x y : α) (l : List α) :
    y ∈ insertSorted lt x l ↔ y = x ∨ y ∈ l := by
  induction l with
  | nil => simp [insertSorted]
  | cons a l ih =>
    unfold insertSorted
    by_cases hc : lt x a
    · rw [if_pos hc]
      simp
    · rw [if_neg hc]
      simp only [List.mem_cons, ih]
      tauto

theorem mem_stableSort {α : Type} (lt : α → α → Bool) (l : List α) (y : α) :
    y ∈ stableSort lt l ↔ y ∈ l := by
  unfold stableSort
  suffices h : ∀ (acc : List α), y ∈ l.foldl (fun acc x => insertSorted lt x acc) acc
      ↔ y ∈ acc ∨ y ∈ l by
    rw [h []]
    simp
  induction l with
  | nil => simp
  | cons a l ih =>
    intro acc
    rw [List.foldl_cons, ih, mem_insertSorted]
    simp only [List.mem_cons]
    tauto

theorem mem_labelLines {rl : RankedLine} :
    ∀ (i : Nat) (l : List (LineEntry × Nat)), rl ∈ labelLines i l →
      ∃ le ∈ l, rl.players = le.1.players ∧ rl.ltype = le.1.ltype := by
  intro i l
  induction l generalizing i with
  | nil => intro h; cases h
  | cons le rest ih =>
    intro h
    unfold labelLines at h
    rcases List.mem_cons.mp h with rfl | h'
    · exact ⟨le, List.mem_cons_self _ _, rfl, rfl⟩
    · rcases ih (i + 1) h' with ⟨le', hle', hp⟩
      exact ⟨le', List.mem_cons_of_mem _ hle', hp⟩

theorem directTrioLines_types {td : TeamData} {e : LineEntry}
    (h : e ∈ directTrioLines td) : e.ltype = "trio" := by
  unfold directTrioLines at h
  rcases (foldl_append_mem _ _ _ _).mp h with h | ⟨kv, _, he⟩
  · cases h
  · by_cases h1 : kv.2.goals > 0
    · rw [if_pos h1] at he
      by_cases h2 : (lookupPlayers td kv.1).length = 3
      · rw [if_pos h2] at he
        rcases List.mem_singleton.mp he with rfl
        rfl
      · rw [if_neg h2] at he; cases he
    · rw [if_neg h1] at he; cases he

theorem tryTriangle_types {conn : ODict (Nat × Nat) (UnitStats × UnitKey)}
    {td : TeamData} {p1 p2 p3 : Nat} {st : List LineEntry × List UnitKey}
    (hinv : ∀ e ∈ st.1, e.ltype = "deduced_trio") :
    ∀ e ∈ (tryTriangle conn td p1 p2 p3 st).1, e.ltype = "deduced_trio" := by
  unfold tryTriangle
  cases h12 : dlookup conn (p1, p2) with
  | none => exact hinv
  | some e12 =>
    cases h13 : dlookup conn (p1, p3) with
    | none => exact hinv
    | some e13 =>
      cases h23 : dlookup conn (p2, p3) with
      | none => exact hinv
      | some e23 =>
        simp only
        split
        · exact hinv
        split
        · intro e he
          rcases List.mem_append.mp he with he | he
          · exact hinv e he
          · rcases List.mem_singleton.mp he with rfl
            rfl
        · exact hinv

theorem dtLoop3_types {conn : ODict (Nat × Nat) (UnitStats × UnitKey)}
    {td : TeamData} {p1 p2 : Nat} :
    ∀ (l : List Nat) (st : List LineEntry × List UnitKey),
      (∀ e ∈ st.1, e.ltype = "deduced_trio") →
      ∀ e ∈ (dtLoop3 conn td p1 p2 l st).1, e.ltype = "deduced_trio" := by
  intro l
  induction l with
  | nil => intro st hinv; exact hinv
  | cons p3 rest ih =>
    intro st hinv
    unfold dtLoop3
    apply ih
    split
    · exact tryTriangle_types hinv
    · exact hinv

theorem dtLoop2_types {conn : ODict (Nat × Nat) (UnitStats × UnitKey)}
    {td : TeamData} {p1 : Nat} :
    ∀ (l : List Nat) (st : List LineEntry × List UnitKey),
      (∀ e ∈ st.1, e.ltype = "deduced_trio") →
      ∀ e ∈ (dtLoop2 conn td p1 l st).1, e.ltype = "deduced_trio" := by
  intro l
  induction l with
  | nil => intro st hinv; exact hinv
  | cons p2 rest ih =>
    intro st hinv
    unfold dtLoop2
    apply ih
    split
    · exact dtLoop3_types rest st hinv
    · exact hinv

theorem dtLoop1_types {conn : ODict (Nat × Nat) (UnitStats × UnitKey)}
    {td : TeamData} :
    ∀ (l : List Nat) (st : List LineEntry × List UnitKey),
      (∀ e ∈ st.1, e.ltype = "deduced_trio") →
      ∀ e ∈ (dtLoop1 conn td l st).1, e.ltype = "deduced_trio" := by
  intro l
  induction l with
  | nil => intro st hinv; exact hinv
  | cons p1 rest ih =>
    intro st hinv
    unfold dtLoop1
    exact ih _ (dtLoop2_types rest st hinv)

theorem detect_deduced_trios_types {pairs : ODict UnitKey UnitStats}
    {td : TeamData} :
    ∀ e ∈ (detect_deduced_trios pairs td).1, e.ltype = "deduced_trio" := by
  unfold detect_deduced_trios
  exact dtLoop1_types _ _ (by intro e he; cases he)

theorem mergeDeduced_types {existing : List UnitKey} {lines : List LineEntry}
    {dt : LineEntry}
    (hinv : ∀ e ∈ lines, e.ltype = "trio" ∨ e.ltype = "deduced_trio")
    (hdt : dt.ltype = "deduced_trio") :
    ∀ e ∈ mergeDeduced existing lines dt,
      e.ltype = "trio" ∨ e.ltype = "deduced_trio" := by
  unfold mergeDeduced
  split
  · intro e he
    rcases List.mem_append.mp he with he | he
    · exact hinv e he
    · rcases List.mem_singleton.mp he with rfl
      exact Or.inr hdt
  split
  · split
    · split
      · intro e he
        rcases List.mem_or_eq_of_mem_set he with he | rfl
        · exact hinv e he
        · exact Or.inr hdt
      · exact hinv
    · exact hinv
  · exact hinv

theorem foldl_mergeDeduced_types (existing : List UnitKey)
    (dts : List LineEntry) :
    ∀ (lines0 : List LineEntry),
      (∀ e ∈ dts, e.ltype = "deduced_trio") →
      (∀ e ∈ lines0, e.ltype = "trio" ∨ e.ltype = "deduced_trio") →
      ∀ e ∈ dts.foldl (mergeDeduced existing) lines0,
        e.ltype = "trio" ∨ e.ltype = "deduced_trio" := by
  induction dts with
  | nil => intro lines0 _ base; exact base
  | cons dt rest ih =>
    intro lines0 hdts base
    rw [List.foldl_cons]
    exact ih _ (fun e he => hdts e (List.mem_cons_of_mem _ he))
      (mergeDeduced_types base (hdts dt (List.mem_cons_self _ _)))

theorem lines1_types {td : TeamData} :
    ∀ e ∈ (detect_deduced_trios td.even_strength_f_pairs td).1.foldl
        (mergeDeduced (existingTrioKeys td)) (directTrioLines td),
      e.ltype = "trio" ∨ e.ltype = "deduced_trio" :=
  foldl_mergeDeduced_types _ _ _
    (@detect_deduced_trios_types td.even_strength_f_pairs td)
    (fun e he => Or.inl (directTrioLines_types he))

/-- Claim C6 (amended): every reported standalone duo line comes from a
scoring forward pair that is NOT a constituent of any DEDUCED trio;
pairs used by a deduced trio are excluded from duo reporting.
(Constituent pairs of a direct-only trio are not excluded — see the
counterexample.) -/
theorem C6_duo_exclusion_amended :
    ∀ (td : TeamData), ∀ rl ∈ rankedForwardLines td, rl.ltype = "pair" →
      ∃ kv, kv ∈ td.even_strength_f_pairs ∧ kv.2.goals > 0 ∧
        kv.1 ∉ (detect_deduced_trios td.even_strength_f_pairs td).2 ∧
        rl.players = lookupPlayers td kv.1 := by
  intro td rl hrl htype
  unfold rankedForwardLines at hrl
  rcases mem_labelLines 0 _ hrl with ⟨le, hle, hpl, hty⟩
  have hle2 : le ∈ withDominance (pairLines td
      (detect_deduced_trios td.even_strength_f_pairs td).2
      ((detect_deduced_trios td.even_strength_f_pairs td).1.foldl
        (mergeDeduced (existingTrioKeys td)) (directTrioLines td))) := by
    have := List.take_subset 3 _ hle
    rw [mem_stableSort] at this
    exact this
  rcases List.mem_map.mp hle2 with ⟨l0, hl0, hl0e⟩
  have hty0 : l0.ltype = "pair" := by
    rw [htype] at hty
    rw [← hl0e] at hty
    exact hty.symm
  have hpl0 : rl.players = l0.players := by
    rw [← hl0e] at hpl
    exact hpl
  unfold pairLines at hl0
  rcases (foldl_append_mem _ _ _ _).mp hl0 with hl0 | ⟨kv, hkv, he⟩
  · rcases lines1_types l0 hl0 with h | h
    · rw [hty0] at h
      exact absurd h (by decide)
    · rw [hty0] at h
      exact absurd h (by decide)
  · by_cases h1 : kv.2.goals > 0 ∧ kv.1 ∉ (detect_deduced_trios td.even_strength_f_pairs td).2
    · rw [if_pos h1] at he
      by_cases h2 : (lookupPlayers td kv.1).length = 2
      · rw [if_pos h2] at he
        rcases List.mem_singleton.mp he with rfl
        exact ⟨kv, hkv, h1.1, h1.2, hpl0⟩
      · rw [if_neg h2] at he; cases he
    · rw [if_neg h1] at he; cases he

/-- The game used for claim C6: one even-strength goal by forward 1
assisted by forwards 2 and 3, giving a direct trio {1,2,3} and scoring
pairs {1,2}, {1,3} (pair {2,3} never scores, so no deduced trio). -/
def gameC6 : Game :=
  { id := 3, home_score := 1, away_score := 0,
    boxscore := some
      { teams := [⟨10, "H"⟩, ⟨20, "A"⟩],
        goals := [{ participant := ⟨some 1, some "P1"⟩, teamId := some 10,
                    assists := [⟨some 2, some "P2"⟩, ⟨some 3, some "P3"⟩],
                    isPowerplay := false, isShorthanded := false }],
        penalties := [], roster := [] },
    home_team_roster :=
      [ { participantId := some 1, participant := ⟨some 1, some "P1"⟩,
          positions := ["F"], number := some 11 },
        { participantId := some 2, participant := ⟨some 2, some "P2"⟩,
          positions := ["F"], number := some 12 },
        { participantId := some 3, participant := ⟨some 3, some "P3"⟩,
          positions := ["F"], number := some 13 } ],
    away_team_roster := [], starting_goalies := none }

/-- Claim C6 is false as stated: the pairs {P1,P2} and {P1,P3} are
constituents of the accepted (direct) trio {P1,P2,P3} reported as
Line 1, yet both are still reported as standalone duo lines — only
pairs used by a DEDUCED trio are excluded. -/
theorem C6_counterexample :
    (rankedForwardLines ((analyze_formations [gameC6]) 10)).map
        (fun rl => (rl.ltype, rl.players.map (fun p => p.name), rl.points, rl.rank)) =
      [("trio", ["P1", "P2", "P3"], 3, "Line 1"),
       ("pair", ["P1", "P2"], 2, "Line 2"),
       ("pair", ["P1", "P3"], 2, "Line 3")] := by decide

/-- Concrete instantiation of `C6_duo_exclusion_amended` on `gameC6`. -/
theorem C6_witness :
    ((⟨[⟨"P1", "F", some 11⟩, ⟨"P2", "F", some 12⟩], 1, 1, 2, "pair", 286,
        "Line 2"⟩ : RankedLine)
      ∈ rankedForwardLines ((analyze_formations [gameC6]) 10)) ∧
    (∃ kv, kv ∈ ((analyze_formations [gameC6]) 10).even_strength_f_pairs ∧
      kv.2.goals > 0 ∧
      kv.1 ∉ (detect_deduced_trios
        ((analyze_formations [gameC6]) 10).even_strength_f_pairs
        ((analyze_formations [gameC6]) 10)).2 ∧
      (⟨[⟨"P1", "F", some 11⟩, ⟨"P2", "F", some 12⟩], 1, 1, 2, "pair", 286,
          "Line 2"⟩ : RankedLine).players =
        lookupPlayers ((analyze_formations [gameC6]) 10) kv.1) := by
  have hmem : (⟨[⟨"P1", "F", some 11⟩, ⟨"P2", "F", some 12⟩], 1, 1, 2, "pair",
      286, "Line 2"⟩ : RankedLine)
      ∈ rankedForwardLines ((analyze_formations [gameC6]) 10) := by decide
  exact ⟨hmem, C6_duo_exclusion_amended _ _ hmem rfl⟩

/-! ### Division matcher (`DivisionAssigner`)

`similarity` is `difflib.SequenceMatcher(None, a.lower(), b.lower()).ratio()`:
the Ratcliff–Obershelp recursion (find the longest matching block —
leftmost in `a`, then in `b` — recurse on both sides, total the match
sizes, ratio `2*M/T` with `T = len(a)+len(b)`; `1.0` when `T = 0`).
The junk/autojunk heuristics only engage for strings of length ≥ 200
and are not modelled (team names are short).  Scores are kept as exact
fraction pairs `(numerator, denominator)` and every float comparison of
the source is modelled by the equivalent cross-multiplied integer
comparison. -/

def pyLowerStr (s : String) : String := String.mk (s.data.map pyLower)

/-- The name-variant substitutions of `normalize_team_name` (the first
whose key occurs as a substring replaces the WHOLE name). -/
def teamNameReplacements : List (String × String) :=
  [ ("grenadiers lac st-louis", "grenadiers du lac st-louis"),
    ("lions lac st-louis", "lions du lac st-louis"),
    ("citadelles rouyn-noranda", "citadelles de rouyn-noranda"),
    ("seigneurs mille-îles", "seigneurs des mille-îles"),
    ("conquérants basses-laurentides", "conquérants basses-laurentides"),
    ("forestiers abitibi-témiscaming", "forestiers abitibi-témiscaming") ]

/-- `DivisionAssigner.normalize_team_name`. -/
def normalize_team_name (name : String) : String :=
  let name := pyLowerStr name
  match teamNameReplacements.find? (fun r => strIn r.1 name) with
  | some r => r.2
  | none => name

/-- Length of the common prefix run of two character lists. -/
def commonRun : List Char → List Char → Nat
  | x :: xs, y :: ys => if x = y then commonRun xs ys + 1 else 0
  | _, _ => 0

/-- Inner step of `find_longest_match`: keep the strictly longer run. -/
def flmInner (a b : List Char) (i : Nat) (best : Nat × Nat × Nat) (j : Nat) :
    Nat × Nat × Nat :=
  let k := commonRun (a.drop i) (b.drop j)
  if k > best.2.2 then (i, j, k) else best

def flmOuter (a b : List Char) (best : Nat × Nat × Nat) (i : Nat) :
    Nat × Nat × Nat :=
  (List.range b.length).foldl (flmInner a b i) best

/-- `SequenceMatcher.find_longest_match` over whole strings: the
longest matching block, leftmost in `a` and then in `b` among ties. -/
def findLongestMatch (a b : List Char) : Nat × Nat × Nat :=
  (List.range a.length).foldl (flmOuter a b) (0, 0, 0)

/-- Total matched characters of the Ratcliff–Obershelp recursion.  The
fuel `|a| + |b|` bounds the recursion depth: both recursive calls are
on strictly shorter total length whenever the longest block is
non-empty. -/
def ratMatches : Nat → List Char → List Char → Nat
  | 0, _, _ => 0
  | fuel + 1, a, b =>
    let m := findLongestMatch a b
    if m.2.2 = 0 then 0
    else
      ratMatches fuel (a.take m.1) (b.take m.2.1) + m.2.2 +
        ratMatches fuel (a.drop (m.1 + m.2.2)) (b.drop (m.2.1 + m.2.2))

def matchesTotal (a b : List Char) : Nat :=
  ratMatches (a.length + b.length) a b

/-- `DivisionAssigner.similarity` as the exact fraction
`2*M / (len(a)+len(b))` (`1.0` for two empty strings). -/
def simScore (a b : String) : Nat × Nat :=
  if (pyLowerStr a).data.length + (pyLowerStr b).data.length = 0 then (1, 1)
  else (2 * matchesTotal (pyLowerStr a).data (pyLowerStr b).data,
    (pyLowerStr a).data.length + (pyLowerStr b).data.length)

/-- `x > y` on non-negative fractions with positive denominators. -/
def fracGt (x y : Nat × Nat) : Prop := y.2 * x.1 > y.1 * x.2

instance (x y : Nat × Nat) : Decidable (fracGt x y) := by
  unfold fracGt; infer_instance

/-- One fuzzy-pass step: keep the strictly better score and its
division (`if score > best_match_score`). -/
def fuzzyStep (name : String) (acc : (Nat × Nat) × Option String)
    (kv : String × String) : (Nat × Nat) × Option String :=
  if fracGt (simScore (normalize_team_name name) (normalize_team_name kv.1))
      acc.1 then
    (simScore (normalize_team_name name) (normalize_team_name kv.1), some kv.2)
  else acc

/-- `DivisionAssigner.assign_divisions` for one team name: exact match
after normalization wins; otherwise the best similarity wins if it
strictly exceeds `0.7`, else `"Unknown"`. -/
def assignDivision (team_to_division : List (String × String))
    (team_name : String) : String :=
  match team_to_division.find?
      (fun kv => normalize_team_name team_name = normalize_team_name kv.1) with
  | some kv => kv.2
  | none =>
    let best := team_to_division.foldl (fuzzyStep team_name) ((0, 1), none)
    if fracGt best.1 (7, 10) then
      match best.2 with
      | some d => d
      | none => "Unknown"
    else "Unknown"

/-! #### Similarity and fuzzy-pass lemmas (claim C9) -/

theorem commonRun_self (l : List Char) : commonRun l l = l.length := by
  induction l with
  | nil => rfl
  | cons a l ih => simp [commonRun, ih]

theorem commonRun_le (a : List Char) : ∀ b, commonRun a b ≤ a.length := by
  induction a with
  | nil => intro b; cases b <;> simp [commonRun]
  | cons x xs ih =>
    intro b
    cases b with
    | nil => simp [commonRun]
    | cons y ys =>
      unfold commonRun
      by_cases h : x = y
      · rw [if_pos h]
        simpa using ih ys
      · rw [if_neg h]
        simp

theorem flmInner_keep (a b : List Char) (i : Nat) :
    ∀ (js : List Nat) (best : Nat × Nat × Nat),
      (∀ j, commonRun (a.drop i) (b.drop j) ≤ best.2.2) →
      js.foldl (flmInner a b i) best = best := by
  intro js
  induction js with
  | nil => intro best _; rfl
  | cons j rest ih =>
    intro best h
    rw [List.foldl_cons]
    have : flmInner a b i best j = best := by
      unfold flmInner
      rw [if_neg]
      exact fun hc => absurd (h j) (by omega)
    rw [this]
    exact ih best h

theorem flmOuter_keep (a b : List Char) :
    ∀ (is' : List Nat) (best : Nat × Nat × Nat),
      (∀ i j, commonRun (a.drop i) (b.drop j) ≤ best.2.2) →
      is'.foldl (flmOuter a b) best = best := by
  intro is'
  induction is' with
  | nil => intro best _; rfl
  | cons i rest ih =>
    intro best h
    rw [List.foldl_cons]
    have : flmOuter a b best i = best := flmInner_keep a b i _ best (h i)
    rw [this]
    exact ih best h

theorem findLongestMatch_self (l : List Char) (h : l ≠ []) :
    findLongestMatch l l = (0, 0, l.length) := by
  obtain ⟨c, l', rfl⟩ : ∃ c l', l = c :: l' := by
    cases l with
    | nil => exact absurd rfl h
    | cons c l' => exact ⟨c, l', rfl⟩
  set m := c :: l' with hm
  unfold findLongestMatch
  have hlen : m.length = l'.length + 1 := by simp [hm]
  rw [hlen, List.range_succ_eq_map, List.foldl_cons]
  have houter0 : flmOuter m m (0, 0, 0) 0 = (0, 0, m.length) := by
    unfold flmOuter
    rw [hlen, List.range_succ_eq_map, List.foldl_cons]
    have hstep : flmInner m m 0 (0, 0, 0) 0 = (0, 0, m.length) := by
      unfold flmInner
      simp [commonRun_self]
    rw [hstep]
    apply flmInner_keep
    intro j
    calc commonRun (m.drop 0) (m.drop j) ≤ (m.drop 0).length := commonRun_le _ _
    _ = m.length := by simp
  rw [houter0]
  apply flmOuter_keep
  intro i j
  calc commonRun (m.drop i) (m.drop j) ≤ (m.drop i).length := commonRun_le _ _
  _ ≤ m.length := by simp

theorem ratMatches_nil : ∀ fuel, ratMatches fuel [] [] = 0 := by
  intro fuel
  cases fuel with
  | zero => rfl
  | succ n => rfl

theorem matchesTotal_self (l : List Char) : matchesTotal l l = l.length := by
  cases hl : l with
  | nil => rfl
  | cons c l' =>
    unfold matchesTotal
    obtain ⟨n, hn⟩ : ∃ n, (c :: l').length + (c :: l').length = n + 1 :=
      ⟨(c :: l').length + l'.length, by simp; omega⟩
    rw [hn]
    unfold ratMatches
    rw [findLongestMatch_self (c :: l') (by simp)]
    simp only
    rw [if_neg (by simp)]
    rw [List.drop_eq_nil_of_le (by simp)]
    simp [ratMatches_nil]

theorem simScore_den_pos (a b : String) : 0 < (simScore a b).2 := by
  unfold simScore
  split
  · simp
  · rename_i h
    simp only
    omega

theorem simScore_self_gt7 (s : String) : fracGt (simScore s s) (7, 10) := by
  unfold simScore fracGt
  split
  · simp
  · rename_i h
    simp only [matchesTotal_self]
    omega

theorem fracGt_irrefl (x : Nat × Nat) : ¬ fracGt x x := by
  unfold fracGt
  rw [Nat.mul_comm]
  exact lt_irrefl _

theorem fracGt_trans {x y z : Nat × Nat} (h1 : fracGt x y) (h2 : fracGt y z)
    (hx : 0 < x.2) (hy : 0 < y.2) (hz : 0 < z.2) : fracGt x z := by
  unfold fracGt at h1 h2 ⊢
  by_contra hcon
  push_neg at hcon
  nlinarith [mul_lt_mul_of_pos_right h1 hz, mul_lt_mul_of_pos_right h2 hx,
    mul_le_mul_of_nonneg_right hcon (Nat.zero_le y.2)]

theorem fracGt_of_fracGt_of_not_fracGt {x y c : Nat × Nat}
    (hxc : fracGt x c) (hxy : ¬ fracGt x y) (hx : 0 < x.2) (hy : 0 < y.2) :
    fracGt y c := by
  unfold fracGt at hxc hxy ⊢
  push_neg at hxy
  by_contra hcon
  push_neg at hcon
  nlinarith [mul_lt_mul_of_pos_right hxc hy,
    mul_le_mul_of_nonneg_right hxy (Nat.zero_le c.2),
    mul_le_mul_of_nonneg_right hcon (Nat.zero_le x.2)]

/-- The fuzzy fold result: the accumulator's score only improves,
its denominator stays positive, it is attained by some reference (or
is still the initial value), and it is maximal over the list. -/
theorem fuzzy_fold_facts (name : String) (l : List (String × String)) :
    ∀ (acc : (Nat × Nat) × Option String), 0 < acc.1.2 →
      (0 < (l.foldl (fuzzyStep name) acc).1.2) ∧
      ((l.foldl (fuzzyStep name) acc).1 = acc.1 ∨
        fracGt (l.foldl (fuzzyStep name) acc).1 acc.1) ∧
      ((l.foldl (fuzzyStep name) acc) = acc ∨
        ∃ kv ∈ l, (l.foldl (fuzzyStep name) acc).1 =
            simScore (normalize_team_name name) (normalize_team_name kv.1) ∧
          (l.foldl (fuzzyStep name) acc).2 = some kv.2) ∧
      (∀ kv ∈ l, ¬ fracGt
        (simScore (normalize_team_name name) (normalize_team_name kv.1))
        (l.foldl (fuzzyStep name) acc).1) := by
  induction l with
  | nil =>
    intro acc hpos
    exact ⟨hpos, Or.inl rfl, Or.inl rfl, fun kv hkv => absurd hkv (by simp)⟩
  | cons kv0 rest ih =>
    intro acc hpos
    rw [List.foldl_cons]
    have hstep_pos : 0 < (fuzzyStep name acc kv0).1.2 := by
      unfold fuzzyStep
      split
      · exact simScore_den_pos _ _
      · exact hpos
    obtain ⟨hp, himp, hatt, hmax⟩ := ih (fuzzyStep name acc kv0) hstep_pos
    refine ⟨hp, ?_, ?_, ?_⟩
    · -- score only improves
      have hstep : (fuzzyStep name acc kv0).1 = acc.1 ∨
          fracGt (fuzzyStep name acc kv0).1 acc.1 := by
        unfold fuzzyStep
        split
        · rename_i hgt
          exact Or.inr hgt
        · exact Or.inl rfl
      rcases himp with h1 | h1 <;> rcases hstep with h2 | h2
      · exact Or.inl (h1.trans h2)
      · exact Or.inr (by rw [h1]; exact h2)
      · exact Or.inr (by rw [← h2]; exact h1)
      · exact Or.inr (fracGt_trans h1 h2 hp hstep_pos hpos)
    · -- attained by some reference or untouched
      rcases hatt with h1 | ⟨kv, hkv, he⟩
      · rw [h1]
        unfold fuzzyStep
        split
        · exact Or.inr ⟨kv0, List.mem_cons_self _ _, rfl, rfl⟩
        · exact Or.inl rfl
      · exact Or.inr ⟨kv, List.mem_cons_of_mem _ hkv, he⟩
    · -- maximality
      intro kv hkv
      rcases List.mem_cons.mp hkv with rfl | hkv'
      · -- the head: not greater than the step result, which only improved
        have hstep_max : ¬ fracGt
            (simScore (normalize_team_name name) (normalize_team_name kv.1))
            (fuzzyStep name acc kv).1 := by
          unfold fuzzyStep
          split
          · rename_i hgt
            exact fracGt_irrefl _
          · rename_i hgt
            exact hgt
        intro hcon
        rcases himp with h1 | h1
        · rw [h1] at hcon
          exact hstep_max hcon
        · exact hstep_max (fracGt_trans hcon h1 (simScore_den_pos _ _)
            hp hstep_pos)
      · exact hmax kv hkv'

/-- Shorthand: the similarity score of a team name against a reference
name, both normalized first (as `assign_divisions` computes it). -/
def simTo (name ref : String) : Nat × Nat :=
  simScore (normalize_team_name name) (normalize_team_name ref)

/-- Claim C9: a reference name matching exactly after normalization and
name-variant substitution wins outright; otherwise the division of the
best-similarity reference is assigned only when that best score
strictly exceeds 0.70, and `"Unknown"` is assigned when no score
exceeds 0.70 — in particular when every similarity is at most 0.65.
(Scores are exact fractions; `>` is the cross-multiplied comparison.) -/
theorem C9_division_matcher (refs : List (String × String)) (name : String) :
    ((∃ kv ∈ refs, normalize_team_name name = normalize_team_name kv.1) →
      ∃ kv ∈ refs, normalize_team_name name = normalize_team_name kv.1 ∧
        assignDivision refs name = kv.2) ∧
    ((∀ kv ∈ refs, normalize_team_name name ≠ normalize_team_name kv.1) →
      (∃ kv ∈ refs, fracGt (simTo name kv.1) (7, 10)) →
      ∃ kv ∈ refs,
        (∀ kv' ∈ refs, ¬ fracGt (simTo name kv'.1) (simTo name kv.1)) ∧
        assignDivision refs name = kv.2) ∧
    ((∀ kv ∈ refs, ¬ fracGt (simTo name kv.1) (7, 10)) →
      assignDivision refs name = "Unknown") ∧
    ((∀ kv ∈ refs, 100 * (simTo name kv.1).1 ≤ 65 * (simTo name kv.1).2) →
      assignDivision refs name = "Unknown") := by
  have hUnknown : (∀ kv ∈ refs, ¬ fracGt (simTo name kv.1) (7, 10)) →
      assignDivision refs name = "Unknown" := by
    intro hbound
    have hnone : refs.find?
        (fun kv => normalize_team_name name = normalize_team_name kv.1) = none := by
      rw [List.find?_eq_none]
      intro kv hkv hpred
      rw [decide_eq_true_eq] at hpred
      apply hbound kv hkv
      unfold simTo
      rw [hpred]
      exact simScore_self_gt7 _
    unfold assignDivision
    rw [hnone]
    simp only
    obtain ⟨hp, _, hatt, _⟩ :=
      fuzzy_fold_facts name refs ((0, 1), none) (by simp)
    rw [if_neg]
    rcases hatt with h1 | ⟨kv, hkv, he1, _⟩
    · rw [h1]
      unfold fracGt
      simp
    · rw [he1]
      exact hbound kv hkv
  refine ⟨?_, ?_, hUnknown, ?_⟩
  · rintro ⟨kv, hkv, heq⟩
    cases hf : refs.find?
        (fun kv => normalize_team_name name = normalize_team_name kv.1) with
    | none =>
      exact absurd (by rw [decide_eq_true_eq]; exact heq)
        (List.find?_eq_none.mp hf kv hkv)
    | some kv' =>
      refine ⟨kv', List.mem_of_find?_eq_some hf, ?_, ?_⟩
      · have := List.find?_some hf
        rw [decide_eq_true_eq] at this
        exact this
      · unfold assignDivision
        rw [hf]
  · intro hno hex
    have hnone : refs.find?
        (fun kv => normalize_team_name name = normalize_team_name kv.1) = none := by
      rw [List.find?_eq_none]
      intro kv hkv hpred
      rw [decide_eq_true_eq] at hpred
      exact hno kv hkv hpred
    unfold assignDivision
    rw [hnone]
    simp only
    obtain ⟨hp, _, hatt, hmax⟩ :=
      fuzzy_fold_facts name refs ((0, 1), none) (by simp)
    obtain ⟨kv0, hkv0, hgt0⟩ := hex
    have hthr : fracGt (refs.foldl (fuzzyStep name) ((0, 1), none)).1 (7, 10) :=
      fracGt_of_fracGt_of_not_fracGt hgt0 (hmax kv0 hkv0)
        (simScore_den_pos _ _) hp
    rw [if_pos hthr]
    rcases hatt with h1 | ⟨kv, hkv, he1, he2⟩
    · exfalso
      rw [h1] at hthr
      unfold fracGt at hthr
      simp at hthr
    · rw [he2]
      refine ⟨kv, hkv, ?_, rfl⟩
      intro kv' hkv'
      have := hmax kv' hkv'
      rw [he1] at this
      exact this
  · intro hbound
    apply hUnknown
    intro kv hkv
    have := hbound kv hkv
    unfold fracGt
    omega

/-- Concrete instantiation of `C9_division_matcher`: the variant
spelling "lions du lac st-louis" exact-matches the reference
"Lions Lac St-Louis" through the substitution table, and a totally
dissimilar name yields `"Unknown"`. -/
theorem C9_witness :
    (∃ kv ∈ [("Lions Lac St-Louis", "Division A")],
      normalize_team_name "lions du lac st-louis" = normalize_team_name kv.1 ∧
      assignDivision [("Lions Lac St-Louis", "Division A")]
        "lions du lac st-louis" = kv.2) ∧
    ((∀ kv ∈ [("alpha", "Division B")],
        100 * (simTo "zzz" kv.1).1 ≤ 65 * (simTo "zzz" kv.1).2) ∧
      assignDivision [("alpha", "Division B")] "zzz" = "Unknown") := by
  refine ⟨?_, ?_, ?_⟩
  · exact (C9_division_matcher [("Lions Lac St-Louis", "Division A")]
      "lions du lac st-louis").1 (by decide)
  · decide
  · exact (C9_division_matcher [("alpha", "Division B")] "zzz").2.2.2 (by decide)


/-! ### League ledger (`HockeyStatsCompiler.process_games`)

Team and player tables are modelled as functions `Nat → Option _`
(`logo_url` bookkeeping is omitted: logo retrieval is outside the core
per the spec).  Adjacent `+=` updates of distinct fields of one dict
entry are combined into a single record update; an update of a missing
entry (a Python `KeyError`) is a no-op, and the theorems below restrict
to well-formed inputs on which that path is never taken. -/

structure TeamStats where
  id : Nat
  name : String
  games_played : Nat
  wins : Nat
  losses : Nat
  ties : Nat
  points : Nat
  goals_for : Nat
  goals_against : Nat
  goal_differential : Int
  penalty_minutes : Nat
  powerplay_goals_for : Nat
  powerplay_goals_against : Nat
  powerplay_opportunities : Nat
  shorthanded_goals_for : Nat
  shorthanded_goals_against : Nat
  home_wins : Nat
  home_losses : Nat
  home_ties : Nat
  away_wins : Nat
  away_losses : Nat
  away_ties : Nat
deriving DecidableEq

structure PlayerStats where
  id : Nat
  name : Option String
  team_id : Nat
  position : String
  games_played : Nat
  goals : Nat
  assists : Nat
  points : Nat
  penalty_minutes : Nat
  powerplay_goals : Nat
  powerplay_assists : Nat
  shorthanded_goals : Nat
  shorthanded_assists : Nat
  wins : Nat
  losses : Nat
  ties : Nat
  goals_against : Nat
deriving DecidableEq

abbrev TMap := Nat → Option TeamStats
abbrev PMap := Nat → Option PlayerStats
abbrev PGames := Nat → List Nat

def mkTeamStats (tid : Nat) (name : String) : TeamStats :=
  ⟨tid, name, 0, 0, 0, 0, 0, 0, 0, 0, 0, 0, 0, 0, 0, 0, 0, 0, 0, 0, 0, 0⟩

def mkPlayerStats (pid : Nat) (name : Option String) (team_id : Nat)
    (position : String) : PlayerStats :=
  ⟨pid, name, team_id, position, 0, 0, 0, 0, 0, 0, 0, 0, 0, 0, 0, 0, 0⟩

/-- `initialize_team_stats`: create on first encounter, else untouched. -/
def initialize_team_stats (m : TMap) (tid : Nat) (name : String) : TMap :=
  match m tid with
  | some _ => m
  | none => fun t => if t = tid then some (mkTeamStats tid name) else m t

/-- `initialize_player_stats`. -/
def initialize_player_stats (m : PMap) (pid : Nat) (name : Option String)
    (team_id : Nat) (position : String) : PMap :=
  match m pid with
  | some _ => m
  | none => fun q => if q = pid then some (mkPlayerStats pid name team_id position) else m q

/-- `self.teams[tid][...] += ...` (no-op when the entry is missing). -/
def adjustTeam (m : TMap) (tid : Nat) (f : TeamStats → TeamStats) : TMap :=
  fun t => if t = tid then (m tid).map f else m t

def adjustPlayer (m : PMap) (pid : Nat) (f : PlayerStats → PlayerStats) : PMap :=
  fun q => if q = pid then (m pid).map f else m q

/-- `set.add`: a Python set is unordered and is only ever consumed by
order-insensitive reads (membership, size, predicate counts), so it is
modeled canonically as a sorted dup-free list. -/
def setAdd (gid : Nat) (l : List Nat) : List Nat :=
  if gid ∈ l then l else insertAscN gid l

/-- `player_games[pid].add(gid)`. -/
def pgAdd (pg : PGames) (pid gid : Nat) : PGames :=
  fun q => if q = pid then setAdd gid (pg q) else pg q

/-- `self.player_positions`: participant id → normalized position. -/
abbrev PosIdx := Nat → Option String

/-- Normalize one roster entry's raw position code
(`build_player_positions_index` body). -/
def normalizeRosterPosition (p : RosterEntry) : String :=
  let position := p.positions.headD "F"
  if position = "C" then "F"
  else if position ∈ (["Trainer", "Assistant Coach", "Head Coach",
      "Safety Person", "Goaltending Coach"] : List String) then "Coach"
  else if position ∉ (["G", "D", "F"] : List String) then "F"
  else position

def posIdxStep (idx : PosIdx) (p : RosterEntry) : PosIdx :=
  match p.participantId with
  | some pid =>
      if pid ≠ 0 then
        fun q => if q = pid then some (normalizeRosterPosition p) else idx q
      else idx
  | none => idx

/-- `HockeyStatsCompiler.build_player_positions_index` (last write wins
across games; home roster before away roster). -/
def build_player_positions_index (games : List Game) : PosIdx :=
  games.foldl (fun idx g =>
    g.away_team_roster.foldl posIdxStep (g.home_team_roster.foldl posIdxStep idx))
    (fun _ => none)

/-- `HockeyStatsCompiler.get_player_position`: the global index, then
the boxscore `roster` key, then `'F'`. -/
def get_player_position (idx : PosIdx) (b : Boxscore) (pid : Nat) : String :=
  match idx pid with
  | some p => p
  | none =>
    match b.roster.find? (fun r => r.participantId = some pid) with
    | some r => r.positions.headD "F"
    | none => "F"

/-- The compiler's mutable state: team table, player table, and the
`player_games` id sets. -/
structure CState where
  teams : TMap
  players : PMap
  pgames : PGames

/-- Penalty minutes from the duration-name substrings (default `''`
in `process_games`, so an absent duration is the final `else`). -/
def penaltyMinutesOf (p : Penalty) : Nat :=
  let duration_name := p.durationName.getD ""
  if strIn "Minor" duration_name || strIn "Mineure" duration_name then 2
  else if strIn "Major" duration_name || strIn "Majeure" duration_name then 5
  else if strIn "Misconduct" duration_name then 10
  else 2

/-- One assist of a goal's assist loop (`tid` is the scoring team,
`isPP`/`isSH` the goal's special-team flags). -/
def assistStep (posIdx : PosIdx) (b : Boxscore) (tid gid : Nat)
    (isPP isSH : Bool) (st : CState) (a : Assist) : CState :=
  match a.participantId with
  | some aid =>
    if aid = 0 then st
    else
      let position := get_player_position posIdx b aid
      let position := if position = "C" then "F" else position
      let players := initialize_player_stats st.players aid a.fullName tid position
      let players := adjustPlayer players aid
        (fun p => { p with assists := p.assists + 1, points := p.points + 1 })
      let pgames := pgAdd st.pgames aid gid
      let players := if isPP then
          adjustPlayer players aid
            (fun p => { p with powerplay_assists := p.powerplay_assists + 1 })
        else players
      let players := if isSH then
          adjustPlayer players aid
            (fun p => { p with shorthanded_assists := p.shorthanded_assists + 1 })
        else players
      { st with players := players, pgames := pgames }
  | none => st

/-- One goal of the per-game goals loop. -/
def goalStep (posIdx : PosIdx) (b : Boxscore) (home_team_id away_team_id gid : Nat)
    (st : CState) (goal : Goal) : CState :=
  match goal.participant.participantId, goal.teamId with
  | some sid, some tid =>
    if sid = 0 ∨ tid = 0 then st
    else
      let position := get_player_position posIdx b sid
      let position := if position = "C" then "F" else position
      let players := initialize_player_stats st.players sid
        goal.participant.fullName tid position
      let players := adjustPlayer players sid
        (fun p => { p with goals := p.goals + 1, points := p.points + 1 })
      let pgames := pgAdd st.pgames sid gid
      let players := if goal.isPowerplay then
          adjustPlayer players sid
            (fun p => { p with powerplay_goals := p.powerplay_goals + 1 })
        else players
      let teams := if goal.isPowerplay then
          adjustTeam
            (adjustTeam st.teams tid (fun s =>
              { s with powerplay_goals_for := s.powerplay_goals_for + 1 }))
            (if tid = home_team_id then away_team_id else home_team_id)
            (fun s =>
              { s with powerplay_goals_against := s.powerplay_goals_against + 1 })
        else st.teams
      let players := if goal.isShorthanded then
          adjustPlayer players sid
            (fun p => { p with shorthanded_goals := p.shorthanded_goals + 1 })
        else players
      let teams := if goal.isShorthanded then
          adjustTeam
            (adjustTeam teams tid (fun s =>
              { s with shorthanded_goals_for := s.shorthanded_goals_for + 1 }))
            (if tid = home_team_id then away_team_id else home_team_id)
            (fun s =>
              { s with shorthanded_goals_against := s.shorthanded_goals_against + 1 })
        else teams
      -- the assist loop
      goal.assists.foldl
        (assistStep posIdx b tid gid goal.isPowerplay goal.isShorthanded)
        { st with teams := teams, players := players, pgames := pgames }
  | _, _ => st

/-- One penalty of the per-game penalties loop. -/
def penaltyStep (posIdx : PosIdx) (b : Boxscore) (gid : Nat)
    (st : CState) (penalty : Penalty) : CState :=
  match penalty.participant.participantId, penalty.teamId with
  | some pid, some tid =>
    if pid = 0 ∨ tid = 0 then st
    else
      let pm := penaltyMinutesOf penalty
      let position := get_player_position posIdx b pid
      let position := if position = "C" then "F" else position
      let players := initialize_player_stats st.players pid
        penalty.participant.fullName tid position
      let players := adjustPlayer players pid
        (fun p => { p with penalty_minutes := p.penalty_minutes + pm })
      let teams := adjustTeam st.teams tid
        (fun s => { s with penalty_minutes := s.penalty_minutes + pm })
      let pgames := pgAdd st.pgames pid gid
      { st with teams := teams, players := players, pgames := pgames }
  | _, _ => st

/-- One roster entry of the per-game roster loops (`my_score` /
`opp_score` are from the rostered team's perspective). -/
def rosterStep (sg : SGMap) (posIdx : PosIdx) (game : Game) (b : Boxscore)
    (team_id my_score opp_score gid : Nat) (st : CState) (entry : RosterEntry) :
    CState :=
  match entry.participantId, entry.participant.fullName with
  | some pid, some nm =>
    if pid = 0 ∨ nm = "" then st
    else
      let position := get_player_position posIdx b pid
      if position ∉ (["F", "D", "G", "C"] : List String) then st
      else
        let position := if position = "C" then "F" else position
        let players := initialize_player_stats st.players pid (some nm) team_id position
        let pgames := pgAdd st.pgames pid gid
        let players :=
          if position = "G" ∧
              is_starting_goalie sg gid (some nm) (some team_id) (some game) then
            adjustPlayer players pid (fun p =>
              if my_score > opp_score then
                { p with wins := p.wins + 1, goals_against := p.goals_against + opp_score }
              else if my_score < opp_score then
                { p with losses := p.losses + 1, goals_against := p.goals_against + opp_score }
              else
                { p with ties := p.ties + 1, goals_against := p.goals_against + opp_score })
          else players
        { st with players := players, pgames := pgames }
  | _, _ => st

/-- One game of `process_games`' main loop. -/
def processGame (sg : SGMap) (posIdx : PosIdx) (st : CState) (game : Game) :
    CState :=
  match game.boxscore with
  | none => st
  | some boxscore =>
    match boxscore.teams with
    | home_team :: away_team :: _ =>
      let home_score := game.home_score
      let away_score := game.away_score
      let home_team_id := home_team.id
      let away_team_id := away_team.id
      let teams := initialize_team_stats st.teams home_team_id home_team.name
      let teams := initialize_team_stats teams away_team_id away_team.name
      let teams := adjustTeam teams home_team_id
        (fun s => { s with games_played := s.games_played + 1 })
      let teams := adjustTeam teams away_team_id
        (fun s => { s with games_played := s.games_played + 1 })
      let pp_opps := calculate_powerplay_opportunities game home_team_id away_team_id
      let teams := adjustTeam teams home_team_id (fun s =>
        { s with powerplay_opportunities :=
            s.powerplay_opportunities + pp_opps home_team_id })
      let teams := adjustTeam teams away_team_id (fun s =>
        { s with powerplay_opportunities :=
            s.powerplay_opportunities + pp_opps away_team_id })
      let teams := adjustTeam teams home_team_id (fun s =>
        { s with goals_for := s.goals_for + home_score,
                 goals_against := s.goals_against + away_score })
      let teams := adjustTeam teams away_team_id (fun s =>
        { s with goals_for := s.goals_for + away_score,
                 goals_against := s.goals_against + home_score })
      let teams :=
        if home_score > away_score then
          adjustTeam
            (adjustTeam teams home_team_id (fun s =>
              { s with wins := s.wins + 1, home_wins := s.home_wins + 1,
                       points := s.points + 2 }))
            away_team_id (fun s =>
              { s with losses := s.losses + 1, away_losses := s.away_losses + 1 })
        else if away_score > home_score then
          adjustTeam
            (adjustTeam teams away_team_id (fun s =>
              { s with wins := s.wins + 1, away_wins := s.away_wins + 1,
                       points := s.points + 2 }))
            home_team_id (fun s =>
              { s with losses := s.losses + 1, home_losses := s.home_losses + 1 })
        else
          adjustTeam
            (adjustTeam teams home_team_id (fun s =>
              { s with ties := s.ties + 1, home_ties := s.home_ties + 1,
                       points := s.points + 1 }))
            away_team_id (fun s =>
              { s with ties := s.ties + 1, away_ties := s.away_ties + 1,
                       points := s.points + 1 })
      let st := { st with teams := teams }
      let st := boxscore.goals.foldl
        (goalStep posIdx boxscore home_team_id away_team_id game.id) st
      let st := boxscore.penalties.foldl (penaltyStep posIdx boxscore game.id) st
      let st := game.home_team_roster.foldl
        (rosterStep sg posIdx game boxscore home_team_id home_score away_score game.id) st
      let st := game.away_team_roster.foldl
        (rosterStep sg posIdx game boxscore away_team_id away_score home_score game.id) st
      st
    | _ => st

/-- The `games_played` final pass over `player_games`. -/
def finalize_players (games : List Game) (sg : SGMap) (st : CState) : PMap :=
  fun pid =>
    match st.players pid with
    | none => none
    | some p =>
      if st.pgames pid = [] then some p
      else if p.position = "G" then
        some { p with games_played :=
          (st.pgames pid).countP (fun gid =>
            is_starting_goalie sg gid p.name (some p.team_id)
              (games.find? (fun g => g.id = gid))) }
      else some { p with games_played := (st.pgames pid).length }

/-- `HockeyStatsCompiler.process_games`: build the position and
starting-goalie indexes, fold the games, then run the `games_played`
and `goal_differential` final passes. -/
def process_games (games : List Game) : CState :=
  let posIdx := build_player_positions_index games
  let sg := load_starting_goalies games
  let st := games.foldl (processGame sg posIdx)
    ⟨fun _ => none, fun _ => none, fun _ => []⟩
  { teams := fun tid => (st.teams tid).map (fun s =>
      { s with goal_differential :=
          (s.goals_for : Int) - (s.goals_against : Int) }),
    players := finalize_players games sg st,
    pgames := st.pgames }

/-! #### Claim C4: team invariants -/

/-- The points identity of one team row. -/
def teamInv (s : TeamStats) : Prop := s.points = 2 * s.wins + s.ties

/-- The points identity over the whole team table. -/
def TInv (m : TMap) : Prop := ∀ tid s, m tid = some s → teamInv s

theorem TInv_init {m : TMap} (h : TInv m) (tid : Nat) (name : String) :
    TInv (initialize_team_stats m tid name) := by
  unfold initialize_team_stats
  cases hm : m tid with
  | some s => exact h
  | none =>
    intro t s hs
    dsimp only at hs
    by_cases ht : t = tid
    · rw [if_pos ht] at hs
      cases hs
      exact rfl
    · rw [if_neg ht] at hs
      exact h t s hs

theorem TInv_adjust {m : TMap} {f : TeamStats → TeamStats}
    (hf : ∀ s, teamInv s → teamInv (f s)) (h : TInv m) (tid : Nat) :
    TInv (adjustTeam m tid f) := by
  intro t s hs
  unfold adjustTeam at hs
  by_cases ht : t = tid
  · rw [if_pos ht] at hs
    cases hmt : m tid with
    | none => rw [hmt] at hs; cases hs
    | some s0 =>
      rw [hmt] at hs
      simp only [Option.map_some'] at hs
      cases hs
      exact hf s0 (h tid s0 hmt)
  · rw [if_neg ht] at hs
    exact h t s hs

theorem assistStep_teams_eq {posIdx : PosIdx} {b : Boxscore} {tid gid : Nat}
    {pp sh : Bool} {st : CState} {a : Assist} :
    (assistStep posIdx b tid gid pp sh st a).teams = st.teams := by
  unfold assistStep
  cases a.participantId with
  | none => rfl
  | some aid =>
    dsimp only
    by_cases h0 : aid = 0
    · rw [if_pos h0]
    · rw [if_neg h0]

theorem foldl_assistStep_teams_eq {posIdx : PosIdx} {b : Boxscore} {tid gid : Nat}
    {pp sh : Bool} (l : List Assist) (st : CState) :
    ((l.foldl (assistStep posIdx b tid gid pp sh) st)).teams = st.teams := by
  induction l generalizing st with
  | nil => rfl
  | cons a rest ih =>
    rw [List.foldl_cons, ih, assistStep_teams_eq]

theorem goalStep_teams_TInv {posIdx : PosIdx} {b : Boxscore}
    {hid aid gid : Nat} {st : CState} {goal : Goal} (h : TInv st.teams) :
    TInv (goalStep posIdx b hid aid gid st goal).teams := by
  unfold goalStep
  cases goal.participant.participantId with
  | none => exact h
  | some sid =>
    cases goal.teamId with
    | none => exact h
    | some tid =>
      dsimp only
      by_cases h0 : sid = 0 ∨ tid = 0
      · rw [if_pos h0]; exact h
      · rw [if_neg h0]
        simp only [foldl_assistStep_teams_eq]
        split
        · apply TInv_adjust (by intro s hs; exact hs)
          apply TInv_adjust (by intro s hs; exact hs)
          split
          · exact TInv_adjust (by intro s hs; exact hs)
              (TInv_adjust (by intro s hs; exact hs) h tid) _
          · exact h
        · split
          · exact TInv_adjust (by intro s hs; exact hs)
              (TInv_adjust (by intro s hs; exact hs) h tid) _
          · exact h

theorem penaltyStep_teams_TInv {posIdx : PosIdx} {b : Boxscore}
    {gid : Nat} {st : CState} {penalty : Penalty} (h : TInv st.teams) :
    TInv (penaltyStep posIdx b gid st penalty).teams := by
  unfold penaltyStep
  cases penalty.participant.participantId with
  | none => exact h
  | some pid =>
    cases penalty.teamId with
    | none => exact h
    | some tid =>
      dsimp only
      by_cases h0 : pid = 0 ∨ tid = 0
      · rw [if_pos h0]; exact h
      · rw [if_neg h0]
        exact TInv_adjust (by intro s hs; exact hs) h tid

theorem rosterStep_teams_eq {sg : SGMap} {posIdx : PosIdx} {game : Game}
    {b : Boxscore} {team_id ms os gid : Nat} {st : CState} {entry : RosterEntry} :
    (rosterStep sg posIdx game b team_id ms os gid st entry).teams = st.teams := by
  unfold rosterStep
  cases entry.participantId with
  | none => rfl
  | some pid =>
    cases entry.participant.fullName with
    | none => rfl
    | some nm =>
      dsimp only
      by_cases h0 : pid = 0 ∨ nm = ""
      · rw [if_pos h0]
      · rw [if_neg h0]
        split
        · rfl
        · rfl

theorem foldl_rosterStep_teams_eq {sg : SGMap} {posIdx : PosIdx} {game : Game}
    {b : Boxscore} {team_id ms os gid : Nat} :
    ∀ (l : List RosterEntry) (st : CState),
      ((l.foldl (rosterStep sg posIdx game b team_id ms os gid) st)).teams = st.teams := by
  intro l
  induction l with
  | nil => intro st; rfl
  | cons e rest ih =>
    intro st
    rw [List.foldl_cons, ih, rosterStep_teams_eq]

theorem processGame_TInv {sg : SGMap} {posIdx : PosIdx} {st : CState}
    {game : Game} (h : TInv st.teams) :
    TInv (processGame sg posIdx st game).teams := by
  unfold processGame
  cases game.boxscore with
  | none => exact h
  | some boxscore =>
    dsimp only
    cases boxscore.teams with
    | nil => exact h
    | cons home_team rest =>
      cases rest with
      | nil => exact h
      | cons away_team rest2 =>
        have hpen : ∀ (l : List Penalty) (st' : CState), TInv st'.teams →
            TInv ((l.foldl (penaltyStep posIdx boxscore game.id) st')).teams := by
          intro l
          induction l with
          | nil => intro st' h'; exact h'
          | cons p rest' ih =>
            intro st' h'
            rw [List.foldl_cons]
            exact ih _ (penaltyStep_teams_TInv h')
        have hgoal : ∀ (l : List Goal) (st' : CState), TInv st'.teams →
            TInv ((l.foldl
              (goalStep posIdx boxscore home_team.id away_team.id game.id) st')).teams := by
          intro l
          induction l with
          | nil => intro st' h'; exact h'
          | cons g rest' ih =>
            intro st' h'
            rw [List.foldl_cons]
            exact ih _ (goalStep_teams_TInv h')
        simp only [foldl_rosterStep_teams_eq]
        refine hpen _ _ (hgoal _ _ ?_)
        dsimp only
        split
        · -- home win
          refine TInv_adjust (by intro s hs; exact hs) (TInv_adjust ?_
            (TInv_adjust (by intro s hs; exact hs) (TInv_adjust (by intro s hs; exact hs)
              (TInv_adjust (by intro s hs; exact hs) (TInv_adjust (by intro s hs; exact hs)
                (TInv_adjust (by intro s hs; exact hs) (TInv_adjust (by intro s hs; exact hs)
                  (TInv_init (TInv_init h _ _) _ _) _) _) _) _) _) _) _) _
          intro s hs
          unfold teamInv at hs
          show s.points + 2 = 2 * (s.wins + 1) + s.ties
          omega
        split
        · -- away win
          refine TInv_adjust (by intro s hs; exact hs) (TInv_adjust ?_
            (TInv_adjust (by intro s hs; exact hs) (TInv_adjust (by intro s hs; exact hs)
              (TInv_adjust (by intro s hs; exact hs) (TInv_adjust (by intro s hs; exact hs)
                (TInv_adjust (by intro s hs; exact hs) (TInv_adjust (by intro s hs; exact hs)
                  (TInv_init (TInv_init h _ _) _ _) _) _) _) _) _) _) _) _
          intro s hs
          unfold teamInv at hs
          show s.points + 2 = 2 * (s.wins + 1) + s.ties
          omega
        · -- tie
          refine TInv_adjust ?_ (TInv_adjust ?_
            (TInv_adjust (by intro s hs; exact hs) (TInv_adjust (by intro s hs; exact hs)
              (TInv_adjust (by intro s hs; exact hs) (TInv_adjust (by intro s hs; exact hs)
                (TInv_adjust (by intro s hs; exact hs) (TInv_adjust (by intro s hs; exact hs)
                  (TInv_init (TInv_init h _ _) _ _) _) _) _) _) _) _) _) _
          · intro s hs
            unfold teamInv at hs
            show s.points + 1 = 2 * s.wins + (s.ties + 1)
            omega
          · intro s hs
            unfold teamInv at hs
            show s.points + 1 = 2 * s.wins + (s.ties + 1)
            omega

theorem foldl_processGame_TInv (sg : SGMap) (posIdx : PosIdx) :
    ∀ (games : List Game) (st : CState), TInv st.teams →
      TInv ((games.foldl (processGame sg posIdx) st)).teams := by
  intro games
  induction games with
  | nil => intro st h; exact h
  | cons g rest ih =>
    intro st h
    rw [List.foldl_cons]
    exact ih _ (processGame_TInv h)

/-- Claim C4: in the standings produced by `process_games`, every
team row satisfies `points = 2 * wins + ties` and
`goal_differential = goals_for - goals_against`. -/
theorem C4_team_invariants (games : List Game) (tid : Nat) (s : TeamStats)
    (hs : (process_games games).teams tid = some s) :
    s.points = 2 * s.wins + s.ties ∧
    s.goal_differential = (s.goals_for : Int) - (s.goals_against : Int) := by
  unfold process_games at hs
  dsimp only at hs
  rw [Option.map_eq_some'] at hs
  obtain ⟨s0, hs0, hmap⟩ := hs
  subst hmap
  have hinv := foldl_processGame_TInv (load_starting_goalies games)
    (build_player_positions_index games) games
    ⟨fun _ => none, fun _ => none, fun _ => []⟩
    (fun t s hs => by cases hs) tid s0 hs0
  exact ⟨hinv, rfl⟩

/-- A one-game batch for checking the C4 invariants concretely. -/
def gameC4w : Game :=
  { id := 77, home_score := 3, away_score := 1,
    boxscore := some { teams := [⟨10, "HOME"⟩, ⟨20, "AWAY"⟩], goals := [], penalties := [], roster := [] },
    home_team_roster := [], away_team_roster := [],
    starting_goalies := none }

/-- The home-team row `process_games` produces for `gameC4w`. -/
def tC4 : TeamStats :=
  { id := 10, name := "HOME", games_played := 1, wins := 1, losses := 0, ties := 0,
    points := 2, goals_for := 3, goals_against := 1, goal_differential := 2,
    penalty_minutes := 0, powerplay_goals_for := 0, powerplay_goals_against := 0,
    powerplay_opportunities := 0, shorthanded_goals_for := 0,
    shorthanded_goals_against := 0, home_wins := 1, home_losses := 0, home_ties := 0,
    away_wins := 0, away_losses := 0, away_ties := 0 }

/-! #### Claim C1: order (in)dependence of `process_games` -/

/-- First game of the C1 counterexample: player 5 skates for team 10. -/
def gC1a : Game :=
  { id := 101, home_score := 1, away_score := 0,
    boxscore := some { teams := [⟨10, "TENS"⟩, ⟨20, "TWENTIES"⟩], goals := [], penalties := [], roster := [] },
    home_team_roster := [⟨some 5, ⟨some 5, some "P ONE"⟩, ["F"], some 9⟩],
    away_team_roster := [], starting_goalies := none }

/-- Second game of the C1 counterexample: the same player 5 skates for
team 30 (a trade between the two games). -/
def gC1b : Game :=
  { id := 102, home_score := 0, away_score := 2,
    boxscore := some { teams := [⟨30, "THIRTIES"⟩, ⟨40, "FORTIES"⟩], goals := [], penalties := [], roster := [] },
    home_team_roster := [⟨some 5, ⟨some 5, some "P ONE"⟩, ["F"], some 9⟩],
    away_team_roster := [], starting_goalies := none }

/-- C1 counterexample: swapping two FINAL games with boxscores changes
player 5's team assignment in the output (team creation and player
creation are first-write-wins, so the earlier game wins). -/
theorem C1_counterexample :
    ((process_games [gC1a, gC1b]).players 5).map PlayerStats.team_id = some 10 ∧
    ((process_games [gC1b, gC1a]).players 5).map PlayerStats.team_id = some 30 := by
  decide

/-- Membership in an ascending insertion. -/
theorem mem_insertAscN (a x : Nat) (l : List Nat) :
    a ∈ insertAscN x l ↔ a = x ∨ a ∈ l := by
  induction l with
  | nil => simp [insertAscN]
  | cons y l ih =>
    unfold insertAscN
    by_cases hxy : x ≤ y
    · rw [if_pos hxy]
      simp
    · rw [if_neg hxy]
      simp [ih]
      tauto

/-- Ascending insertions of two elements commute. -/
theorem insertAscN_comm (a b : Nat) (l : List Nat) :
    insertAscN a (insertAscN b l) = insertAscN b (insertAscN a l) := by
  induction l with
  | nil =>
    by_cases hab : a ≤ b
    · by_cases hba : b ≤ a
      · have heq : a = b := Nat.le_antisymm hab hba
        subst heq
        rfl
      · simp [insertAscN, hab, hba]
    · have hba : b ≤ a := by omega
      simp [insertAscN, hab, hba]
  | cons y l ih =>
    by_cases hay : a ≤ y <;> by_cases hby : b ≤ y
    · by_cases hab : a ≤ b
      · by_cases hba : b ≤ a
        · have heq : a = b := Nat.le_antisymm hab hba
          subst heq
          rfl
        · simp [insertAscN, hay, hby, hab, hba]
      · have hba : b ≤ a := by omega
        simp [insertAscN, hay, hby, hab, hba]
    · have hba : ¬ b ≤ a := by omega
      have hab : a ≤ b := by omega
      simp [insertAscN, hay, hby, hab, hba]
    · have hab : ¬ a ≤ b := by omega
      have hba : b ≤ a := by omega
      simp [insertAscN, hay, hby, hab, hba]
    · simp [insertAscN, hay, hby, ih]

/-- Adding the same id twice to a set is the same as adding it once. -/
theorem setAdd_idem (g : Nat) (l : List Nat) :
    setAdd g (setAdd g l) = setAdd g l := by
  unfold setAdd
  by_cases hm : g ∈ l
  · rw [if_pos hm, if_pos hm]
  · rw [if_neg hm, if_pos ((mem_insertAscN g g l).mpr (Or.inl rfl))]

/-- Set insertions commute. -/
theorem setAdd_comm (g1 g2 : Nat) (l : List Nat) :
    setAdd g1 (setAdd g2 l) = setAdd g2 (setAdd g1 l) := by
  by_cases h12 : g1 = g2
  · subst h12
    rfl
  · unfold setAdd
    by_cases h1 : g1 ∈ l <;> by_cases h2 : g2 ∈ l <;>
      simp [h1, h2, mem_insertAscN, h12, Ne.symm h12, insertAscN_comm]

/-- Normal form of a single game's effect on one of the compiler's
keyed tables: every key in `ks` is created from `mk` if absent and then
adjusted by `D`; every other key is untouched. -/
def MShape {α : Type} (mk : Nat → α) (F : (Nat → Option α) → Nat → Option α)
    (ks : List Nat) (D : Nat → α → α) : Prop :=
  ∀ m q, F m q = if q ∈ ks then some (D q ((m q).getD (mk q))) else m q

theorem MShape_id {α : Type} (mk : Nat → α) :
    MShape mk (fun m => m) [] (fun _ => id) := by
  intro m q
  simp

/-- Two effects in normal form commute whenever their per-key
adjustments commute. -/
theorem MShape_comm {α : Type} (mk : Nat → α)
    {F G : (Nat → Option α) → Nat → Option α} {ks1 ks2 : List Nat}
    {D1 D2 : Nat → α → α}
    (h1 : MShape mk F ks1 D1) (h2 : MShape mk G ks2 D2)
    (hc : ∀ q x, D1 q (D2 q x) = D2 q (D1 q x)) (m : Nat → Option α) :
    F (G m) = G (F m) := by
  funext q
  rw [h1, h2, h2, h1]
  by_cases hq1 : q ∈ ks1 <;> by_cases hq2 : q ∈ ks2 <;>
    simp [hq1, hq2, hc]

/-- The create-if-absent pattern shared by `initialize_team_stats` and
`initialize_player_stats`. -/
def genInit {α : Type} (m : Nat → Option α) (k : Nat) (v : α) : Nat → Option α :=
  match m k with
  | some _ => m
  | none => fun q => if q = k then some v else m q

/-- The adjust-if-present pattern shared by `adjustTeam` and
`adjustPlayer`. -/
def genAdj {α : Type} (m : Nat → Option α) (k : Nat) (f : α → α) : Nat → Option α :=
  fun q => if q = k then (m k).map f else m q

theorem initialize_team_stats_eq_genInit (m : TMap) (tid : Nat) (n : String) :
    initialize_team_stats m tid n = genInit m tid (mkTeamStats tid n) := by
  unfold initialize_team_stats genInit
  rcases m tid with _ | s <;> rfl

theorem initialize_player_stats_eq_genInit (m : PMap) (pid : Nat)
    (nm : Option String) (t : Nat) (p : String) :
    initialize_player_stats m pid nm t p = genInit m pid (mkPlayerStats pid nm t p) := by
  unfold initialize_player_stats genInit
  rcases m pid with _ | s <;> rfl

theorem adjustTeam_eq_genAdj (m : TMap) (tid : Nat) (f : TeamStats → TeamStats) :
    adjustTeam m tid f = genAdj m tid f := rfl

theorem adjustPlayer_eq_genAdj (m : PMap) (pid : Nat) (f : PlayerStats → PlayerStats) :
    adjustPlayer m pid f = genAdj m pid f := rfl

/-- Creating key `k` from the canonical `mk` preserves the normal form. -/
theorem MShape_init {α : Type} (mk : Nat → α)
    {F : (Nat → Option α) → Nat → Option α} {ks : List Nat} {D : Nat → α → α}
    (h : MShape mk F ks D) (k : Nat) :
    MShape mk (fun m => genInit (F m) k (mk k)) (k :: ks)
      (fun q => if q ∈ ks then D q else id) := by
  intro m q
  unfold genInit
  dsimp only
  by_cases hkks : k ∈ ks
  · rw [h]
    rw [if_pos hkks]
    dsimp only
    rw [h]
    by_cases hqks : q ∈ ks
    · simp [hqks]
    · have hqk : q ≠ k := fun e => hqks (e ▸ hkks)
      simp [hqks, hqk]
  · rw [h, if_neg hkks]
    rcases hmk : m k with _ | s
    · dsimp only
      by_cases hqk : q = k
      · subst hqk
        simp [hkks, hmk]
      · rw [if_neg hqk, h]
        by_cases hqks : q ∈ ks <;> simp [hqks, hqk]
    · dsimp only
      rw [h]
      by_cases hqks : q ∈ ks
      · simp [hqks]
      · by_cases hqk : q = k
        · subst hqk
          simp [hqks, hmk]
        · simp [hqks, hqk]

/-- Adjusting a key already in `ks` preserves the normal form. -/
theorem MShape_adjust {α : Type} (mk : Nat → α)
    {F : (Nat → Option α) → Nat → Option α} {ks : List Nat} {D : Nat → α → α}
    (h : MShape mk F ks D) {k : Nat} (hk : k ∈ ks) (f : α → α) :
    MShape mk (fun m => genAdj (F m) k f) ks
      (fun q => if q = k then fun x => f (D q x) else D q) := by
  intro m q
  unfold genAdj
  dsimp only
  by_cases hqk : q = k
  · subst hqk
    rw [if_pos rfl, h, if_pos hk, if_pos hk]
    simp
  · rw [if_neg hqk, h]
    simp [hqk]

/-- Normal form of a single game's effect on the `player_games` sets:
the game's id is added to every key in `ks`. -/
def PGShape (F : PGames → PGames) (ks : List Nat) (gid : Nat) : Prop :=
  ∀ pg q, F pg q = if q ∈ ks then setAdd gid (pg q) else pg q

theorem PGShape_id (gid : Nat) : PGShape (fun pg => pg) [] gid := by
  intro pg q
  simp

theorem PGShape_pgAdd {F : PGames → PGames} {ks : List Nat} {gid : Nat}
    (h : PGShape F ks gid) (pid : Nat) :
    PGShape (fun pg => pgAdd (F pg) pid gid) (pid :: ks) gid := by
  intro pg q
  unfold pgAdd
  dsimp only
  by_cases hq : q = pid
  · subst hq
    rw [if_pos rfl, h]
    by_cases hm : q ∈ ks
    · simp [hm, setAdd_idem]
    · simp [hm]
  · rw [if_neg hq, h]
    simp [hq]

theorem PGShape_comm {F G : PGames → PGames} {ks1 ks2 : List Nat} {gid1 gid2 : Nat}
    (h1 : PGShape F ks1 gid1) (h2 : PGShape G ks2 gid2) (pg : PGames) :
    F (G pg) = G (F pg) := by
  funext q
  rw [h1, h2, h2, h1]
  by_cases hq1 : q ∈ ks1 <;> by_cases hq2 : q ∈ ks2 <;>
    simp [hq1, hq2, setAdd_comm]

/-- The additive team-counter increments a game can apply to a team
row (all of `process_games`' team updates after creation are `+=` of
nonnegative amounts on these counters). -/
structure TDelta where
  games_played : Nat
  wins : Nat
  losses : Nat
  ties : Nat
  points : Nat
  goals_for : Nat
  goals_against : Nat
  penalty_minutes : Nat
  powerplay_goals_for : Nat
  powerplay_goals_against : Nat
  powerplay_opportunities : Nat
  shorthanded_goals_for : Nat
  shorthanded_goals_against : Nat
  home_wins : Nat
  home_losses : Nat
  home_ties : Nat
  away_wins : Nat
  away_losses : Nat
  away_ties : Nat

def applyTDelta (d : TDelta) (s : TeamStats) : TeamStats :=
  { s with
    games_played := s.games_played + d.games_played,
    wins := s.wins + d.wins,
    losses := s.losses + d.losses,
    ties := s.ties + d.ties,
    points := s.points + d.points,
    goals_for := s.goals_for + d.goals_for,
    goals_against := s.goals_against + d.goals_against,
    penalty_minutes := s.penalty_minutes + d.penalty_minutes,
    powerplay_goals_for := s.powerplay_goals_for + d.powerplay_goals_for,
    powerplay_goals_against := s.powerplay_goals_against + d.powerplay_goals_against,
    powerplay_opportunities := s.powerplay_opportunities + d.powerplay_opportunities,
    shorthanded_goals_for := s.shorthanded_goals_for + d.shorthanded_goals_for,
    shorthanded_goals_against := s.shorthanded_goals_against + d.shorthanded_goals_against,
    home_wins := s.home_wins + d.home_wins,
    home_losses := s.home_losses + d.home_losses,
    home_ties := s.home_ties + d.home_ties,
    away_wins := s.away_wins + d.away_wins,
    away_losses := s.away_losses + d.away_losses,
    away_ties := s.away_ties + d.away_ties }

/-- The class of purely additive team-row updates. -/
def TAddClass (f : TeamStats → TeamStats) : Prop := ∃ d, f = applyTDelta d

theorem TAddClass_id : TAddClass id :=
  ⟨⟨0, 0, 0, 0, 0, 0, 0, 0, 0, 0, 0, 0, 0, 0, 0, 0, 0, 0, 0⟩, by
    funext s
    rfl⟩

theorem TAddClass_comp {f g : TeamStats → TeamStats}
    (hf : TAddClass f) (hg : TAddClass g) : TAddClass (fun s => f (g s)) := by
  obtain ⟨d1, rfl⟩ := hf
  obtain ⟨d2, rfl⟩ := hg
  refine ⟨⟨d1.games_played + d2.games_played, d1.wins + d2.wins,
    d1.losses + d2.losses, d1.ties + d2.ties, d1.points + d2.points,
    d1.goals_for + d2.goals_for, d1.goals_against + d2.goals_against,
    d1.penalty_minutes + d2.penalty_minutes,
    d1.powerplay_goals_for + d2.powerplay_goals_for,
    d1.powerplay_goals_against + d2.powerplay_goals_against,
    d1.powerplay_opportunities + d2.powerplay_opportunities,
    d1.shorthanded_goals_for + d2.shorthanded_goals_for,
    d1.shorthanded_goals_against + d2.shorthanded_goals_against,
    d1.home_wins + d2.home_wins, d1.home_losses + d2.home_losses,
    d1.home_ties + d2.home_ties, d1.away_wins + d2.away_wins,
    d1.away_losses + d2.away_losses, d1.away_ties + d2.away_ties⟩, ?_⟩
  funext s
  unfold applyTDelta
  congr 1 <;> dsimp only <;> omega

theorem TAddClass_comm {f g : TeamStats → TeamStats}
    (hf : TAddClass f) (hg : TAddClass g) (s : TeamStats) : f (g s) = g (f s) := by
  obtain ⟨d1, rfl⟩ := hf
  obtain ⟨d2, rfl⟩ := hg
  unfold applyTDelta
  congr 1 <;> dsimp only <;> omega

/-- The additive player-counter increments a game can apply to a
player row. -/
structure PDelta where
  goals : Nat
  assists : Nat
  points : Nat
  penalty_minutes : Nat
  powerplay_goals : Nat
  powerplay_assists : Nat
  shorthanded_goals : Nat
  shorthanded_assists : Nat
  wins : Nat
  losses : Nat
  ties : Nat
  goals_against : Nat

def applyPDelta (d : PDelta) (p : PlayerStats) : PlayerStats :=
  { p with
    goals := p.goals + d.goals,
    assists := p.assists + d.assists,
    points := p.points + d.points,
    penalty_minutes := p.penalty_minutes + d.penalty_minutes,
    powerplay_goals := p.powerplay_goals + d.powerplay_goals,
    powerplay_assists := p.powerplay_assists + d.powerplay_assists,
    shorthanded_goals := p.shorthanded_goals + d.shorthanded_goals,
    shorthanded_assists := p.shorthanded_assists + d.shorthanded_assists,
    wins := p.wins + d.wins,
    losses := p.losses + d.losses,
    ties := p.ties + d.ties,
    goals_against := p.goals_against + d.goals_against }

/-- The class of purely additive player-row updates. -/
def PAddClass (f : PlayerStats → PlayerStats) : Prop := ∃ d, f = applyPDelta d

theorem PAddClass_id : PAddClass id :=
  ⟨⟨0, 0, 0, 0, 0, 0, 0, 0, 0, 0, 0, 0⟩, by
    funext p
    rfl⟩

theorem PAddClass_comp {f g : PlayerStats → PlayerStats}
    (hf : PAddClass f) (hg : PAddClass g) : PAddClass (fun p => f (g p)) := by
  obtain ⟨d1, rfl⟩ := hf
  obtain ⟨d2, rfl⟩ := hg
  refine ⟨⟨d1.goals + d2.goals, d1.assists + d2.assists, d1.points + d2.points,
    d1.penalty_minutes + d2.penalty_minutes,
    d1.powerplay_goals + d2.powerplay_goals,
    d1.powerplay_assists + d2.powerplay_assists,
    d1.shorthanded_goals + d2.shorthanded_goals,
    d1.shorthanded_assists + d2.shorthanded_assists,
    d1.wins + d2.wins, d1.losses + d2.losses, d1.ties + d2.ties,
    d1.goals_against + d2.goals_against⟩, ?_⟩
  funext p
  unfold applyPDelta
  congr 1 <;> dsimp only <;> omega

theorem PAddClass_comm {f g : PlayerStats → PlayerStats}
    (hf : PAddClass f) (hg : PAddClass g) (p : PlayerStats) : f (g p) = g (f p) := by
  obtain ⟨d1, rfl⟩ := hf
  obtain ⟨d2, rfl⟩ := hg
  unfold applyPDelta
  congr 1 <;> dsimp only <;> omega

/-- The team-table effect of one goal (`goalStep` projected to the
`teams` component). -/
def gsTeams (home_team_id away_team_id : Nat) (goal : Goal) (m : TMap) : TMap :=
  match goal.participant.participantId, goal.teamId with
  | some sid, some tid =>
    if sid = 0 ∨ tid = 0 then m
    else
      let teams := if goal.isPowerplay then
          adjustTeam
            (adjustTeam m tid (fun s =>
              { s with powerplay_goals_for := s.powerplay_goals_for + 1 }))
            (if tid = home_team_id then away_team_id else home_team_id)
            (fun s =>
              { s with powerplay_goals_against := s.powerplay_goals_against + 1 })
        else m
      if goal.isShorthanded then
        adjustTeam
          (adjustTeam teams tid (fun s =>
            { s with shorthanded_goals_for := s.shorthanded_goals_for + 1 }))
          (if tid = home_team_id then away_team_id else home_team_id)
          (fun s =>
            { s with shorthanded_goals_against := s.shorthanded_goals_against + 1 })
      else teams
  | _, _ => m

/-- The team-table effect of one penalty. -/
def psTeams (penalty : Penalty) (m : TMap) : TMap :=
  match penalty.participant.participantId, penalty.teamId with
  | some pid, some tid =>
    if pid = 0 ∨ tid = 0 then m
    else
      adjustTeam m tid (fun s =>
        { s with penalty_minutes := s.penalty_minutes + penaltyMinutesOf penalty })
  | _, _ => m

/-- The outcome-independent part of the per-game header updates
(creation, games played, powerplay opportunities, score totals). -/
def baseTeamsCore (game : Game) (home_team away_team : TeamInfo) (m : TMap) : TMap :=
  let home_team_id := home_team.id
  let away_team_id := away_team.id
  let teams := initialize_team_stats m home_team_id home_team.name
  let teams := initialize_team_stats teams away_team_id away_team.name
  let teams := adjustTeam teams home_team_id
    (fun s => { s with games_played := s.games_played + 1 })
  let teams := adjustTeam teams away_team_id
    (fun s => { s with games_played := s.games_played + 1 })
  let pp_opps := calculate_powerplay_opportunities game home_team_id away_team_id
  let teams := adjustTeam teams home_team_id (fun s =>
    { s with powerplay_opportunities :=
        s.powerplay_opportunities + pp_opps home_team_id })
  let teams := adjustTeam teams away_team_id (fun s =>
    { s with powerplay_opportunities :=
        s.powerplay_opportunities + pp_opps away_team_id })
  let teams := adjustTeam teams home_team_id (fun s =>
    { s with goals_for := s.goals_for + game.home_score,
             goals_against := s.goals_against + game.away_score })
  adjustTeam teams away_team_id (fun s =>
    { s with goals_for := s.goals_for + game.away_score,
             goals_against := s.goals_against + game.home_score })

/-- The team-table effect of the per-game header updates (creation,
games played, powerplay opportunities, score totals, outcome). -/
def baseTeams (game : Game) (home_team away_team : TeamInfo) (m : TMap) : TMap :=
  let home_team_id := home_team.id
  let away_team_id := away_team.id
  let teams := baseTeamsCore game home_team away_team m
  if game.home_score > game.away_score then
    adjustTeam
      (adjustTeam teams home_team_id (fun s =>
        { s with wins := s.wins + 1, home_wins := s.home_wins + 1,
                 points := s.points + 2 }))
      away_team_id (fun s =>
        { s with losses := s.losses + 1, away_losses := s.away_losses + 1 })
  else if game.away_score > game.home_score then
    adjustTeam
      (adjustTeam teams away_team_id (fun s =>
        { s with wins := s.wins + 1, away_wins := s.away_wins + 1,
                 points := s.points + 2 }))
      home_team_id (fun s =>
        { s with losses := s.losses + 1, home_losses := s.home_losses + 1 })
  else
    adjustTeam
      (adjustTeam teams home_team_id (fun s =>
        { s with ties := s.ties + 1, home_ties := s.home_ties + 1,
                 points := s.points + 1 }))
      away_team_id (fun s =>
        { s with ties := s.ties + 1, away_ties := s.away_ties + 1,
                 points := s.points + 1 })

/-- The whole team-table effect of one game. -/
def teamsOfGame (game : Game) (m : TMap) : TMap :=
  match game.boxscore with
  | none => m
  | some boxscore =>
    match boxscore.teams with
    | home_team :: away_team :: _ =>
      boxscore.penalties.foldl (fun m' p => psTeams p m')
        (boxscore.goals.foldl (fun m' g => gsTeams home_team.id away_team.id g m')
          (baseTeams game home_team away_team m))
    | _ => m

theorem goalStep_teams_proj (posIdx : PosIdx) (b : Boxscore) (hid aid gid : Nat)
    (st : CState) (goal : Goal) :
    (goalStep posIdx b hid aid gid st goal).teams = gsTeams hid aid goal st.teams := by
  unfold goalStep gsTeams
  cases goal.participant.participantId with
  | none => rfl
  | some sid =>
    cases goal.teamId with
    | none => rfl
    | some tid =>
      dsimp only
      by_cases h0 : sid = 0 ∨ tid = 0
      · rw [if_pos h0, if_pos h0]
      · rw [if_neg h0, if_neg h0]
        simp only [foldl_assistStep_teams_eq]

theorem penaltyStep_teams_proj (posIdx : PosIdx) (b : Boxscore) (gid : Nat)
    (st : CState) (penalty : Penalty) :
    (penaltyStep posIdx b gid st penalty).teams = psTeams penalty st.teams := by
  unfold penaltyStep psTeams
  cases penalty.participant.participantId with
  | none => rfl
  | some pid =>
    cases penalty.teamId with
    | none => rfl
    | some tid =>
      dsimp only
      by_cases h0 : pid = 0 ∨ tid = 0
      · rw [if_pos h0, if_pos h0]
      · rw [if_neg h0, if_neg h0]

theorem foldl_goalStep_teams_proj (posIdx : PosIdx) (b : Boxscore)
    (hid aid gid : Nat) (l : List Goal) (st : CState) :
    ((l.foldl (goalStep posIdx b hid aid gid) st)).teams =
      l.foldl (fun m g => gsTeams hid aid g m) st.teams := by
  induction l generalizing st with
  | nil => rfl
  | cons g rest ih =>
    rw [List.foldl_cons, List.foldl_cons, ih, goalStep_teams_proj]

theorem foldl_penaltyStep_teams_proj (posIdx : PosIdx) (b : Boxscore)
    (gid : Nat) (l : List Penalty) (st : CState) :
    ((l.foldl (penaltyStep posIdx b gid) st)).teams =
      l.foldl (fun m p => psTeams p m) st.teams := by
  induction l generalizing st with
  | nil => rfl
  | cons p rest ih =>
    rw [List.foldl_cons, List.foldl_cons, ih, penaltyStep_teams_proj]

theorem processGame_teams_proj (sg : SGMap) (posIdx : PosIdx) (st : CState)
    (game : Game) :
    (processGame sg posIdx st game).teams = teamsOfGame game st.teams := by
  unfold processGame teamsOfGame
  cases game.boxscore with
  | none => rfl
  | some boxscore =>
    dsimp only
    cases boxscore.teams with
    | nil => rfl
    | cons home_team rest =>
      cases rest with
      | nil => rfl
      | cons away_team rest2 =>
        dsimp only
        rw [foldl_rosterStep_teams_eq, foldl_rosterStep_teams_eq,
          foldl_penaltyStep_teams_proj, foldl_goalStep_teams_proj]
        rfl

/-- The player-table effect of one assist. -/
def asPlayers (posIdx : PosIdx) (b : Boxscore) (tid : Nat) (pp sh : Bool)
    (m : PMap) (a : Assist) : PMap :=
  match a.participantId with
  | some aid =>
    if aid = 0 then m
    else
      let position := get_player_position posIdx b aid
      let position := if position = "C" then "F" else position
      let players := initialize_player_stats m aid a.fullName tid position
      let players := adjustPlayer players aid
        (fun p => { p with assists := p.assists + 1, points := p.points + 1 })
      let players := if pp then
          adjustPlayer players aid
            (fun p => { p with powerplay_assists := p.powerplay_assists + 1 })
        else players
      if sh then
        adjustPlayer players aid
          (fun p => { p with shorthanded_assists := p.shorthanded_assists + 1 })
      else players
  | none => m

/-- The player-table effect of one goal (scorer plus assists). -/
def gsPlayers (posIdx : PosIdx) (b : Boxscore) (goal : Goal) (m : PMap) : PMap :=
  match goal.participant.participantId, goal.teamId with
  | some sid, some tid =>
    if sid = 0 ∨ tid = 0 then m
    else
      let position := get_player_position posIdx b sid
      let position := if position = "C" then "F" else position
      let players := initialize_player_stats m sid goal.participant.fullName tid position
      let players := adjustPlayer players sid
        (fun p => { p with goals := p.goals + 1, points := p.points + 1 })
      let players := if goal.isPowerplay then
          adjustPlayer players sid
            (fun p => { p with powerplay_goals := p.powerplay_goals + 1 })
        else players
      let players := if goal.isShorthanded then
          adjustPlayer players sid
            (fun p => { p with shorthanded_goals := p.shorthanded_goals + 1 })
        else players
      goal.assists.foldl (asPlayers posIdx b tid goal.isPowerplay goal.isShorthanded) players
  | _, _ => m

/-- The player-table effect of one penalty. -/
def psPlayers (posIdx : PosIdx) (b : Boxscore) (penalty : Penalty) (m : PMap) : PMap :=
  match penalty.participant.participantId, penalty.teamId with
  | some pid, some tid =>
    if pid = 0 ∨ tid = 0 then m
    else
      let pm := penaltyMinutesOf penalty
      let position := get_player_position posIdx b pid
      let position := if position = "C" then "F" else position
      let players := initialize_player_stats m pid penalty.participant.fullName tid position
      adjustPlayer players pid
        (fun p => { p with penalty_minutes := p.penalty_minutes + pm })
  | _, _ => m

/-- The player-table effect of one roster entry. -/
def rsPlayers (sg : SGMap) (posIdx : PosIdx) (game : Game) (b : Boxscore)
    (team_id my_score opp_score gid : Nat) (m : PMap) (entry : RosterEntry) : PMap :=
  match entry.participantId, entry.participant.fullName with
  | some pid, some nm =>
    if pid = 0 ∨ nm = "" then m
    else
      let position := get_player_position posIdx b pid
      if position ∉ (["F", "D", "G", "C"] : List String) then m
      else
        let position := if position = "C" then "F" else position
        let players := initialize_player_stats m pid (some nm) team_id position
        if position = "G" ∧
            is_starting_goalie sg gid (some nm) (some team_id) (some game) then
          adjustPlayer players pid (fun p =>
            if my_score > opp_score then
              { p with wins := p.wins + 1, goals_against := p.goals_against + opp_score }
            else if my_score < opp_score then
              { p with losses := p.losses + 1, goals_against := p.goals_against + opp_score }
            else
              { p with ties := p.ties + 1, goals_against := p.goals_against + opp_score })
        else players
  | _, _ => m

/-- The whole player-table effect of one game. -/
def playersOfGame (sg : SGMap) (posIdx : PosIdx) (game : Game) (m : PMap) : PMap :=
  match game.boxscore with
  | none => m
  | some boxscore =>
    match boxscore.teams with
    | home_team :: away_team :: _ =>
      game.away_team_roster.foldl
        (rsPlayers sg posIdx game boxscore away_team.id game.away_score game.home_score game.id)
        (game.home_team_roster.foldl
          (rsPlayers sg posIdx game boxscore home_team.id game.home_score game.away_score game.id)
          (boxscore.penalties.foldl (fun m' p => psPlayers posIdx boxscore p m')
            (boxscore.goals.foldl (fun m' g => gsPlayers posIdx boxscore g m') m)))
    | _ => m

theorem assistStep_players_proj (posIdx : PosIdx) (b : Boxscore) (tid gid : Nat)
    (pp sh : Bool) (st : CState) (a : Assist) :
    (assistStep posIdx b tid gid pp sh st a).players =
      asPlayers posIdx b tid pp sh st.players a := by
  unfold assistStep asPlayers
  cases a.participantId with
  | none => rfl
  | some aid =>
    dsimp only
    by_cases h0 : aid = 0
    · rw [if_pos h0, if_pos h0]
    · rw [if_neg h0, if_neg h0]

theorem foldl_assistStep_players_proj (posIdx : PosIdx) (b : Boxscore)
    (tid gid : Nat) (pp sh : Bool) (l : List Assist) (st : CState) :
    ((l.foldl (assistStep posIdx b tid gid pp sh) st)).players =
      l.foldl (asPlayers posIdx b tid pp sh) st.players := by
  induction l generalizing st with
  | nil => rfl
  | cons a rest ih =>
    rw [List.foldl_cons, List.foldl_cons, ih, assistStep_players_proj]

theorem goalStep_players_proj (posIdx : PosIdx) (b : Boxscore) (hid aid gid : Nat)
    (st : CState) (goal : Goal) :
    (goalStep posIdx b hid aid gid st goal).players =
      gsPlayers posIdx b goal st.players := by
  unfold goalStep gsPlayers
  cases goal.participant.participantId with
  | none => rfl
  | some sid =>
    cases goal.teamId with
    | none => rfl
    | some tid =>
      dsimp only
      by_cases h0 : sid = 0 ∨ tid = 0
      · rw [if_pos h0, if_pos h0]
      · rw [if_neg h0, if_neg h0]
        rw [foldl_assistStep_players_proj]

theorem penaltyStep_players_proj (posIdx : PosIdx) (b : Boxscore) (gid : Nat)
    (st : CState) (penalty : Penalty) :
    (penaltyStep posIdx b gid st penalty).players =
      psPlayers posIdx b penalty st.players := by
  unfold penaltyStep psPlayers
  cases penalty.participant.participantId with
  | none => rfl
  | some pid =>
    cases penalty.teamId with
    | none => rfl
    | some tid =>
      dsimp only
      by_cases h0 : pid = 0 ∨ tid = 0
      · rw [if_pos h0, if_pos h0]
      · rw [if_neg h0, if_neg h0]

theorem rosterStep_players_proj (sg : SGMap) (posIdx : PosIdx) (game : Game)
    (b : Boxscore) (team_id ms os gid : Nat) (st : CState) (entry : RosterEntry) :
    (rosterStep sg posIdx game b team_id ms os gid st entry).players =
      rsPlayers sg posIdx game b team_id ms os gid st.players entry := by
  unfold rosterStep rsPlayers
  cases entry.participantId with
  | none => rfl
  | some pid =>
    cases entry.participant.fullName with
    | none => rfl
    | some nm =>
      dsimp only
      by_cases h0 : pid = 0 ∨ nm = ""
      · rw [if_pos h0, if_pos h0]
      · rw [if_neg h0, if_neg h0]
        by_cases hpos : get_player_position posIdx b pid ∉ (["F", "D", "G", "C"] : List String)
        · rw [if_pos hpos, if_pos hpos]
        · rw [if_neg hpos, if_neg hpos]

theorem foldl_goalStep_players_proj (posIdx : PosIdx) (b : Boxscore)
    (hid aid gid : Nat) (l : List Goal) (st : CState) :
    ((l.foldl (goalStep posIdx b hid aid gid) st)).players =
      l.foldl (fun m g => gsPlayers posIdx b g m) st.players := by
  induction l generalizing st with
  | nil => rfl
  | cons g rest ih =>
    rw [List.foldl_cons, List.foldl_cons, ih, goalStep_players_proj]

theorem foldl_penaltyStep_players_proj (posIdx : PosIdx) (b : Boxscore)
    (gid : Nat) (l : List Penalty) (st : CState) :
    ((l.foldl (penaltyStep posIdx b gid) st)).players =
      l.foldl (fun m p => psPlayers posIdx b p m) st.players := by
  induction l generalizing st with
  | nil => rfl
  | cons p rest ih =>
    rw [List.foldl_cons, List.foldl_cons, ih, penaltyStep_players_proj]

theorem foldl_rosterStep_players_proj (sg : SGMap) (posIdx : PosIdx) (game : Game)
    (b : Boxscore) (team_id ms os gid : Nat) (l : List RosterEntry) (st : CState) :
    ((l.foldl (rosterStep sg posIdx game b team_id ms os gid) st)).players =
      l.foldl (rsPlayers sg posIdx game b team_id ms os gid) st.players := by
  induction l generalizing st with
  | nil => rfl
  | cons e rest ih =>
    rw [List.foldl_cons, List.foldl_cons, ih, rosterStep_players_proj]

theorem processGame_players_proj (sg : SGMap) (posIdx : PosIdx) (st : CState)
    (game : Game) :
    (processGame sg posIdx st game).players = playersOfGame sg posIdx game st.players := by
  unfold processGame playersOfGame
  cases game.boxscore with
  | none => rfl
  | some boxscore =>
    dsimp only
    cases boxscore.teams with
    | nil => rfl
    | cons home_team rest =>
      cases rest with
      | nil => rfl
      | cons away_team rest2 =>
        dsimp only
        rw [foldl_rosterStep_players_proj, foldl_rosterStep_players_proj,
          foldl_penaltyStep_players_proj, foldl_goalStep_players_proj]

/-- The `player_games` effect of one assist. -/
def asPG (gid : Nat) (pg : PGames) (a : Assist) : PGames :=
  match a.participantId with
  | some aid => if aid = 0 then pg else pgAdd pg aid gid
  | none => pg

/-- The `player_games` effect of one goal. -/
def gsPG (gid : Nat) (goal : Goal) (pg : PGames) : PGames :=
  match goal.participant.participantId, goal.teamId with
  | some sid, some tid =>
    if sid = 0 ∨ tid = 0 then pg
    else goal.assists.foldl (asPG gid) (pgAdd pg sid gid)
  | _, _ => pg

/-- The `player_games` effect of one penalty. -/
def psPG (gid : Nat) (penalty : Penalty) (pg : PGames) : PGames :=
  match penalty.participant.participantId, penalty.teamId with
  | some pid, some tid =>
    if pid = 0 ∨ tid = 0 then pg else pgAdd pg pid gid
  | _, _ => pg

/-- The `player_games` effect of one roster entry. -/
def rsPG (posIdx : PosIdx) (b : Boxscore) (gid : Nat) (pg : PGames)
    (entry : RosterEntry) : PGames :=
  match entry.participantId, entry.participant.fullName with
  | some pid, some nm =>
    if pid = 0 ∨ nm = "" then pg
    else if get_player_position posIdx b pid ∉ (["F", "D", "G", "C"] : List String) then pg
    else pgAdd pg pid gid
  | _, _ => pg

/-- The whole `player_games` effect of one game. -/
def pgOfGame (posIdx : PosIdx) (game : Game) (pg : PGames) : PGames :=
  match game.boxscore with
  | none => pg
  | some boxscore =>
    match boxscore.teams with
    | home_team :: away_team :: _ =>
      game.away_team_roster.foldl (rsPG posIdx boxscore game.id)
        (game.home_team_roster.foldl (rsPG posIdx boxscore game.id)
          (boxscore.penalties.foldl (fun pg' p => psPG game.id p pg')
            (boxscore.goals.foldl (fun pg' g => gsPG game.id g pg') pg)))
    | _ => pg

theorem assistStep_pg_proj (posIdx : PosIdx) (b : Boxscore) (tid gid : Nat)
    (pp sh : Bool) (st : CState) (a : Assist) :
    (assistStep posIdx b tid gid pp sh st a).pgames = asPG gid st.pgames a := by
  unfold assistStep asPG
  cases a.participantId with
  | none => rfl
  | some aid =>
    dsimp only
    by_cases h0 : aid = 0
    · rw [if_pos h0, if_pos h0]
    · rw [if_neg h0, if_neg h0]

theorem foldl_assistStep_pg_proj (posIdx : PosIdx) (b : Boxscore)
    (tid gid : Nat) (pp sh : Bool) (l : List Assist) (st : CState) :
    ((l.foldl (assistStep posIdx b tid gid pp sh) st)).pgames =
      l.foldl (asPG gid) st.pgames := by
  induction l generalizing st with
  | nil => rfl
  | cons a rest ih =>
    rw [List.foldl_cons, List.foldl_cons, ih, assistStep_pg_proj]

theorem goalStep_pg_proj (posIdx : PosIdx) (b : Boxscore) (hid aid gid : Nat)
    (st : CState) (goal : Goal) :
    (goalStep posIdx b hid aid gid st goal).pgames = gsPG gid goal st.pgames := by
  unfold goalStep gsPG
  cases goal.participant.participantId with
  | none => rfl
  | some sid =>
    cases goal.teamId with
    | none => rfl
    | some tid =>
      dsimp only
      by_cases h0 : sid = 0 ∨ tid = 0
      · rw [if_pos h0, if_pos h0]
      · rw [if_neg h0, if_neg h0]
        rw [foldl_assistStep_pg_proj]

theorem penaltyStep_pg_proj (posIdx : PosIdx) (b : Boxscore) (gid : Nat)
    (st : CState) (penalty : Penalty) :
    (penaltyStep posIdx b gid st penalty).pgames = psPG gid penalty st.pgames := by
  unfold penaltyStep psPG
  cases penalty.participant.participantId with
  | none => rfl
  | some pid =>
    cases penalty.teamId with
    | none => rfl
    | some tid =>
      dsimp only
      by_cases h0 : pid = 0 ∨ tid = 0
      · rw [if_pos h0, if_pos h0]
      · rw [if_neg h0, if_neg h0]

theorem rosterStep_pg_proj (sg : SGMap) (posIdx : PosIdx) (game : Game)
    (b : Boxscore) (team_id ms os gid : Nat) (st : CState) (entry : RosterEntry) :
    (rosterStep sg posIdx game b team_id ms os gid st entry).pgames =
      rsPG posIdx b gid st.pgames entry := by
  unfold rosterStep rsPG
  cases entry.participantId with
  | none => rfl
  | some pid =>
    cases entry.participant.fullName with
    | none => rfl
    | some nm =>
      dsimp only
      by_cases h0 : pid = 0 ∨ nm = ""
      · rw [if_pos h0, if_pos h0]
      · rw [if_neg h0, if_neg h0]
        by_cases hpos : get_player_position posIdx b pid ∉ (["F", "D", "G", "C"] : List String)
        · rw [if_pos hpos, if_pos hpos]
        · rw [if_neg hpos, if_neg hpos]

theorem foldl_goalStep_pg_proj (posIdx : PosIdx) (b : Boxscore)
    (hid aid gid : Nat) (l : List Goal) (st : CState) :
    ((l.foldl (goalStep posIdx b hid aid gid) st)).pgames =
      l.foldl (fun pg g => gsPG gid g pg) st.pgames := by
  induction l generalizing st with
  | nil => rfl
  | cons g rest ih =>
    rw [List.foldl_cons, List.foldl_cons, ih, goalStep_pg_proj]

theorem foldl_penaltyStep_pg_proj (posIdx : PosIdx) (b : Boxscore)
    (gid : Nat) (l : List Penalty) (st : CState) :
    ((l.foldl (penaltyStep posIdx b gid) st)).pgames =
      l.foldl (fun pg p => psPG gid p pg) st.pgames := by
  induction l generalizing st with
  | nil => rfl
  | cons p rest ih =>
    rw [List.foldl_cons, List.foldl_cons, ih, penaltyStep_pg_proj]

theorem foldl_rosterStep_pg_proj (sg : SGMap) (posIdx : PosIdx) (game : Game)
    (b : Boxscore) (team_id ms os gid : Nat) (l : List RosterEntry) (st : CState) :
    ((l.foldl (rosterStep sg posIdx game b team_id ms os gid) st)).pgames =
      l.foldl (rsPG posIdx b gid) st.pgames := by
  induction l generalizing st with
  | nil => rfl
  | cons e rest ih =>
    rw [List.foldl_cons, List.foldl_cons, ih, rosterStep_pg_proj]

theorem processGame_pg_proj (sg : SGMap) (posIdx : PosIdx) (st : CState)
    (game : Game) :
    (processGame sg posIdx st game).pgames = pgOfGame posIdx game st.pgames := by
  unfold processGame pgOfGame
  cases game.boxscore with
  | none => rfl
  | some boxscore =>
    dsimp only
    cases boxscore.teams with
    | nil => rfl
    | cons home_team rest =>
      cases rest with
      | nil => rfl
      | cons away_team rest2 =>
        dsimp only
        rw [foldl_rosterStep_pg_proj, foldl_rosterStep_pg_proj,
          foldl_penaltyStep_pg_proj, foldl_goalStep_pg_proj]

/-- Two compiler states with equal components are equal. -/
theorem CState_ext (s1 s2 : CState) (h1 : s1.teams = s2.teams)
    (h2 : s1.players = s2.players) (h3 : s1.pgames = s2.pgames) : s1 = s2 := by
  cases s1
  cases s2
  cases h1
  cases h2
  cases h3
  rfl

/-- Bounded quantification over an optional value (decidable, unlike a
bare equality-premise form). -/
def optAll {β : Type} (o : Option β) (P : β → Prop) : Prop :=
  ∀ x ∈ o.toList, P x

instance {β : Type} (o : Option β) (P : β → Prop) [DecidablePred P] :
    Decidable (optAll o P) :=
  inferInstanceAs (Decidable (∀ x ∈ o.toList, P x))

theorem optAll_eq_some {β : Type} {o : Option β} {x : β} {P : β → Prop}
    (h : optAll o P) (he : o = some x) : P x := by
  subst he
  exact h x (by simp)

/-- The `C -> F` folding applied at every player creation site. -/
def posCF (p : String) : String := if p = "C" then "F" else p

/-- Consistency of one goal event: the scoring team is one of the
game's two teams, and scorer and assist attributes match the global
player tables. -/
def goalConsistent (posIdx : PosIdx) (b : Boxscore) (hid aid : Nat)
    (pname : Nat → Option String) (pteam : Nat → Nat) (ppos : Nat → String)
    (goal : Goal) : Prop :=
  optAll goal.teamId (fun tid => tid ≠ 0 →
    (tid = hid ∨ tid = aid) ∧
    optAll goal.participant.participantId (fun sid => sid ≠ 0 →
      goal.participant.fullName = pname sid ∧ tid = pteam sid ∧
      posCF (get_player_position posIdx b sid) = ppos sid) ∧
    (∀ a ∈ goal.assists, optAll a.participantId (fun q => q ≠ 0 →
      a.fullName = pname q ∧ tid = pteam q ∧
      posCF (get_player_position posIdx b q) = ppos q)))

instance (posIdx : PosIdx) (b : Boxscore) (hid aid : Nat)
    (pname : Nat → Option String) (pteam : Nat → Nat) (ppos : Nat → String)
    (goal : Goal) :
    Decidable (goalConsistent posIdx b hid aid pname pteam ppos goal) := by
  unfold goalConsistent
  infer_instance

/-- Consistency of one penalty event. -/
def penaltyConsistent (posIdx : PosIdx) (b : Boxscore) (hid aid : Nat)
    (pname : Nat → Option String) (pteam : Nat → Nat) (ppos : Nat → String)
    (p : Penalty) : Prop :=
  optAll p.teamId (fun tid => tid ≠ 0 →
    (tid = hid ∨ tid = aid) ∧
    optAll p.participant.participantId (fun q => q ≠ 0 →
      p.participant.fullName = pname q ∧ tid = pteam q ∧
      posCF (get_player_position posIdx b q) = ppos q))

instance (posIdx : PosIdx) (b : Boxscore) (hid aid : Nat)
    (pname : Nat → Option String) (pteam : Nat → Nat) (ppos : Nat → String)
    (p : Penalty) :
    Decidable (penaltyConsistent posIdx b hid aid pname pteam ppos p) := by
  unfold penaltyConsistent
  infer_instance

/-- Consistency of one roster entry of the side whose team id is
`team_id`. -/
def rosterEntryConsistent (posIdx : PosIdx) (b : Boxscore) (team_id : Nat)
    (pname : Nat → Option String) (pteam : Nat → Nat) (ppos : Nat → String)
    (e : RosterEntry) : Prop :=
  optAll e.participantId (fun q => q ≠ 0 →
    optAll e.participant.fullName (fun nm => nm ≠ "" →
      some nm = pname q ∧ team_id = pteam q ∧
      posCF (get_player_position posIdx b q) = ppos q))

instance (posIdx : PosIdx) (b : Boxscore) (team_id : Nat)
    (pname : Nat → Option String) (pteam : Nat → Nat) (ppos : Nat → String)
    (e : RosterEntry) :
    Decidable (rosterEntryConsistent posIdx b team_id pname pteam ppos e) := by
  unfold rosterEntryConsistent
  infer_instance

/-- Data-consistency assumptions on one game, relative to global
attribute tables `tname` (team names), `pname`/`pteam`/`ppos` (player
names, teams, creation positions): every encounter of a team or player
carries the same attributes, and every goal or penalty is attributed
to one of the game's two teams. -/
def ConsistentGame (posIdx : PosIdx) (tname : Nat → String)
    (pname : Nat → Option String) (pteam : Nat → Nat) (ppos : Nat → String)
    (game : Game) : Prop :=
  match game.boxscore with
  | none => True
  | some b =>
    match b.teams with
    | home_team :: away_team :: _ =>
      home_team.name = tname home_team.id ∧
      away_team.name = tname away_team.id ∧
      (∀ goal ∈ b.goals,
        goalConsistent posIdx b home_team.id away_team.id pname pteam ppos goal) ∧
      (∀ p ∈ b.penalties,
        penaltyConsistent posIdx b home_team.id away_team.id pname pteam ppos p) ∧
      (∀ e ∈ game.home_team_roster,
        rosterEntryConsistent posIdx b home_team.id pname pteam ppos e) ∧
      (∀ e ∈ game.away_team_roster,
        rosterEntryConsistent posIdx b away_team.id pname pteam ppos e)
    | _ => True

instance (posIdx : PosIdx) (tname : Nat → String) (pname : Nat → Option String)
    (pteam : Nat → Nat) (ppos : Nat → String) (game : Game) :
    Decidable (ConsistentGame posIdx tname pname pteam ppos game) := by
  unfold ConsistentGame
  split
  · exact inferInstance
  split
  · exact inferInstance
  · exact inferInstance

/-- Rewriting an effect by a pointwise equation preserves its normal
form. -/
theorem MShape_congr {α : Type} {mk : Nat → α}
    {G G' : (Nat → Option α) → Nat → Option α} {ks : List Nat} {D : Nat → α → α}
    (he : ∀ m, G m = G' m) (h : MShape mk G' ks D) : MShape mk G ks D := by
  intro m q
  rw [he]
  exact h m q

theorem MShape_initT (tname : Nat → String)
    {F : TMap → TMap} {ks : List Nat} {D : Nat → TeamStats → TeamStats}
    (h : MShape (fun t => mkTeamStats t (tname t)) F ks D) (k : Nat) (n : String)
    (hn : n = tname k) :
    MShape (fun t => mkTeamStats t (tname t))
      (fun m => initialize_team_stats (F m) k n) (k :: ks)
      (fun q => if q ∈ ks then D q else id) := by
  subst hn
  simp only [initialize_team_stats_eq_genInit]
  exact MShape_init _ h k

theorem MShape_adjT (tname : Nat → String)
    {F : TMap → TMap} {ks : List Nat} {D : Nat → TeamStats → TeamStats}
    (h : MShape (fun t => mkTeamStats t (tname t)) F ks D) {k : Nat} (hk : k ∈ ks)
    (f : TeamStats → TeamStats) :
    MShape (fun t => mkTeamStats t (tname t))
      (fun m => adjustTeam (F m) k f) ks
      (fun q => if q = k then fun x => f (D q x) else D q) :=
  MShape_adjust _ h hk f

theorem TAll_initT (ks : List Nat) {D : Nat → TeamStats → TeamStats}
    (hD : ∀ q, TAddClass (D q)) :
    ∀ q, TAddClass (if q ∈ ks then D q else id) := by
  intro q
  by_cases hq : q ∈ ks
  · simpa [hq] using hD q
  · simpa [hq] using TAddClass_id

theorem TAll_adjT (k : Nat) {D : Nat → TeamStats → TeamStats}
    {f : TeamStats → TeamStats} (hD : ∀ q, TAddClass (D q)) (hf : TAddClass f) :
    ∀ q, TAddClass (if q = k then (fun x => f (D q x)) else D q) := by
  intro q
  by_cases hq : q = k
  · simpa [hq] using TAddClass_comp hf (hD q)
  · simpa [hq] using hD q

/-- Composing one goal's team effect onto an effect in normal form
keeps the normal form (the scoring and conceded-against keys are the
game's two teams, already in `ks`). -/
theorem gsTeams_shape (tname : Nat → String)
    {F : TMap → TMap} {ks : List Nat} {D : Nat → TeamStats → TeamStats}
    (hF : MShape (fun t => mkTeamStats t (tname t)) F ks D)
    (hD : ∀ q, TAddClass (D q)) {hid aid : Nat} (hh : hid ∈ ks) (ha : aid ∈ ks)
    (goal : Goal)
    (hwf : optAll goal.teamId (fun tid => tid ≠ 0 → tid = hid ∨ tid = aid)) :
    ∃ D', MShape (fun t => mkTeamStats t (tname t))
      (fun m => gsTeams hid aid goal (F m)) ks D' ∧ ∀ q, TAddClass (D' q) := by
  rcases hpid : goal.participant.participantId with _ | sid
  · have e : ∀ x, gsTeams hid aid goal x = x := by
      intro x
      unfold gsTeams
      rw [hpid]
    exact ⟨D, MShape_congr (fun m => e (F m)) hF, hD⟩
  · rcases htid : goal.teamId with _ | tid
    · have e : ∀ x, gsTeams hid aid goal x = x := by
        intro x
        unfold gsTeams
        rw [hpid, htid]
      exact ⟨D, MShape_congr (fun m => e (F m)) hF, hD⟩
    · by_cases h0 : sid = 0 ∨ tid = 0
      · have e : ∀ x, gsTeams hid aid goal x = x := by
          intro x
          unfold gsTeams
          rw [hpid, htid]
          dsimp only
          rw [if_pos h0]
        exact ⟨D, MShape_congr (fun m => e (F m)) hF, hD⟩
      · have htid0 : tid ≠ 0 := fun hz => h0 (Or.inr hz)
        have hmem : tid = hid ∨ tid = aid := (optAll_eq_some hwf htid) htid0
        have htks : tid ∈ ks := by
          rcases hmem with rfl | rfl
          exacts [hh, ha]
        have hoks : (if tid = hid then aid else hid) ∈ ks := by
          by_cases hth : tid = hid
          · simpa [hth] using ha
          · simpa [hth] using hh
        have hfppgf : TAddClass (fun s : TeamStats =>
            { s with powerplay_goals_for := s.powerplay_goals_for + 1 }) :=
          ⟨⟨0, 0, 0, 0, 0, 0, 0, 0, 1, 0, 0, 0, 0, 0, 0, 0, 0, 0, 0⟩, by funext s; rfl⟩
        have hfppga : TAddClass (fun s : TeamStats =>
            { s with powerplay_goals_against := s.powerplay_goals_against + 1 }) :=
          ⟨⟨0, 0, 0, 0, 0, 0, 0, 0, 0, 1, 0, 0, 0, 0, 0, 0, 0, 0, 0⟩, by funext s; rfl⟩
        have hfshgf : TAddClass (fun s : TeamStats =>
            { s with shorthanded_goals_for := s.shorthanded_goals_for + 1 }) :=
          ⟨⟨0, 0, 0, 0, 0, 0, 0, 0, 0, 0, 0, 1, 0, 0, 0, 0, 0, 0, 0⟩, by funext s; rfl⟩
        have hfshga : TAddClass (fun s : TeamStats =>
            { s with shorthanded_goals_against := s.shorthanded_goals_against + 1 }) :=
          ⟨⟨0, 0, 0, 0, 0, 0, 0, 0, 0, 0, 0, 0, 1, 0, 0, 0, 0, 0, 0⟩, by funext s; rfl⟩
        by_cases hpp : goal.isPowerplay <;> by_cases hsh : goal.isShorthanded
        · have e : ∀ x, gsTeams hid aid goal x =
              adjustTeam (adjustTeam (adjustTeam (adjustTeam x tid
                (fun s => { s with powerplay_goals_for := s.powerplay_goals_for + 1 }))
                (if tid = hid then aid else hid)
                (fun s => { s with powerplay_goals_against := s.powerplay_goals_against + 1 }))
                tid (fun s => { s with shorthanded_goals_for := s.shorthanded_goals_for + 1 }))
                (if tid = hid then aid else hid)
                (fun s => { s with shorthanded_goals_against := s.shorthanded_goals_against + 1 }) := by
            intro x
            unfold gsTeams
            rw [hpid, htid]
            dsimp only
            rw [if_neg h0, if_pos hpp, if_pos hsh]
          refine ⟨_, MShape_congr (fun m => e (F m))
            (MShape_adjT tname (MShape_adjT tname (MShape_adjT tname
              (MShape_adjT tname hF htks _) hoks _) htks _) hoks _), ?_⟩
          exact TAll_adjT _ (TAll_adjT _ (TAll_adjT _ (TAll_adjT _ hD hfppgf) hfppga) hfshgf) hfshga
        · have e : ∀ x, gsTeams hid aid goal x =
              adjustTeam (adjustTeam x tid
                (fun s => { s with powerplay_goals_for := s.powerplay_goals_for + 1 }))
                (if tid = hid then aid else hid)
                (fun s => { s with powerplay_goals_against := s.powerplay_goals_against + 1 }) := by
            intro x
            unfold gsTeams
            rw [hpid, htid]
            dsimp only
            rw [if_neg h0, if_pos hpp, if_neg hsh]
          refine ⟨_, MShape_congr (fun m => e (F m))
            (MShape_adjT tname (MShape_adjT tname hF htks _) hoks _), ?_⟩
          exact TAll_adjT _ (TAll_adjT _ hD hfppgf) hfppga
        · have e : ∀ x, gsTeams hid aid goal x =
              adjustTeam (adjustTeam x tid
                (fun s => { s with shorthanded_goals_for := s.shorthanded_goals_for + 1 }))
                (if tid = hid then aid else hid)
                (fun s => { s with shorthanded_goals_against := s.shorthanded_goals_against + 1 }) := by
            intro x
            unfold gsTeams
            rw [hpid, htid]
            dsimp only
            rw [if_neg h0, if_neg hpp, if_pos hsh]
          refine ⟨_, MShape_congr (fun m => e (F m))
            (MShape_adjT tname (MShape_adjT tname hF htks _) hoks _), ?_⟩
          exact TAll_adjT _ (TAll_adjT _ hD hfshgf) hfshga
        · have e : ∀ x, gsTeams hid aid goal x = x := by
            intro x
            unfold gsTeams
            rw [hpid, htid]
            dsimp only
            rw [if_neg h0, if_neg hpp, if_neg hsh]
          exact ⟨D, MShape_congr (fun m => e (F m)) hF, hD⟩

/-- Composing one penalty's team effect keeps the normal form. -/
theorem psTeams_shape (tname : Nat → String)
    {F : TMap → TMap} {ks : List Nat} {D : Nat → TeamStats → TeamStats}
    (hF : MShape (fun t => mkTeamStats t (tname t)) F ks D)
    (hD : ∀ q, TAddClass (D q)) {hid aid : Nat} (hh : hid ∈ ks) (ha : aid ∈ ks)
    (p : Penalty)
    (hwf : optAll p.teamId (fun tid => tid ≠ 0 → tid = hid ∨ tid = aid)) :
    ∃ D', MShape (fun t => mkTeamStats t (tname t))
      (fun m => psTeams p (F m)) ks D' ∧ ∀ q, TAddClass (D' q) := by
  rcases hpid : p.participant.participantId with _ | pid
  · have e : ∀ x, psTeams p x = x := by
      intro x
      unfold psTeams
      rw [hpid]
    exact ⟨D, MShape_congr (fun m => e (F m)) hF, hD⟩
  · rcases htid : p.teamId with _ | tid
    · have e : ∀ x, psTeams p x = x := by
        intro x
        unfold psTeams
        rw [hpid, htid]
      exact ⟨D, MShape_congr (fun m => e (F m)) hF, hD⟩
    · by_cases h0 : pid = 0 ∨ tid = 0
      · have e : ∀ x, psTeams p x = x := by
          intro x
          unfold psTeams
          rw [hpid, htid]
          dsimp only
          rw [if_pos h0]
        exact ⟨D, MShape_congr (fun m => e (F m)) hF, hD⟩
      · have htid0 : tid ≠ 0 := fun hz => h0 (Or.inr hz)
        have hmem : tid = hid ∨ tid = aid := (optAll_eq_some hwf htid) htid0
        have htks : tid ∈ ks := by
          rcases hmem with rfl | rfl
          exacts [hh, ha]
        have e : ∀ x, psTeams p x = adjustTeam x tid (fun s =>
            { s with penalty_minutes := s.penalty_minutes + penaltyMinutesOf p }) := by
          intro x
          unfold psTeams
          rw [hpid, htid]
          dsimp only
          rw [if_neg h0]
        refine ⟨_, MShape_congr (fun m => e (F m))
          (MShape_adjT tname hF htks _), ?_⟩
        exact TAll_adjT _ hD
          ⟨⟨0, 0, 0, 0, 0, 0, 0, penaltyMinutesOf p, 0, 0, 0, 0, 0, 0, 0, 0, 0, 0, 0⟩,
            by funext s; rfl⟩

theorem goalsFold_teams_shape (tname : Nat → String) (hid aid : Nat) :
    ∀ (goals : List Goal) {F : TMap → TMap} {ks : List Nat}
      {D : Nat → TeamStats → TeamStats},
      MShape (fun t => mkTeamStats t (tname t)) F ks D → (∀ q, TAddClass (D q)) →
      hid ∈ ks → aid ∈ ks →
      (∀ goal ∈ goals, optAll goal.teamId (fun tid => tid ≠ 0 → tid = hid ∨ tid = aid)) →
      ∃ D', MShape (fun t => mkTeamStats t (tname t))
        (fun m => goals.foldl (fun m' g => gsTeams hid aid g m') (F m)) ks D' ∧
        ∀ q, TAddClass (D' q) := by
  intro goals
  induction goals with
  | nil =>
    intro F ks D hF hD hh ha hwf
    exact ⟨D, hF, hD⟩
  | cons g rest ih =>
    intro F ks D hF hD hh ha hwf
    obtain ⟨D1, h1, hD1⟩ :=
      gsTeams_shape tname hF hD hh ha g (hwf g (List.mem_cons_self _ _))
    obtain ⟨D', h', hD'⟩ :=
      ih h1 hD1 hh ha (fun goal hgm => hwf goal (List.mem_cons_of_mem _ hgm))
    exact ⟨D', h', hD'⟩

theorem pensFold_teams_shape (tname : Nat → String) (hid aid : Nat) :
    ∀ (pens : List Penalty) {F : TMap → TMap} {ks : List Nat}
      {D : Nat → TeamStats → TeamStats},
      MShape (fun t => mkTeamStats t (tname t)) F ks D → (∀ q, TAddClass (D q)) →
      hid ∈ ks → aid ∈ ks →
      (∀ p ∈ pens, optAll p.teamId (fun tid => tid ≠ 0 → tid = hid ∨ tid = aid)) →
      ∃ D', MShape (fun t => mkTeamStats t (tname t))
        (fun m => pens.foldl (fun m' p => psTeams p m') (F m)) ks D' ∧
        ∀ q, TAddClass (D' q) := by
  intro pens
  induction pens with
  | nil =>
    intro F ks D hF hD hh ha hwf
    exact ⟨D, hF, hD⟩
  | cons p rest ih =>
    intro F ks D hF hD hh ha hwf
    obtain ⟨D1, h1, hD1⟩ :=
      psTeams_shape tname hF hD hh ha p (hwf p (List.mem_cons_self _ _))
    obtain ⟨D', h', hD'⟩ :=
      ih h1 hD1 hh ha (fun p' hpm => hwf p' (List.mem_cons_of_mem _ hpm))
    exact ⟨D', h', hD'⟩

/-- The whole team-table effect of one consistent game is in normal
form with additive per-key adjustments. -/
theorem teamsOfGame_shape (posIdx : PosIdx) (tname : Nat → String)
    (pname : Nat → Option String) (pteam : Nat → Nat) (ppos : Nat → String)
    (game : Game)
    (hc : ConsistentGame posIdx tname pname pteam ppos game) :
    ∃ ks D, MShape (fun t => mkTeamStats t (tname t)) (teamsOfGame game) ks D ∧
      ∀ q, TAddClass (D q) := by
  rcases hb : game.boxscore with _ | b
  · have e : ∀ m, teamsOfGame game m = m := by
      intro m
      unfold teamsOfGame
      rw [hb]
    exact ⟨[], fun _ => id, MShape_congr e (MShape_id _), fun q => TAddClass_id⟩
  · rcases hts : b.teams with _ | ⟨home_team, rest⟩
    · have e : ∀ m, teamsOfGame game m = m := by
        intro m
        unfold teamsOfGame
        rw [hb]
        dsimp only
        rw [hts]
      exact ⟨[], fun _ => id, MShape_congr e (MShape_id _), fun q => TAddClass_id⟩
    · rcases rest with _ | ⟨away_team, rest2⟩
      · have e : ∀ m, teamsOfGame game m = m := by
          intro m
          unfold teamsOfGame
          rw [hb]
          dsimp only
          rw [hts]
        exact ⟨[], fun _ => id, MShape_congr e (MShape_id _), fun q => TAddClass_id⟩
      · unfold ConsistentGame at hc
        rw [hb] at hc
        dsimp only at hc
        rw [hts] at hc
        dsimp only at hc
        obtain ⟨hn1, hn2, hg, hp, hr1, hr2⟩ := hc
        have e : ∀ m, teamsOfGame game m =
            b.penalties.foldl (fun m' p => psTeams p m')
              (b.goals.foldl (fun m' g => gsTeams home_team.id away_team.id g m')
                (baseTeams game home_team away_team m)) := by
          intro m
          unfold teamsOfGame
          rw [hb]
          dsimp only
          rw [hts]
        have hwfg : ∀ goal ∈ b.goals, optAll goal.teamId
            (fun tid => tid ≠ 0 → tid = home_team.id ∨ tid = away_team.id) := by
          intro goal hgm
          have h := hg goal hgm
          intro x hx hne
          exact (h x hx hne).1
        have hwfp : ∀ p ∈ b.penalties, optAll p.teamId
            (fun tid => tid ≠ 0 → tid = home_team.id ∨ tid = away_team.id) := by
          intro p hpm
          have h := hp p hpm
          intro x hx hne
          exact (h x hx hne).1
        have hf_gp : TAddClass (fun s : TeamStats =>
            { s with games_played := s.games_played + 1 }) :=
          ⟨⟨1, 0, 0, 0, 0, 0, 0, 0, 0, 0, 0, 0, 0, 0, 0, 0, 0, 0, 0⟩, by funext s; rfl⟩
        have hf_ppoh : TAddClass (fun s : TeamStats =>
            { s with powerplay_opportunities := s.powerplay_opportunities +
                calculate_powerplay_opportunities game home_team.id away_team.id home_team.id }) :=
          ⟨⟨0, 0, 0, 0, 0, 0, 0, 0, 0, 0,
            calculate_powerplay_opportunities game home_team.id away_team.id home_team.id,
            0, 0, 0, 0, 0, 0, 0, 0⟩, by funext s; rfl⟩
        have hf_ppoa : TAddClass (fun s : TeamStats =>
            { s with powerplay_opportunities := s.powerplay_opportunities +
                calculate_powerplay_opportunities game home_team.id away_team.id away_team.id }) :=
          ⟨⟨0, 0, 0, 0, 0, 0, 0, 0, 0, 0,
            calculate_powerplay_opportunities game home_team.id away_team.id away_team.id,
            0, 0, 0, 0, 0, 0, 0, 0⟩, by funext s; rfl⟩
        have hf_gfh : TAddClass (fun s : TeamStats =>
            { s with goals_for := s.goals_for + game.home_score,
                     goals_against := s.goals_against + game.away_score }) :=
          ⟨⟨0, 0, 0, 0, 0, game.home_score, game.away_score, 0, 0, 0, 0, 0, 0,
            0, 0, 0, 0, 0, 0⟩, by funext s; rfl⟩
        have hf_gfa : TAddClass (fun s : TeamStats =>
            { s with goals_for := s.goals_for + game.away_score,
                     goals_against := s.goals_against + game.home_score }) :=
          ⟨⟨0, 0, 0, 0, 0, game.away_score, game.home_score, 0, 0, 0, 0, 0, 0,
            0, 0, 0, 0, 0, 0⟩, by funext s; rfl⟩
        have s0 := MShape_id (fun t => mkTeamStats t (tname t))
        have s1 := MShape_initT tname s0 home_team.id home_team.name hn1
        have s2 := MShape_initT tname s1 away_team.id away_team.name hn2
        have hmh : home_team.id ∈ away_team.id :: home_team.id :: ([] : List Nat) := by
          simp
        have hma : away_team.id ∈ away_team.id :: home_team.id :: ([] : List Nat) := by
          simp
        have s3 := MShape_adjT tname s2 hmh
          (fun s => { s with games_played := s.games_played + 1 })
        have s4 := MShape_adjT tname s3 hma
          (fun s => { s with games_played := s.games_played + 1 })
        have s5 := MShape_adjT tname s4 hmh (fun s =>
          { s with powerplay_opportunities := s.powerplay_opportunities +
              calculate_powerplay_opportunities game home_team.id away_team.id home_team.id })
        have s6 := MShape_adjT tname s5 hma (fun s =>
          { s with powerplay_opportunities := s.powerplay_opportunities +
              calculate_powerplay_opportunities game home_team.id away_team.id away_team.id })
        have s7 := MShape_adjT tname s6 hmh (fun s =>
          { s with goals_for := s.goals_for + game.home_score,
                   goals_against := s.goals_against + game.away_score })
        have s8 := MShape_adjT tname s7 hma (fun s =>
          { s with goals_for := s.goals_for + game.away_score,
                   goals_against := s.goals_against + game.home_score })
        have hD2 := TAll_initT [home_team.id] (TAll_initT [] (fun q => TAddClass_id))
        have hD8 := TAll_adjT away_team.id (TAll_adjT home_team.id
          (TAll_adjT away_team.id (TAll_adjT home_team.id
            (TAll_adjT away_team.id (TAll_adjT home_team.id hD2 hf_gp) hf_gp)
            hf_ppoh) hf_ppoa) hf_gfh) hf_gfa
        by_cases hgt : game.home_score > game.away_score
        · have eb : ∀ m, baseTeams game home_team away_team m =
              adjustTeam (adjustTeam (baseTeamsCore game home_team away_team m)
                home_team.id (fun s =>
                  { s with wins := s.wins + 1, home_wins := s.home_wins + 1,
                           points := s.points + 2 }))
                away_team.id (fun s =>
                  { s with losses := s.losses + 1, away_losses := s.away_losses + 1 }) := by
            intro m
            unfold baseTeams
            dsimp only
            rw [if_pos hgt]
          have s9 := MShape_adjT tname s8 hmh (fun s =>
            { s with wins := s.wins + 1, home_wins := s.home_wins + 1,
                     points := s.points + 2 })
          have s10 := MShape_adjT tname s9 hma (fun s =>
            { s with losses := s.losses + 1, away_losses := s.away_losses + 1 })
          obtain ⟨Dg, hgf, hDg⟩ := goalsFold_teams_shape tname home_team.id away_team.id
            b.goals s10
            (TAll_adjT away_team.id (TAll_adjT home_team.id hD8
              ⟨⟨0, 1, 0, 0, 2, 0, 0, 0, 0, 0, 0, 0, 0, 1, 0, 0, 0, 0, 0⟩, by funext s; rfl⟩)
              ⟨⟨0, 0, 1, 0, 0, 0, 0, 0, 0, 0, 0, 0, 0, 0, 0, 0, 0, 1, 0⟩, by funext s; rfl⟩)
            hmh hma hwfg
          obtain ⟨Dp, hpf, hDp⟩ := pensFold_teams_shape tname home_team.id away_team.id
            b.penalties hgf hDg hmh hma hwfp
          refine ⟨_, _, MShape_congr ?_ hpf, hDp⟩
          intro m
          rw [e m, eb m]
          rfl
        · by_cases hlt : game.away_score > game.home_score
          · have eb : ∀ m, baseTeams game home_team away_team m =
                adjustTeam (adjustTeam (baseTeamsCore game home_team away_team m)
                  away_team.id (fun s =>
                    { s with wins := s.wins + 1, away_wins := s.away_wins + 1,
                             points := s.points + 2 }))
                  home_team.id (fun s =>
                    { s with losses := s.losses + 1, home_losses := s.home_losses + 1 }) := by
              intro m
              unfold baseTeams
              dsimp only
              rw [if_neg hgt, if_pos hlt]
            have s9 := MShape_adjT tname s8 hma (fun s =>
              { s with wins := s.wins + 1, away_wins := s.away_wins + 1,
                       points := s.points + 2 })
            have s10 := MShape_adjT tname s9 hmh (fun s =>
              { s with losses := s.losses + 1, home_losses := s.home_losses + 1 })
            obtain ⟨Dg, hgf, hDg⟩ := goalsFold_teams_shape tname home_team.id away_team.id
              b.goals s10
              (TAll_adjT home_team.id (TAll_adjT away_team.id hD8
                ⟨⟨0, 1, 0, 0, 2, 0, 0, 0, 0, 0, 0, 0, 0, 0, 0, 0, 1, 0, 0⟩, by funext s; rfl⟩)
                ⟨⟨0, 0, 1, 0, 0, 0, 0, 0, 0, 0, 0, 0, 0, 0, 1, 0, 0, 0, 0⟩, by funext s; rfl⟩)
              hmh hma hwfg
            obtain ⟨Dp, hpf, hDp⟩ := pensFold_teams_shape tname home_team.id away_team.id
              b.penalties hgf hDg hmh hma hwfp
            refine ⟨_, _, MShape_congr ?_ hpf, hDp⟩
            intro m
            rw [e m, eb m]
            rfl
          · have eb : ∀ m, baseTeams game home_team away_team m =
                adjustTeam (adjustTeam (baseTeamsCore game home_team away_team m)
                  home_team.id (fun s =>
                    { s with ties := s.ties + 1, home_ties := s.home_ties + 1,
                             points := s.points + 1 }))
                  away_team.id (fun s =>
                    { s with ties := s.ties + 1, away_ties := s.away_ties + 1,
                             points := s.points + 1 }) := by
              intro m
              unfold baseTeams
              dsimp only
              rw [if_neg hgt, if_neg hlt]
            have s9 := MShape_adjT tname s8 hmh (fun s =>
              { s with ties := s.ties + 1, home_ties := s.home_ties + 1,
                       points := s.points + 1 })
            have s10 := MShape_adjT tname s9 hma (fun s =>
              { s with ties := s.ties + 1, away_ties := s.away_ties + 1,
                       points := s.points + 1 })
            obtain ⟨Dg, hgf, hDg⟩ := goalsFold_teams_shape tname home_team.id away_team.id
              b.goals s10
              (TAll_adjT away_team.id (TAll_adjT home_team.id hD8
                ⟨⟨0, 0, 0, 1, 1, 0, 0, 0, 0, 0, 0, 0, 0, 0, 0, 1, 0, 0, 0⟩, by funext s; rfl⟩)
                ⟨⟨0, 0, 0, 1, 1, 0, 0, 0, 0, 0, 0, 0, 0, 0, 0, 0, 0, 0, 1⟩, by funext s; rfl⟩)
              hmh hma hwfg
            obtain ⟨Dp, hpf, hDp⟩ := pensFold_teams_shape tname home_team.id away_team.id
              b.penalties hgf hDg hmh hma hwfp
            refine ⟨_, _, MShape_congr ?_ hpf, hDp⟩
            intro m
            rw [e m, eb m]
            rfl

theorem MShape_initP (pname : Nat → Option String) (pteam : Nat → Nat)
    (ppos : Nat → String) {F : PMap → PMap} {ks : List Nat}
    {D : Nat → PlayerStats → PlayerStats}
    (h : MShape (fun q => mkPlayerStats q (pname q) (pteam q) (ppos q)) F ks D)
    (k : Nat) (nm : Option String) (tid : Nat) (pos : String)
    (h1 : nm = pname k) (h2 : tid = pteam k) (h3 : pos = ppos k) :
    MShape (fun q => mkPlayerStats q (pname q) (pteam q) (ppos q))
      (fun m => initialize_player_stats (F m) k nm tid pos) (k :: ks)
      (fun q => if q ∈ ks then D q else id) := by
  subst h1
  subst h2
  subst h3
  simp only [initialize_player_stats_eq_genInit]
  exact MShape_init _ h k

theorem MShape_adjP (pname : Nat → Option String) (pteam : Nat → Nat)
    (ppos : Nat → String) {F : PMap → PMap} {ks : List Nat}
    {D : Nat → PlayerStats → PlayerStats}
    (h : MShape (fun q => mkPlayerStats q (pname q) (pteam q) (ppos q)) F ks D)
    {k : Nat} (hk : k ∈ ks) (f : PlayerStats → PlayerStats) :
    MShape (fun q => mkPlayerStats q (pname q) (pteam q) (ppos q))
      (fun m => adjustPlayer (F m) k f) ks
      (fun q => if q = k then fun x => f (D q x) else D q) :=
  MShape_adjust _ h hk f

theorem PAll_initP (ks : List Nat) {D : Nat → PlayerStats → PlayerStats}
    (hD : ∀ q, PAddClass (D q)) :
    ∀ q, PAddClass (if q ∈ ks then D q else id) := by
  intro q
  by_cases hq : q ∈ ks
  · simpa [hq] using hD q
  · simpa [hq] using PAddClass_id

theorem PAll_adjP (k : Nat) {D : Nat → PlayerStats → PlayerStats}
    {f : PlayerStats → PlayerStats} (hD : ∀ q, PAddClass (D q)) (hf : PAddClass f) :
    ∀ q, PAddClass (if q = k then (fun x => f (D q x)) else D q) := by
  intro q
  by_cases hq : q = k
  · simpa [hq] using PAddClass_comp hf (hD q)
  · simpa [hq] using hD q

/-- Composing one assist's player effect keeps the normal form. -/
theorem asPlayers_shape (pname : Nat → Option String) (pteam : Nat → Nat)
    (ppos : Nat → String) {posIdx : PosIdx} {b : Boxscore}
    {F : PMap → PMap} {ks : List Nat} {D : Nat → PlayerStats → PlayerStats}
    (hF : MShape (fun q => mkPlayerStats q (pname q) (pteam q) (ppos q)) F ks D)
    (hD : ∀ q, PAddClass (D q)) {tid : Nat} (pp sh : Bool) (a : Assist)
    (hattr : optAll a.participantId (fun q => q ≠ 0 →
      a.fullName = pname q ∧ tid = pteam q ∧
      posCF (get_player_position posIdx b q) = ppos q)) :
    ∃ ks' D', MShape (fun q => mkPlayerStats q (pname q) (pteam q) (ppos q))
      (fun m => asPlayers posIdx b tid pp sh (F m) a) ks' D' ∧
      ∀ q, PAddClass (D' q) := by
  rcases hpid : a.participantId with _ | aid
  · have e : ∀ x, asPlayers posIdx b tid pp sh x a = x := by
      intro x
      unfold asPlayers
      rw [hpid]
    exact ⟨ks, D, MShape_congr (fun m => e (F m)) hF, hD⟩
  · by_cases h0 : aid = 0
    · have e : ∀ x, asPlayers posIdx b tid pp sh x a = x := by
        intro x
        unfold asPlayers
        rw [hpid]
        dsimp only
        rw [if_pos h0]
      exact ⟨ks, D, MShape_congr (fun m => e (F m)) hF, hD⟩
    · obtain ⟨hnm, htid, hpos⟩ := (optAll_eq_some hattr hpid) h0
      have hmem : aid ∈ aid :: ks := List.mem_cons_self _ _
      have hfap : PAddClass (fun p : PlayerStats =>
          { p with assists := p.assists + 1, points := p.points + 1 }) :=
        ⟨⟨0, 1, 1, 0, 0, 0, 0, 0, 0, 0, 0, 0⟩, by funext p; rfl⟩
      have hfppa : PAddClass (fun p : PlayerStats =>
          { p with powerplay_assists := p.powerplay_assists + 1 }) :=
        ⟨⟨0, 0, 0, 0, 0, 1, 0, 0, 0, 0, 0, 0⟩, by funext p; rfl⟩
      have hfsha : PAddClass (fun p : PlayerStats =>
          { p with shorthanded_assists := p.shorthanded_assists + 1 }) :=
        ⟨⟨0, 0, 0, 0, 0, 0, 0, 1, 0, 0, 0, 0⟩, by funext p; rfl⟩
      by_cases hpp : pp <;> by_cases hsh : sh
      · have e : ∀ x, asPlayers posIdx b tid pp sh x a =
            adjustPlayer (adjustPlayer (adjustPlayer
              (initialize_player_stats x aid a.fullName tid
                (posCF (get_player_position posIdx b aid))) aid
              (fun p => { p with assists := p.assists + 1, points := p.points + 1 })) aid
              (fun p => { p with powerplay_assists := p.powerplay_assists + 1 })) aid
              (fun p => { p with shorthanded_assists := p.shorthanded_assists + 1 }) := by
          intro x
          unfold asPlayers
          rw [hpid]
          dsimp only
          rw [if_neg h0, if_pos hpp, if_pos hsh]
          rfl
        refine ⟨aid :: ks, _, MShape_congr (fun m => e (F m))
          (MShape_adjP pname pteam ppos (MShape_adjP pname pteam ppos
            (MShape_adjP pname pteam ppos
              (MShape_initP pname pteam ppos hF aid a.fullName tid
                (posCF (get_player_position posIdx b aid)) hnm htid hpos)
              hmem _) hmem _) hmem _), ?_⟩
        exact PAll_adjP aid (PAll_adjP aid (PAll_adjP aid (PAll_initP ks hD) hfap) hfppa) hfsha
      · have e : ∀ x, asPlayers posIdx b tid pp sh x a =
            adjustPlayer (adjustPlayer
              (initialize_player_stats x aid a.fullName tid
                (posCF (get_player_position posIdx b aid))) aid
              (fun p => { p with assists := p.assists + 1, points := p.points + 1 })) aid
              (fun p => { p with powerplay_assists := p.powerplay_assists + 1 }) := by
          intro x
          unfold asPlayers
          rw [hpid]
          dsimp only
          rw [if_neg h0, if_pos hpp, if_neg hsh]
          rfl
        refine ⟨aid :: ks, _, MShape_congr (fun m => e (F m))
          (MShape_adjP pname pteam ppos (MShape_adjP pname pteam ppos
            (MShape_initP pname pteam ppos hF aid a.fullName tid
              (posCF (get_player_position posIdx b aid)) hnm htid hpos)
            hmem _) hmem _), ?_⟩
        exact PAll_adjP aid (PAll_adjP aid (PAll_initP ks hD) hfap) hfppa
      · have e : ∀ x, asPlayers posIdx b tid pp sh x a =
            adjustPlayer (adjustPlayer
              (initialize_player_stats x aid a.fullName tid
                (posCF (get_player_position posIdx b aid))) aid
              (fun p => { p with assists := p.assists + 1, points := p.points + 1 })) aid
              (fun p => { p with shorthanded_assists := p.shorthanded_assists + 1 }) := by
          intro x
          unfold asPlayers
          rw [hpid]
          dsimp only
          rw [if_neg h0, if_neg hpp, if_pos hsh]
          rfl
        refine ⟨aid :: ks, _, MShape_congr (fun m => e (F m))
          (MShape_adjP pname pteam ppos (MShape_adjP pname pteam ppos
            (MShape_initP pname pteam ppos hF aid a.fullName tid
              (posCF (get_player_position posIdx b aid)) hnm htid hpos)
            hmem _) hmem _), ?_⟩
        exact PAll_adjP aid (PAll_adjP aid (PAll_initP ks hD) hfap) hfsha
      · have e : ∀ x, asPlayers posIdx b tid pp sh x a =
            adjustPlayer
              (initialize_player_stats x aid a.fullName tid
                (posCF (get_player_position posIdx b aid))) aid
              (fun p => { p with assists := p.assists + 1, points := p.points + 1 }) := by
          intro x
          unfold asPlayers
          rw [hpid]
          dsimp only
          rw [if_neg h0, if_neg hpp, if_neg hsh]
          rfl
        refine ⟨aid :: ks, _, MShape_congr (fun m => e (F m))
          (MShape_adjP pname pteam ppos
            (MShape_initP pname pteam ppos hF aid a.fullName tid
              (posCF (get_player_position posIdx b aid)) hnm htid hpos)
            hmem _), ?_⟩
        exact PAll_adjP aid (PAll_initP ks hD) hfap

theorem assistsFold_players_shape (pname : Nat → Option String) (pteam : Nat → Nat)
    (ppos : Nat → String) {posIdx : PosIdx} {b : Boxscore} {tid : Nat}
    (pp sh : Bool) :
    ∀ (l : List Assist) {F : PMap → PMap} {ks : List Nat}
      {D : Nat → PlayerStats → PlayerStats},
      MShape (fun q => mkPlayerStats q (pname q) (pteam q) (ppos q)) F ks D →
      (∀ q, PAddClass (D q)) →
      (∀ a ∈ l, optAll a.participantId (fun q => q ≠ 0 →
        a.fullName = pname q ∧ tid = pteam q ∧
        posCF (get_player_position posIdx b q) = ppos q)) →
      ∃ ks' D', MShape (fun q => mkPlayerStats q (pname q) (pteam q) (ppos q))
        (fun m => l.foldl (asPlayers posIdx b tid pp sh) (F m)) ks' D' ∧
        ∀ q, PAddClass (D' q) := by
  intro l
  induction l with
  | nil =>
    intro F ks D hF hD hattrs
    exact ⟨ks, D, hF, hD⟩
  | cons a rest ih =>
    intro F ks D hF hD hattrs
    obtain ⟨ks1, D1, h1, hD1⟩ :=
      asPlayers_shape pname pteam ppos hF hD pp sh a (hattrs a (List.mem_cons_self _ _))
    obtain ⟨ks', D', h', hD'⟩ :=
      ih h1 hD1 (fun a' ham => hattrs a' (List.mem_cons_of_mem _ ham))
    exact ⟨ks', D', h', hD'⟩

/-- Composing one goal's player effect keeps the normal form. -/
theorem gsPlayers_shape (pname : Nat → Option String) (pteam : Nat → Nat)
    (ppos : Nat → String) {posIdx : PosIdx} {b : Boxscore} {hid aid : Nat}
    {F : PMap → PMap} {ks : List Nat} {D : Nat → PlayerStats → PlayerStats}
    (hF : MShape (fun q => mkPlayerStats q (pname q) (pteam q) (ppos q)) F ks D)
    (hD : ∀ q, PAddClass (D q)) (goal : Goal)
    (hgc : goalConsistent posIdx b hid aid pname pteam ppos goal) :
    ∃ ks' D', MShape (fun q => mkPlayerStats q (pname q) (pteam q) (ppos q))
      (fun m => gsPlayers posIdx b goal (F m)) ks' D' ∧
      ∀ q, PAddClass (D' q) := by
  rcases hpid : goal.participant.participantId with _ | sid
  · have e : ∀ x, gsPlayers posIdx b goal x = x := by
      intro x
      unfold gsPlayers
      rw [hpid]
    exact ⟨ks, D, MShape_congr (fun m => e (F m)) hF, hD⟩
  · rcases htid : goal.teamId with _ | tid
    · have e : ∀ x, gsPlayers posIdx b goal x = x := by
        intro x
        unfold gsPlayers
        rw [hpid, htid]
      exact ⟨ks, D, MShape_congr (fun m => e (F m)) hF, hD⟩
    · by_cases h0 : sid = 0 ∨ tid = 0
      · have e : ∀ x, gsPlayers posIdx b goal x = x := by
          intro x
          unfold gsPlayers
          rw [hpid, htid]
          dsimp only
          rw [if_pos h0]
        exact ⟨ks, D, MShape_congr (fun m => e (F m)) hF, hD⟩
      · have htid0 : tid ≠ 0 := fun hz => h0 (Or.inr hz)
        have hsid0 : sid ≠ 0 := fun hz => h0 (Or.inl hz)
        obtain ⟨hmemt, hscorer, hassists⟩ := (optAll_eq_some hgc htid) htid0
        obtain ⟨hnm, htidp, hpos⟩ := (optAll_eq_some hscorer hpid) hsid0
        have hmem : sid ∈ sid :: ks := List.mem_cons_self _ _
        have hfgp : PAddClass (fun p : PlayerStats =>
            { p with goals := p.goals + 1, points := p.points + 1 }) :=
          ⟨⟨1, 0, 1, 0, 0, 0, 0, 0, 0, 0, 0, 0⟩, by funext p; rfl⟩
        have hfppg : PAddClass (fun p : PlayerStats =>
            { p with powerplay_goals := p.powerplay_goals + 1 }) :=
          ⟨⟨0, 0, 0, 0, 1, 0, 0, 0, 0, 0, 0, 0⟩, by funext p; rfl⟩
        have hfshg : PAddClass (fun p : PlayerStats =>
            { p with shorthanded_goals := p.shorthanded_goals + 1 }) :=
          ⟨⟨0, 0, 0, 0, 0, 0, 1, 0, 0, 0, 0, 0⟩, by funext p; rfl⟩
        by_cases hpp : goal.isPowerplay <;> by_cases hsh : goal.isShorthanded
        · have e : ∀ x, gsPlayers posIdx b goal x =
              goal.assists.foldl (asPlayers posIdx b tid goal.isPowerplay goal.isShorthanded)
                (adjustPlayer (adjustPlayer (adjustPlayer
                  (initialize_player_stats x sid goal.participant.fullName tid
                    (posCF (get_player_position posIdx b sid))) sid
                  (fun p => { p with goals := p.goals + 1, points := p.points + 1 })) sid
                  (fun p => { p with powerplay_goals := p.powerplay_goals + 1 })) sid
                  (fun p => { p with shorthanded_goals := p.shorthanded_goals + 1 })) := by
            intro x
            unfold gsPlayers
            rw [hpid, htid]
            dsimp only
            rw [if_neg h0, if_pos hpp, if_pos hsh]
            rfl
          obtain ⟨ks', D', h', hD'⟩ := assistsFold_players_shape pname pteam ppos
            goal.isPowerplay goal.isShorthanded goal.assists
            (MShape_adjP pname pteam ppos (MShape_adjP pname pteam ppos
              (MShape_adjP pname pteam ppos
                (MShape_initP pname pteam ppos hF sid goal.participant.fullName tid
                  (posCF (get_player_position posIdx b sid)) hnm htidp hpos)
                hmem _) hmem _) hmem _)
            (PAll_adjP sid (PAll_adjP sid (PAll_adjP sid (PAll_initP ks hD) hfgp) hfppg) hfshg)
            hassists
          exact ⟨ks', D', MShape_congr (fun m => e (F m)) h', hD'⟩
        · have e : ∀ x, gsPlayers posIdx b goal x =
              goal.assists.foldl (asPlayers posIdx b tid goal.isPowerplay goal.isShorthanded)
                (adjustPlayer (adjustPlayer
                  (initialize_player_stats x sid goal.participant.fullName tid
                    (posCF (get_player_position posIdx b sid))) sid
                  (fun p => { p with goals := p.goals + 1, points := p.points + 1 })) sid
                  (fun p => { p with powerplay_goals := p.powerplay_goals + 1 })) := by
            intro x
            unfold gsPlayers
            rw [hpid, htid]
            dsimp only
            rw [if_neg h0, if_pos hpp, if_neg hsh]
            rfl
          obtain ⟨ks', D', h', hD'⟩ := assistsFold_players_shape pname pteam ppos
            goal.isPowerplay goal.isShorthanded goal.assists
            (MShape_adjP pname pteam ppos (MShape_adjP pname pteam ppos
              (MShape_initP pname pteam ppos hF sid goal.participant.fullName tid
                (posCF (get_player_position posIdx b sid)) hnm htidp hpos)
              hmem _) hmem _)
            (PAll_adjP sid (PAll_adjP sid (PAll_initP ks hD) hfgp) hfppg)
            hassists
          exact ⟨ks', D', MShape_congr (fun m => e (F m)) h', hD'⟩
        · have e : ∀ x, gsPlayers posIdx b goal x =
              goal.assists.foldl (asPlayers posIdx b tid goal.isPowerplay goal.isShorthanded)
                (adjustPlayer (adjustPlayer
                  (initialize_player_stats x sid goal.participant.fullName tid
                    (posCF (get_player_position posIdx b sid))) sid
                  (fun p => { p with goals := p.goals + 1, points := p.points + 1 })) sid
                  (fun p => { p with shorthanded_goals := p.shorthanded_goals + 1 })) := by
            intro x
            unfold gsPlayers
            rw [hpid, htid]
            dsimp only
            rw [if_neg h0, if_neg hpp, if_pos hsh]
            rfl
          obtain ⟨ks', D', h', hD'⟩ := assistsFold_players_shape pname pteam ppos
            goal.isPowerplay goal.isShorthanded goal.assists
            (MShape_adjP pname pteam ppos (MShape_adjP pname pteam ppos
              (MShape_initP pname pteam ppos hF sid goal.participant.fullName tid
                (posCF (get_player_position posIdx b sid)) hnm htidp hpos)
              hmem _) hmem _)
            (PAll_adjP sid (PAll_adjP sid (PAll_initP ks hD) hfgp) hfshg)
            hassists
          exact ⟨ks', D', MShape_congr (fun m => e (F m)) h', hD'⟩
        · have e : ∀ x, gsPlayers posIdx b goal x =
              goal.assists.foldl (asPlayers posIdx b tid goal.isPowerplay goal.isShorthanded)
                (adjustPlayer
                  (initialize_player_stats x sid goal.participant.fullName tid
                    (posCF (get_player_position posIdx b sid))) sid
                  (fun p => { p with goals := p.goals + 1, points := p.points + 1 })) := by
            intro x
            unfold gsPlayers
            rw [hpid, htid]
            dsimp only
            rw [if_neg h0, if_neg hpp, if_neg hsh]
            rfl
          obtain ⟨ks', D', h', hD'⟩ := assistsFold_players_shape pname pteam ppos
            goal.isPowerplay goal.isShorthanded goal.assists
            (MShape_adjP pname pteam ppos
              (MShape_initP pname pteam ppos hF sid goal.participant.fullName tid
                (posCF (get_player_position posIdx b sid)) hnm htidp hpos)
              hmem _)
            (PAll_adjP sid (PAll_initP ks hD) hfgp)
            hassists
          exact ⟨ks', D', MShape_congr (fun m => e (F m)) h', hD'⟩

/-- Composing one penalty's player effect keeps the normal form. -/
theorem psPlayers_shape (pname : Nat → Option String) (pteam : Nat → Nat)
    (ppos : Nat → String) {posIdx : PosIdx} {b : Boxscore} {hid aid : Nat}
    {F : PMap → PMap} {ks : List Nat} {D : Nat → PlayerStats → PlayerStats}
    (hF : MShape (fun q => mkPlayerStats q (pname q) (pteam q) (ppos q)) F ks D)
    (hD : ∀ q, PAddClass (D q)) (p : Penalty)
    (hpc : penaltyConsistent posIdx b hid aid pname pteam ppos p) :
    ∃ ks' D', MShape (fun q => mkPlayerStats q (pname q) (pteam q) (ppos q))
      (fun m => psPlayers posIdx b p (F m)) ks' D' ∧
      ∀ q, PAddClass (D' q) := by
  rcases hpid : p.participant.participantId with _ | pid
  · have e : ∀ x, psPlayers posIdx b p x = x := by
      intro x
      unfold psPlayers
      rw [hpid]
    exact ⟨ks, D, MShape_congr (fun m => e (F m)) hF, hD⟩
  · rcases htid : p.teamId with _ | tid
    · have e : ∀ x, psPlayers posIdx b p x = x := by
        intro x
        unfold psPlayers
        rw [hpid, htid]
      exact ⟨ks, D, MShape_congr (fun m => e (F m)) hF, hD⟩
    · by_cases h0 : pid = 0 ∨ tid = 0
      · have e : ∀ x, psPlayers posIdx b p x = x := by
          intro x
          unfold psPlayers
          rw [hpid, htid]
          dsimp only
          rw [if_pos h0]
        exact ⟨ks, D, MShape_congr (fun m => e (F m)) hF, hD⟩
      · have htid0 : tid ≠ 0 := fun hz => h0 (Or.inr hz)
        have hpid0 : pid ≠ 0 := fun hz => h0 (Or.inl hz)
        obtain ⟨hmemt, hpart⟩ := (optAll_eq_some hpc htid) htid0
        obtain ⟨hnm, htidp, hpos⟩ := (optAll_eq_some hpart hpid) hpid0
        have hmem : pid ∈ pid :: ks := List.mem_cons_self _ _
        have e : ∀ x, psPlayers posIdx b p x =
            adjustPlayer
              (initialize_player_stats x pid p.participant.fullName tid
                (posCF (get_player_position posIdx b pid))) pid
              (fun q => { q with penalty_minutes := q.penalty_minutes + penaltyMinutesOf p }) := by
          intro x
          unfold psPlayers
          rw [hpid, htid]
          dsimp only
          rw [if_neg h0]
          rfl
        refine ⟨pid :: ks, _, MShape_congr (fun m => e (F m))
          (MShape_adjP pname pteam ppos
            (MShape_initP pname pteam ppos hF pid p.participant.fullName tid
              (posCF (get_player_position posIdx b pid)) hnm htidp hpos)
            hmem _), ?_⟩
        exact PAll_adjP pid (PAll_initP ks hD)
          ⟨⟨0, 0, 0, penaltyMinutesOf p, 0, 0, 0, 0, 0, 0, 0, 0⟩, by funext q; rfl⟩

/-- Composing one roster entry's player effect keeps the normal form. -/
theorem rsPlayers_shape (pname : Nat → Option String) (pteam : Nat → Nat)
    (ppos : Nat → String) {sg : SGMap} {posIdx : PosIdx} {game : Game}
    {b : Boxscore} {team_id ms os gid : Nat}
    {F : PMap → PMap} {ks : List Nat} {D : Nat → PlayerStats → PlayerStats}
    (hF : MShape (fun q => mkPlayerStats q (pname q) (pteam q) (ppos q)) F ks D)
    (hD : ∀ q, PAddClass (D q)) (entry : RosterEntry)
    (hrc : rosterEntryConsistent posIdx b team_id pname pteam ppos entry) :
    ∃ ks' D', MShape (fun q => mkPlayerStats q (pname q) (pteam q) (ppos q))
      (fun m => rsPlayers sg posIdx game b team_id ms os gid (F m) entry) ks' D' ∧
      ∀ q, PAddClass (D' q) := by
  rcases hpid : entry.participantId with _ | pid
  · have e : ∀ x, rsPlayers sg posIdx game b team_id ms os gid x entry = x := by
      intro x
      unfold rsPlayers
      rw [hpid]
    exact ⟨ks, D, MShape_congr (fun m => e (F m)) hF, hD⟩
  · rcases hnm : entry.participant.fullName with _ | nm
    · have e : ∀ x, rsPlayers sg posIdx game b team_id ms os gid x entry = x := by
        intro x
        unfold rsPlayers
        rw [hpid, hnm]
      exact ⟨ks, D, MShape_congr (fun m => e (F m)) hF, hD⟩
    · by_cases h0 : pid = 0 ∨ nm = ""
      · have e : ∀ x, rsPlayers sg posIdx game b team_id ms os gid x entry = x := by
          intro x
          unfold rsPlayers
          rw [hpid, hnm]
          dsimp only
          rw [if_pos h0]
        exact ⟨ks, D, MShape_congr (fun m => e (F m)) hF, hD⟩
      · have hpid0 : pid ≠ 0 := fun hz => h0 (Or.inl hz)
        have hnm0 : nm ≠ "" := fun hz => h0 (Or.inr hz)
        obtain ⟨hpn, hpt, hpp⟩ :=
          (optAll_eq_some ((optAll_eq_some hrc hpid) hpid0) hnm) hnm0
        by_cases hraw : get_player_position posIdx b pid ∉ (["F", "D", "G", "C"] : List String)
        · have e : ∀ x, rsPlayers sg posIdx game b team_id ms os gid x entry = x := by
            intro x
            unfold rsPlayers
            rw [hpid, hnm]
            dsimp only
            rw [if_neg h0, if_pos hraw]
          exact ⟨ks, D, MShape_congr (fun m => e (F m)) hF, hD⟩
        · have hmem : pid ∈ pid :: ks := List.mem_cons_self _ _
          by_cases hG : ((if get_player_position posIdx b pid = "C" then "F"
                else get_player_position posIdx b pid) = "G" ∧
              is_starting_goalie sg gid (some nm) (some team_id) (some game))
          · have e : ∀ x, rsPlayers sg posIdx game b team_id ms os gid x entry =
                adjustPlayer
                  (initialize_player_stats x pid (some nm) team_id
                    (posCF (get_player_position posIdx b pid))) pid
                  (fun p =>
                    if ms > os then
                      { p with wins := p.wins + 1, goals_against := p.goals_against + os }
                    else if ms < os then
                      { p with losses := p.losses + 1, goals_against := p.goals_against + os }
                    else
                      { p with ties := p.ties + 1, goals_against := p.goals_against + os }) := by
              intro x
              unfold rsPlayers
              rw [hpid, hnm]
              dsimp only
              rw [if_neg h0, if_neg hraw, if_pos hG]
              rfl
            have hfout : PAddClass (fun p : PlayerStats =>
                if ms > os then
                  { p with wins := p.wins + 1, goals_against := p.goals_against + os }
                else if ms < os then
                  { p with losses := p.losses + 1, goals_against := p.goals_against + os }
                else
                  { p with ties := p.ties + 1, goals_against := p.goals_against + os }) := by
              by_cases hw : ms > os
              · exact ⟨⟨0, 0, 0, 0, 0, 0, 0, 0, 1, 0, 0, os⟩, by
                  funext p
                  rw [if_pos hw]
                  rfl⟩
              · by_cases hl : ms < os
                · exact ⟨⟨0, 0, 0, 0, 0, 0, 0, 0, 0, 1, 0, os⟩, by
                    funext p
                    rw [if_neg hw, if_pos hl]
                    rfl⟩
                · exact ⟨⟨0, 0, 0, 0, 0, 0, 0, 0, 0, 0, 1, os⟩, by
                    funext p
                    rw [if_neg hw, if_neg hl]
                    rfl⟩
            refine ⟨pid :: ks, _, MShape_congr (fun m => e (F m))
              (MShape_adjP pname pteam ppos
                (MShape_initP pname pteam ppos hF pid (some nm) team_id
                  (posCF (get_player_position posIdx b pid)) hpn hpt hpp)
                hmem _), ?_⟩
            exact PAll_adjP pid (PAll_initP ks hD) hfout
          · have e : ∀ x, rsPlayers sg posIdx game b team_id ms os gid x entry =
                initialize_player_stats x pid (some nm) team_id
                  (posCF (get_player_position posIdx b pid)) := by
              intro x
              unfold rsPlayers
              rw [hpid, hnm]
              dsimp only
              rw [if_neg h0, if_neg hraw, if_neg hG]
              rfl
            refine ⟨pid :: ks, _, MShape_congr (fun m => e (F m))
              (MShape_initP pname pteam ppos hF pid (some nm) team_id
                (posCF (get_player_position posIdx b pid)) hpn hpt hpp), ?_⟩
            exact PAll_initP ks hD

theorem goalsFold_players_shape (pname : Nat → Option String) (pteam : Nat → Nat)
    (ppos : Nat → String) {posIdx : PosIdx} {b : Boxscore} {hid aid : Nat} :
    ∀ (goals : List Goal) {F : PMap → PMap} {ks : List Nat}
      {D : Nat → PlayerStats → PlayerStats},
      MShape (fun q => mkPlayerStats q (pname q) (pteam q) (ppos q)) F ks D →
      (∀ q, PAddClass (D q)) →
      (∀ goal ∈ goals, goalConsistent posIdx b hid aid pname pteam ppos goal) →
      ∃ ks' D', MShape (fun q => mkPlayerStats q (pname q) (pteam q) (ppos q))
        (fun m => goals.foldl (fun m' g => gsPlayers posIdx b g m') (F m)) ks' D' ∧
        ∀ q, PAddClass (D' q) := by
  intro goals
  induction goals with
  | nil =>
    intro F ks D hF hD hattrs
    exact ⟨ks, D, hF, hD⟩
  | cons g rest ih =>
    intro F ks D hF hD hattrs
    obtain ⟨ks1, D1, h1, hD1⟩ :=
      gsPlayers_shape pname pteam ppos hF hD g (hattrs g (List.mem_cons_self _ _))
    obtain ⟨ks', D', h', hD'⟩ :=
      ih h1 hD1 (fun g' hgm => hattrs g' (List.mem_cons_of_mem _ hgm))
    exact ⟨ks', D', h', hD'⟩

theorem pensFold_players_shape (pname : Nat → Option String) (pteam : Nat → Nat)
    (ppos : Nat → String) {posIdx : PosIdx} {b : Boxscore} {hid aid : Nat} :
    ∀ (pens : List Penalty) {F : PMap → PMap} {ks : List Nat}
      {D : Nat → PlayerStats → PlayerStats},
      MShape (fun q => mkPlayerStats q (pname q) (pteam q) (ppos q)) F ks D →
      (∀ q, PAddClass (D q)) →
      (∀ p ∈ pens, penaltyConsistent posIdx b hid aid pname pteam ppos p) →
      ∃ ks' D', MShape (fun q => mkPlayerStats q (pname q) (pteam q) (ppos q))
        (fun m => pens.foldl (fun m' p => psPlayers posIdx b p m') (F m)) ks' D' ∧
        ∀ q, PAddClass (D' q) := by
  intro pens
  induction pens with
  | nil =>
    intro F ks D hF hD hattrs
    exact ⟨ks, D, hF, hD⟩
  | cons p rest ih =>
    intro F ks D hF hD hattrs
    obtain ⟨ks1, D1, h1, hD1⟩ :=
      psPlayers_shape pname pteam ppos hF hD p (hattrs p (List.mem_cons_self _ _))
    obtain ⟨ks', D', h', hD'⟩ :=
      ih h1 hD1 (fun p' hpm => hattrs p' (List.mem_cons_of_mem _ hpm))
    exact ⟨ks', D', h', hD'⟩

theorem rosterFold_players_shape (pname : Nat → Option String) (pteam : Nat → Nat)
    (ppos : Nat → String) {sg : SGMap} {posIdx : PosIdx} {game : Game}
    {b : Boxscore} {team_id ms os gid : Nat} :
    ∀ (l : List RosterEntry) {F : PMap → PMap} {ks : List Nat}
      {D : Nat → PlayerStats → PlayerStats},
      MShape (fun q => mkPlayerStats q (pname q) (pteam q) (ppos q)) F ks D →
      (∀ q, PAddClass (D q)) →
      (∀ e ∈ l, rosterEntryConsistent posIdx b team_id pname pteam ppos e) →
      ∃ ks' D', MShape (fun q => mkPlayerStats q (pname q) (pteam q) (ppos q))
        (fun m => l.foldl (rsPlayers sg posIdx game b team_id ms os gid) (F m)) ks' D' ∧
        ∀ q, PAddClass (D' q) := by
  intro l
  induction l with
  | nil =>
    intro F ks D hF hD hattrs
    exact ⟨ks, D, hF, hD⟩
  | cons entry rest ih =>
    intro F ks D hF hD hattrs
    obtain ⟨ks1, D1, h1, hD1⟩ :=
      rsPlayers_shape pname pteam ppos hF hD entry (hattrs entry (List.mem_cons_self _ _))
    obtain ⟨ks', D', h', hD'⟩ :=
      ih h1 hD1 (fun e' hem => hattrs e' (List.mem_cons_of_mem _ hem))
    exact ⟨ks', D', h', hD'⟩

/-- The whole player-table effect of one consistent game is in normal
form with additive per-key adjustments. -/
theorem playersOfGame_shape (sg : SGMap) (posIdx : PosIdx) (tname : Nat → String)
    (pname : Nat → Option String) (pteam : Nat → Nat) (ppos : Nat → String)
    (game : Game)
    (hc : ConsistentGame posIdx tname pname pteam ppos game) :
    ∃ ks D, MShape (fun q => mkPlayerStats q (pname q) (pteam q) (ppos q))
      (playersOfGame sg posIdx game) ks D ∧ ∀ q, PAddClass (D q) := by
  rcases hb : game.boxscore with _ | b
  · have e : ∀ m, playersOfGame sg posIdx game m = m := by
      intro m
      unfold playersOfGame
      rw [hb]
    exact ⟨[], fun _ => id, MShape_congr e (MShape_id _), fun q => PAddClass_id⟩
  · rcases hts : b.teams with _ | ⟨home_team, rest⟩
    · have e : ∀ m, playersOfGame sg posIdx game m = m := by
        intro m
        unfold playersOfGame
        rw [hb]
        dsimp only
        rw [hts]
      exact ⟨[], fun _ => id, MShape_congr e (MShape_id _), fun q => PAddClass_id⟩
    · rcases rest with _ | ⟨away_team, rest2⟩
      · have e : ∀ m, playersOfGame sg posIdx game m = m := by
          intro m
          unfold playersOfGame
          rw [hb]
          dsimp only
          rw [hts]
        exact ⟨[], fun _ => id, MShape_congr e (MShape_id _), fun q => PAddClass_id⟩
      · unfold ConsistentGame at hc
        rw [hb] at hc
        dsimp only at hc
        rw [hts] at hc
        dsimp only at hc
        obtain ⟨hn1, hn2, hg, hp, hr1, hr2⟩ := hc
        have e : ∀ m, playersOfGame sg posIdx game m =
            game.away_team_roster.foldl
              (rsPlayers sg posIdx game b away_team.id game.away_score game.home_score game.id)
              (game.home_team_roster.foldl
                (rsPlayers sg posIdx game b home_team.id game.home_score game.away_score game.id)
                (b.penalties.foldl (fun m' p => psPlayers posIdx b p m')
                  (b.goals.foldl (fun m' g => gsPlayers posIdx b g m') m))) := by
          intro m
          unfold playersOfGame
          rw [hb]
          dsimp only
          rw [hts]
        obtain ⟨ks1, D1, h1, hD1⟩ := goalsFold_players_shape pname pteam ppos b.goals
          (MShape_id (fun q => mkPlayerStats q (pname q) (pteam q) (ppos q)))
          (fun q => PAddClass_id) hg
        obtain ⟨ks2, D2, h2, hD2⟩ := pensFold_players_shape pname pteam ppos b.penalties
          h1 hD1 hp
        obtain ⟨ks3, D3, h3, hD3⟩ := rosterFold_players_shape pname pteam ppos
          game.home_team_roster h2 hD2 hr1
        obtain ⟨ks4, D4, h4, hD4⟩ := rosterFold_players_shape pname pteam ppos
          game.away_team_roster h3 hD3 hr2
        exact ⟨ks4, D4, MShape_congr e h4, hD4⟩

theorem PGShape_congr {G G' : PGames → PGames} {ks : List Nat} {gid : Nat}
    (he : ∀ pg, G pg = G' pg) (h : PGShape G' ks gid) : PGShape G ks gid := by
  intro pg q
  rw [he]
  exact h pg q

theorem asPG_shape {gid : Nat} {F : PGames → PGames} {ks : List Nat}
    (hF : PGShape F ks gid) (a : Assist) :
    ∃ ks', PGShape (fun pg => asPG gid (F pg) a) ks' gid := by
  rcases hpid : a.participantId with _ | aid
  · have e : ∀ x, asPG gid x a = x := by
      intro x
      unfold asPG
      rw [hpid]
    exact ⟨ks, PGShape_congr (fun pg => e (F pg)) hF⟩
  · by_cases h0 : aid = 0
    · have e : ∀ x, asPG gid x a = x := by
        intro x
        unfold asPG
        rw [hpid]
        dsimp only
        rw [if_pos h0]
      exact ⟨ks, PGShape_congr (fun pg => e (F pg)) hF⟩
    · have e : ∀ x, asPG gid x a = pgAdd x aid gid := by
        intro x
        unfold asPG
        rw [hpid]
        dsimp only
        rw [if_neg h0]
      exact ⟨aid :: ks, PGShape_congr (fun pg => e (F pg)) (PGShape_pgAdd hF aid)⟩

theorem assistsFold_pg_shape {gid : Nat} :
    ∀ (l : List Assist) {F : PGames → PGames} {ks : List Nat},
      PGShape F ks gid →
      ∃ ks', PGShape (fun pg => l.foldl (asPG gid) (F pg)) ks' gid := by
  intro l
  induction l with
  | nil =>
    intro F ks hF
    exact ⟨ks, hF⟩
  | cons a rest ih =>
    intro F ks hF
    obtain ⟨ks1, h1⟩ := asPG_shape hF a
    obtain ⟨ks', h'⟩ := ih h1
    exact ⟨ks', h'⟩

theorem gsPG_shape {gid : Nat} {F : PGames → PGames} {ks : List Nat}
    (hF : PGShape F ks gid) (goal : Goal) :
    ∃ ks', PGShape (fun pg => gsPG gid goal (F pg)) ks' gid := by
  rcases hpid : goal.participant.participantId with _ | sid
  · have e : ∀ x, gsPG gid goal x = x := by
      intro x
      unfold gsPG
      rw [hpid]
    exact ⟨ks, PGShape_congr (fun pg => e (F pg)) hF⟩
  · rcases htid : goal.teamId with _ | tid
    · have e : ∀ x, gsPG gid goal x = x := by
        intro x
        unfold gsPG
        rw [hpid, htid]
      exact ⟨ks, PGShape_congr (fun pg => e (F pg)) hF⟩
    · by_cases h0 : sid = 0 ∨ tid = 0
      · have e : ∀ x, gsPG gid goal x = x := by
          intro x
          unfold gsPG
          rw [hpid, htid]
          dsimp only
          rw [if_pos h0]
        exact ⟨ks, PGShape_congr (fun pg => e (F pg)) hF⟩
      · have e : ∀ x, gsPG gid goal x =
            goal.assists.foldl (asPG gid) (pgAdd x sid gid) := by
          intro x
          unfold gsPG
          rw [hpid, htid]
          dsimp only
          rw [if_neg h0]
        obtain ⟨ks', h'⟩ := assistsFold_pg_shape goal.assists (PGShape_pgAdd hF sid)
        exact ⟨ks', PGShape_congr (fun pg => e (F pg)) h'⟩

theorem psPG_shape {gid : Nat} {F : PGames → PGames} {ks : List Nat}
    (hF : PGShape F ks gid) (p : Penalty) :
    ∃ ks', PGShape (fun pg => psPG gid p (F pg)) ks' gid := by
  rcases hpid : p.participant.participantId with _ | pid
  · have e : ∀ x, psPG gid p x = x := by
      intro x
      unfold psPG
      rw [hpid]
    exact ⟨ks, PGShape_congr (fun pg => e (F pg)) hF⟩
  · rcases htid : p.teamId with _ | tid
    · have e : ∀ x, psPG gid p x = x := by
        intro x
        unfold psPG
        rw [hpid, htid]
      exact ⟨ks, PGShape_congr (fun pg => e (F pg)) hF⟩
    · by_cases h0 : pid = 0 ∨ tid = 0
      · have e : ∀ x, psPG gid p x = x := by
          intro x
          unfold psPG
          rw [hpid, htid]
          dsimp only
          rw [if_pos h0]
        exact ⟨ks, PGShape_congr (fun pg => e (F pg)) hF⟩
      · have e : ∀ x, psPG gid p x = pgAdd x pid gid := by
          intro x
          unfold psPG
          rw [hpid, htid]
          dsimp only
          rw [if_neg h0]
        exact ⟨pid :: ks, PGShape_congr (fun pg => e (F pg)) (PGShape_pgAdd hF pid)⟩

theorem rsPG_shape {posIdx : PosIdx} {b : Boxscore} {gid : Nat}
    {F : PGames → PGames} {ks : List Nat}
    (hF : PGShape F ks gid) (entry : RosterEntry) :
    ∃ ks', PGShape (fun pg => rsPG posIdx b gid (F pg) entry) ks' gid := by
  rcases hpid : entry.participantId with _ | pid
  · have e : ∀ x, rsPG posIdx b gid x entry = x := by
      intro x
      unfold rsPG
      rw [hpid]
    exact ⟨ks, PGShape_congr (fun pg => e (F pg)) hF⟩
  · rcases hnm : entry.participant.fullName with _ | nm
    · have e : ∀ x, rsPG posIdx b gid x entry = x := by
        intro x
        unfold rsPG
        rw [hpid, hnm]
      exact ⟨ks, PGShape_congr (fun pg => e (F pg)) hF⟩
    · by_cases h0 : pid = 0 ∨ nm = ""
      · have e : ∀ x, rsPG posIdx b gid x entry = x := by
          intro x
          unfold rsPG
          rw [hpid, hnm]
          dsimp only
          rw [if_pos h0]
        exact ⟨ks, PGShape_congr (fun pg => e (F pg)) hF⟩
      · by_cases hraw : get_player_position posIdx b pid ∉ (["F", "D", "G", "C"] : List String)
        · have e : ∀ x, rsPG posIdx b gid x entry = x := by
            intro x
            unfold rsPG
            rw [hpid, hnm]
            dsimp only
            rw [if_neg h0, if_pos hraw]
          exact ⟨ks, PGShape_congr (fun pg => e (F pg)) hF⟩
        · have e : ∀ x, rsPG posIdx b gid x entry = pgAdd x pid gid := by
            intro x
            unfold rsPG
            rw [hpid, hnm]
            dsimp only
            rw [if_neg h0, if_neg hraw]
          exact ⟨pid :: ks, PGShape_congr (fun pg => e (F pg)) (PGShape_pgAdd hF pid)⟩

theorem goalsFold_pg_shape {gid : Nat} :
    ∀ (goals : List Goal) {F : PGames → PGames} {ks : List Nat},
      PGShape F ks gid →
      ∃ ks', PGShape (fun pg => goals.foldl (fun pg' g => gsPG gid g pg') (F pg)) ks' gid := by
  intro goals
  induction goals with
  | nil =>
    intro F ks hF
    exact ⟨ks, hF⟩
  | cons g rest ih =>
    intro F ks hF
    obtain ⟨ks1, h1⟩ := gsPG_shape hF g
    obtain ⟨ks', h'⟩ := ih h1
    exact ⟨ks', h'⟩

theorem pensFold_pg_shape {gid : Nat} :
    ∀ (pens : List Penalty) {F : PGames → PGames} {ks : List Nat},
      PGShape F ks gid →
      ∃ ks', PGShape (fun pg => pens.foldl (fun pg' p => psPG gid p pg') (F pg)) ks' gid := by
  intro pens
  induction pens with
  | nil =>
    intro F ks hF
    exact ⟨ks, hF⟩
  | cons p rest ih =>
    intro F ks hF
    obtain ⟨ks1, h1⟩ := psPG_shape hF p
    obtain ⟨ks', h'⟩ := ih h1
    exact ⟨ks', h'⟩

theorem rosterFold_pg_shape {posIdx : PosIdx} {b : Boxscore} {gid : Nat} :
    ∀ (l : List RosterEntry) {F : PGames → PGames} {ks : List Nat},
      PGShape F ks gid →
      ∃ ks', PGShape (fun pg => l.foldl (rsPG posIdx b gid) (F pg)) ks' gid := by
  intro l
  induction l with
  | nil =>
    intro F ks hF
    exact ⟨ks, hF⟩
  | cons entry rest ih =>
    intro F ks hF
    obtain ⟨ks1, h1⟩ := rsPG_shape hF entry
    obtain ⟨ks', h'⟩ := ih h1
    exact ⟨ks', h'⟩

/-- The whole `player_games` effect of one game is in normal form:
it adds the game's own id to some set of player keys. -/
theorem pgOfGame_shape (posIdx : PosIdx) (game : Game) :
    ∃ ks, PGShape (pgOfGame posIdx game) ks game.id := by
  rcases hb : game.boxscore with _ | b
  · have e : ∀ pg, pgOfGame posIdx game pg = pg := by
      intro pg
      unfold pgOfGame
      rw [hb]
    exact ⟨[], PGShape_congr e (PGShape_id _)⟩
  · rcases hts : b.teams with _ | ⟨home_team, rest⟩
    · have e : ∀ pg, pgOfGame posIdx game pg = pg := by
        intro pg
        unfold pgOfGame
        rw [hb]
        dsimp only
        rw [hts]
      exact ⟨[], PGShape_congr e (PGShape_id _)⟩
    · rcases rest with _ | ⟨away_team, rest2⟩
      · have e : ∀ pg, pgOfGame posIdx game pg = pg := by
          intro pg
          unfold pgOfGame
          rw [hb]
          dsimp only
          rw [hts]
        exact ⟨[], PGShape_congr e (PGShape_id _)⟩
      · have e : ∀ pg, pgOfGame posIdx game pg =
            game.away_team_roster.foldl (rsPG posIdx b game.id)
              (game.home_team_roster.foldl (rsPG posIdx b game.id)
                (b.penalties.foldl (fun pg' p => psPG game.id p pg')
                  (b.goals.foldl (fun pg' g => gsPG game.id g pg') pg))) := by
          intro pg
          unfold pgOfGame
          rw [hb]
          dsimp only
          rw [hts]
        obtain ⟨ks1, h1⟩ := goalsFold_pg_shape b.goals (PGShape_id game.id)
        obtain ⟨ks2, h2⟩ := pensFold_pg_shape b.penalties h1
        obtain ⟨ks3, h3⟩ := rosterFold_pg_shape game.home_team_roster h2
        obtain ⟨ks4, h4⟩ := rosterFold_pg_shape game.away_team_roster h3
        exact ⟨ks4, PGShape_congr e h4⟩

theorem foldl_sgStep_preserve_empty (games : List Game) :
    ∀ (m : SGMap) (gid : Nat), (∀ g ∈ games, g.id = gid → goalieNamesOf g = []) →
      (games.foldl sgStep m) gid = m gid := by
  induction games with
  | nil => intro m gid h; rfl
  | cons x rest ih =>
    intro m gid h
    rw [List.foldl_cons, ih _ _ (fun g hg => h g (List.mem_cons_of_mem _ hg))]
    unfold sgStep
    by_cases hns : goalieNamesOf x = []
    · rw [if_pos hns]
    · rw [if_neg hns]
      have hx : x.id ≠ gid := fun he => hns (h x (List.mem_cons_self _ _) he)
      simp [Ne.symm hx]

/-- With distinct game ids, the starting-goalie index does not depend
on the order of the games. -/
theorem load_sg_perm (games games' : List Game) (hperm : games.Perm games')
    (hnd : (games.map Game.id).Nodup) :
    load_starting_goalies games = load_starting_goalies games' := by
  have hnd' : (games'.map Game.id).Nodup := ((hperm.map Game.id).nodup_iff).mp hnd
  funext gid
  by_cases hex : ∃ g ∈ games, g.id = gid ∧ goalieNamesOf g ≠ []
  · obtain ⟨g, hgm, hgid, hne⟩ := hex
    subst hgid
    rw [load_sg_char games g hgm hnd hne,
      load_sg_char games' g (hperm.mem_iff.mp hgm) hnd' hne]
  · push_neg at hex
    have hex' : ∀ g ∈ games', g.id = gid → goalieNamesOf g = [] :=
      fun g hg => hex g (hperm.mem_iff.mpr hg)
    unfold load_starting_goalies
    rw [foldl_sgStep_preserve_empty games _ _ hex,
      foldl_sgStep_preserve_empty games' _ _ hex']

/-- Consistency of the raw roster positions of one game (used for the
order independence of `build_player_positions_index`). -/
def RosterPositionsConsistent (pposN : Nat → String) (g : Game) : Prop :=
  (∀ e ∈ g.home_team_roster, optAll e.participantId (fun q => q ≠ 0 →
    normalizeRosterPosition e = pposN q)) ∧
  (∀ e ∈ g.away_team_roster, optAll e.participantId (fun q => q ≠ 0 →
    normalizeRosterPosition e = pposN q))

instance (pposN : Nat → String) (g : Game) :
    Decidable (RosterPositionsConsistent pposN g) := by
  unfold RosterPositionsConsistent
  infer_instance

theorem foldl_posIdxStep_preserve (l : List RosterEntry) :
    ∀ (idx : PosIdx) (pid : Nat),
      (∀ e ∈ l, ∀ q, e.participantId = some q → q ≠ 0 → q ≠ pid) →
      (l.foldl posIdxStep idx) pid = idx pid := by
  induction l with
  | nil => intro idx pid h; rfl
  | cons e rest ih =>
    intro idx pid h
    rw [List.foldl_cons, ih _ _ (fun e' he' => h e' (List.mem_cons_of_mem _ he'))]
    unfold posIdxStep
    rcases hpe : e.participantId with _ | q
    · rfl
    · dsimp only
      by_cases hq0 : q ≠ 0
      · rw [if_pos hq0]
        have hqp : q ≠ pid := h e (List.mem_cons_self _ _) q hpe hq0
        simp [Ne.symm hqp]
      · rw [if_neg hq0]

theorem foldl_posIdxStep_char (l : List RosterEntry) :
    ∀ (idx : PosIdx) (pid : Nat) (v : String), pid ≠ 0 →
      (∀ e ∈ l, e.participantId = some pid → normalizeRosterPosition e = v) →
      (∃ e ∈ l, e.participantId = some pid) →
      (l.foldl posIdxStep idx) pid = some v := by
  induction l with
  | nil =>
    intro idx pid v hpid hcons hex
    obtain ⟨e, he, _⟩ := hex
    cases he
  | cons e rest ih =>
    intro idx pid v hpid hcons hex
    by_cases hex' : ∃ e' ∈ rest, e'.participantId = some pid
    · rw [List.foldl_cons]
      exact ih _ _ _ hpid (fun e' he' => hcons e' (List.mem_cons_of_mem _ he')) hex'
    · have hpe : e.participantId = some pid := by
        obtain ⟨e0, he0m, he0⟩ := hex
        rcases List.mem_cons.mp he0m with rfl | htail
        · exact he0
        · exact absurd ⟨e0, htail, he0⟩ hex'
      rw [List.foldl_cons,
        foldl_posIdxStep_preserve rest _ pid
          (fun e' he' q hq hq0 hqp => hex' ⟨e', he', by rw [hq, hqp]⟩)]
      unfold posIdxStep
      rw [hpe]
      dsimp only
      rw [if_pos hpid]
      simp [hcons e (List.mem_cons_self _ _) hpe]

/-- One game's combined (home then away) roster pass. -/
def posIdxGameStep (idx : PosIdx) (g : Game) : PosIdx :=
  g.away_team_roster.foldl posIdxStep (g.home_team_roster.foldl posIdxStep idx)

theorem posIdxGameStep_preserve (g : Game) (idx : PosIdx) (pid : Nat)
    (h : ∀ e, e ∈ g.home_team_roster ∨ e ∈ g.away_team_roster →
      ∀ q, e.participantId = some q → q ≠ 0 → q ≠ pid) :
    posIdxGameStep idx g pid = idx pid := by
  unfold posIdxGameStep
  rw [foldl_posIdxStep_preserve _ _ _ (fun e he => h e (Or.inr he)),
    foldl_posIdxStep_preserve _ _ _ (fun e he => h e (Or.inl he))]

theorem posIdxGameStep_char (g : Game) (idx : PosIdx) (pid : Nat) (v : String)
    (hpid : pid ≠ 0)
    (hcons : ∀ e, e ∈ g.home_team_roster ∨ e ∈ g.away_team_roster →
      e.participantId = some pid → normalizeRosterPosition e = v)
    (hex : (∃ e ∈ g.home_team_roster, e.participantId = some pid) ∨
      (∃ e ∈ g.away_team_roster, e.participantId = some pid)) :
    posIdxGameStep idx g pid = some v := by
  unfold posIdxGameStep
  by_cases hexa : ∃ e ∈ g.away_team_roster, e.participantId = some pid
  · exact foldl_posIdxStep_char _ _ _ _ hpid
      (fun e he => hcons e (Or.inr he)) hexa
  · have hexh : ∃ e ∈ g.home_team_roster, e.participantId = some pid := by
      rcases hex with h | h
      · exact h
      · exact absurd h hexa
    rw [foldl_posIdxStep_preserve _ _ _
      (fun e he q hq hq0 hqp => hexa ⟨e, he, by rw [hq, hqp]⟩)]
    exact foldl_posIdxStep_char _ _ _ _ hpid
      (fun e he => hcons e (Or.inl he)) hexh

/-- Whether a game's rosters mention a player id. -/
def gameRosters (g : Game) (pid : Nat) : Prop :=
  (∃ e ∈ g.home_team_roster, e.participantId = some pid) ∨
  (∃ e ∈ g.away_team_roster, e.participantId = some pid)

theorem foldl_posIdxGameStep_preserve (games : List Game) :
    ∀ (idx : PosIdx) (pid : Nat),
      (∀ g ∈ games, ∀ e, e ∈ g.home_team_roster ∨ e ∈ g.away_team_roster →
        ∀ q, e.participantId = some q → q ≠ 0 → q ≠ pid) →
      (games.foldl posIdxGameStep idx) pid = idx pid := by
  induction games with
  | nil => intro idx pid h; rfl
  | cons g rest ih =>
    intro idx pid h
    rw [List.foldl_cons, ih _ _ (fun g' hg' => h g' (List.mem_cons_of_mem _ hg')),
      posIdxGameStep_preserve g _ _ (h g (List.mem_cons_self _ _))]

theorem foldl_posIdxGameStep_char (games : List Game) :
    ∀ (idx : PosIdx) (pid : Nat) (v : String), pid ≠ 0 →
      (∀ g ∈ games, ∀ e, e ∈ g.home_team_roster ∨ e ∈ g.away_team_roster →
        e.participantId = some pid → normalizeRosterPosition e = v) →
      (∃ g ∈ games, gameRosters g pid) →
      (games.foldl posIdxGameStep idx) pid = some v := by
  induction games with
  | nil =>
    intro idx pid v hpid hcons hex
    obtain ⟨g, hg, _⟩ := hex
    cases hg
  | cons g rest ih =>
    intro idx pid v hpid hcons hex
    by_cases hex' : ∃ g' ∈ rest, gameRosters g' pid
    · rw [List.foldl_cons]
      exact ih _ _ _ hpid (fun g' hg' => hcons g' (List.mem_cons_of_mem _ hg')) hex'
    · have hg : gameRosters g pid := by
        obtain ⟨g0, hg0m, hg0⟩ := hex
        rcases List.mem_cons.mp hg0m with rfl | htail
        · exact hg0
        · exact absurd ⟨g0, htail, hg0⟩ hex'
      rw [List.foldl_cons,
        foldl_posIdxGameStep_preserve rest _ pid
          (fun g' hg' e he q hq hq0 hqp => hex' ⟨g', hg', by
            subst hqp
            rcases he with h | h
            · exact Or.inl ⟨e, h, hq⟩
            · exact Or.inr ⟨e, h, hq⟩⟩)]
      exact posIdxGameStep_char g _ _ _ hpid (hcons g (List.mem_cons_self _ _)) hg

/-- With consistent roster positions, the player-position index does
not depend on the order of the games. -/
theorem build_posIdx_perm (games games' : List Game) (hperm : games.Perm games')
    (pposN : Nat → String)
    (hcons : ∀ g ∈ games, RosterPositionsConsistent pposN g) :
    build_player_positions_index games = build_player_positions_index games' := by
  have hcons' : ∀ g ∈ games, ∀ e, e ∈ g.home_team_roster ∨ e ∈ g.away_team_roster →
      ∀ q, e.participantId = some q → q ≠ 0 → normalizeRosterPosition e = pposN q := by
    intro g hg e he q hq hq0
    rcases he with h | h
    · exact optAll_eq_some ((hcons g hg).1 e h) hq hq0
    · exact optAll_eq_some ((hcons g hg).2 e h) hq hq0
  have heq : ∀ (l : List Game), build_player_positions_index l =
      l.foldl posIdxGameStep (fun _ => none) := by
    intro l
    rfl
  rw [heq, heq]
  funext pid
  by_cases hpid : pid = 0
  · subst hpid
    rw [foldl_posIdxGameStep_preserve games _ _
        (fun g hg e he q hq hq0 hqp => hq0 hqp),
      foldl_posIdxGameStep_preserve games' _ _
        (fun g hg e he q hq hq0 hqp => hq0 hqp)]
  · by_cases hex : ∃ g ∈ games, gameRosters g pid
    · have hex' : ∃ g ∈ games', gameRosters g pid := by
        obtain ⟨g, hg, hw⟩ := hex
        exact ⟨g, hperm.mem_iff.mp hg, hw⟩
      rw [foldl_posIdxGameStep_char games _ pid (pposN pid) hpid
          (fun g hg e he hq => hcons' g hg e he pid hq hpid) hex,
        foldl_posIdxGameStep_char games' _ pid (pposN pid) hpid
          (fun g hg e he hq => hcons' g (hperm.mem_iff.mpr hg) e he pid hq hpid) hex']
    · have hnone : ∀ g ∈ games, ∀ e, e ∈ g.home_team_roster ∨ e ∈ g.away_team_roster →
          ∀ q, e.participantId = some q → q ≠ 0 → q ≠ pid := by
        intro g hg e he q hq hq0 hqp
        subst hqp
        refine hex ⟨g, hg, ?_⟩
        rcases he with h | h
        · exact Or.inl ⟨e, h, hq⟩
        · exact Or.inr ⟨e, h, hq⟩
      rw [foldl_posIdxGameStep_preserve games _ _ hnone,
        foldl_posIdxGameStep_preserve games' _ _
          (fun g hg => hnone g (hperm.mem_iff.mpr hg))]

/-- Two consistent games' effects on the compiler state commute. -/
theorem processGame_comm (sg : SGMap) (posIdx : PosIdx) (tname : Nat → String)
    (pname : Nat → Option String) (pteam : Nat → Nat) (ppos : Nat → String)
    (g1 g2 : Game)
    (h1 : ConsistentGame posIdx tname pname pteam ppos g1)
    (h2 : ConsistentGame posIdx tname pname pteam ppos g2) (st : CState) :
    processGame sg posIdx (processGame sg posIdx st g1) g2 =
      processGame sg posIdx (processGame sg posIdx st g2) g1 := by
  obtain ⟨kt1, D1, hT1, hA1⟩ := teamsOfGame_shape posIdx tname pname pteam ppos g1 h1
  obtain ⟨kt2, D2, hT2, hA2⟩ := teamsOfGame_shape posIdx tname pname pteam ppos g2 h2
  obtain ⟨kp1, E1, hP1, hB1⟩ := playersOfGame_shape sg posIdx tname pname pteam ppos g1 h1
  obtain ⟨kp2, E2, hP2, hB2⟩ := playersOfGame_shape sg posIdx tname pname pteam ppos g2 h2
  obtain ⟨kg1, hG1⟩ := pgOfGame_shape posIdx g1
  obtain ⟨kg2, hG2⟩ := pgOfGame_shape posIdx g2
  apply CState_ext
  · simp only [processGame_teams_proj]
    exact MShape_comm _ hT2 hT1
      (fun q x => TAddClass_comm (hA2 q) (hA1 q) x) st.teams
  · simp only [processGame_players_proj]
    exact MShape_comm _ hP2 hP1
      (fun q x => PAddClass_comm (hB2 q) (hB1 q) x) st.players
  · simp only [processGame_pg_proj]
    exact PGShape_comm hG2 hG1 st.pgames

/-- `find?` by game id is order independent when the ids are distinct. -/
theorem find?_id_perm (games games' : List Game) (hperm : games.Perm games')
    (hnd : (games.map Game.id).Nodup) (gid : Nat) :
    games.find? (fun g => g.id = gid) = games'.find? (fun g => g.id = gid) := by
  cases hf : games.find? (fun g => g.id = gid) with
  | none =>
    rw [List.find?_eq_none] at hf
    symm
    rw [List.find?_eq_none]
    intro x hx
    exact hf x (hperm.mem_iff.mpr hx)
  | some x =>
    have hx : x ∈ games := List.mem_of_find?_eq_some hf
    have hpx : x.id = gid := by simpa using List.find?_some hf
    cases hf' : games'.find? (fun g => g.id = gid) with
    | none =>
      rw [List.find?_eq_none] at hf'
      exact absurd (by simpa using hf' x (hperm.mem_iff.mp hx)) (by simp [hpx])
    | some y =>
      have hy : y ∈ games := hperm.mem_iff.mpr (List.mem_of_find?_eq_some hf')
      have hpy : y.id = gid := by simpa using List.find?_some hf'
      rw [List.inj_on_of_nodup_map hnd hx hy (by rw [hpx, hpy])]

/-- The `games_played` final pass is order independent when the game
ids are distinct. -/
theorem finalize_players_perm (games games' : List Game) (hperm : games.Perm games')
    (hnd : (games.map Game.id).Nodup) (sg : SGMap) (st : CState) :
    finalize_players games sg st = finalize_players games' sg st := by
  have hfind : ∀ gid, games.find? (fun g => g.id = gid) =
      games'.find? (fun g => g.id = gid) :=
    find?_id_perm games games' hperm hnd
  funext pid
  unfold finalize_players
  rcases st.players pid with _ | p
  · rfl
  · dsimp only
    simp only [hfind]

/-- Claim C1 (amended): `process_games` is invariant under permutation
of the input games provided the batch is consistent: game ids are
distinct, every encounter of a team carries the same name, every
encounter of a player carries the same name, team and (normalized)
position, raw roster positions are consistent, and every goal or
penalty belongs to one of its game's two teams.  Without these
assumptions the first/last-write-wins initializations make the output
order dependent (see the counterexample). -/
theorem C1_permutation_invariance_amended
    (games games' : List Game) (hperm : games.Perm games')
    (hnd : (games.map Game.id).Nodup)
    (tname : Nat → String) (pname : Nat → Option String) (pteam : Nat → Nat)
    (ppos : Nat → String) (pposN : Nat → String)
    (hcons : ∀ g ∈ games, ConsistentGame (build_player_positions_index games)
      tname pname pteam ppos g)
    (hrpos : ∀ g ∈ games, RosterPositionsConsistent pposN g) :
    process_games games = process_games games' := by
  have hpos_eq : build_player_positions_index games = build_player_positions_index games' :=
    build_posIdx_perm games games' hperm pposN hrpos
  have hsg_eq : load_starting_goalies games = load_starting_goalies games' :=
    load_sg_perm games games' hperm hnd
  have hcomm : ∀ x ∈ games, ∀ y ∈ games, ∀ z,
      processGame (load_starting_goalies games) (build_player_positions_index games)
        (processGame (load_starting_goalies games) (build_player_positions_index games) z x) y =
      processGame (load_starting_goalies games) (build_player_positions_index games)
        (processGame (load_starting_goalies games) (build_player_positions_index games) z y) x :=
    fun x hx y hy z => processGame_comm _ _ tname pname pteam ppos x y
      (hcons x hx) (hcons y hy) z
  have hst : games.foldl
      (processGame (load_starting_goalies games) (build_player_positions_index games))
      ⟨fun _ => none, fun _ => none, fun _ => []⟩ =
    games'.foldl
      (processGame (load_starting_goalies games') (build_player_positions_index games'))
      ⟨fun _ => none, fun _ => none, fun _ => []⟩ := by
    rw [← hpos_eq, ← hsg_eq]
    exact hperm.foldl_eq' hcomm _
  have hfin : ∀ st, finalize_players games (load_starting_goalies games') st =
      finalize_players games' (load_starting_goalies games') st :=
    fun st => finalize_players_perm games games' hperm hnd _ st
  unfold process_games
  dsimp only
  rw [hst, hsg_eq, hfin]

/-- A consistent two-game batch (same teams, stable rosters) for the
C1 witness: first game. -/
def gW1 : Game :=
  { id := 201, home_score := 3, away_score := 1,
    boxscore := some { teams := [⟨10, "TENS"⟩, ⟨20, "TWENTIES"⟩], goals := [⟨⟨some 5, some "P ONE"⟩, some 10, [⟨some 6, some "P TWO"⟩], false, false⟩], penalties := [⟨⟨some 7, some "P THREE"⟩, some 20, some "Minor", 1, 5, 0⟩], roster := [] },
    home_team_roster := [⟨some 5, ⟨some 5, some "P ONE"⟩, ["F"], some 9⟩],
    away_team_roster := [⟨some 8, ⟨some 8, some "P FOUR"⟩, ["D"], some 4⟩],
    starting_goalies := none }

/-- Second game of the C1 witness batch. -/
def gW2 : Game :=
  { id := 202, home_score := 2, away_score := 2,
    boxscore := some { teams := [⟨10, "TENS"⟩, ⟨20, "TWENTIES"⟩], goals := [], penalties := [], roster := [] },
    home_team_roster := [⟨some 5, ⟨some 5, some "P ONE"⟩, ["F"], some 9⟩],
    away_team_roster := [⟨some 8, ⟨some 8, some "P FOUR"⟩, ["D"], some 4⟩],
    starting_goalies := none }

def tnameW : Nat → String :=
  fun t => if t = 10 then "TENS" else if t = 20 then "TWENTIES" else ""

def pnameW : Nat → Option String :=
  fun q => if q = 5 then some "P ONE" else if q = 6 then some "P TWO"
    else if q = 7 then some "P THREE" else if q = 8 then some "P FOUR" else none

def pteamW : Nat → Nat :=
  fun q => if q = 5 then 10 else if q = 6 then 10
    else if q = 7 then 20 else if q = 8 then 20 else 0

def pposW : Nat → String := fun q => if q = 8 then "D" else "F"

/-- Concrete order-independence check on the consistent two-game
batch. -/
theorem C1_witness : process_games [gW1, gW2] = process_games [gW2, gW1] :=
  C1_permutation_invariance_amended [gW1, gW2] [gW2, gW1]
    (List.Perm.swap gW2 gW1 []) (by decide)
    tnameW pnameW pteamW pposW pposW (by decide) (by decide)

/-- Concrete check of the C4 invariants on a one-game batch. -/
theorem C4_witness :
    (process_games [gameC4w]).teams 10 = some tC4 ∧
    tC4.points = 2 * tC4.wins + tC4.ties ∧
    tC4.goal_differential = (tC4.goals_for : Int) - (tC4.goals_against : Int) :=
  ⟨by decide, C4_team_invariants [gameC4w] 10 tC4 (by decide)⟩

end Lheq
